import Mathlib

/-!
# Kirkwood / mvebu SPI controller driver (`drivers/spi/kirkwood_spi.c`)

A shallow embedding of the register-level SPI driver: the configuration logic
(`mvebu_spi_set_speed`, `mvebu_spi_set_mode`, the 50 MHz AC timing erratum) and the polled
transfer engine (`_spi_xfer`), followed by theorems about them.

Conventions
* C `u32` / `unsigned int` values are natural numbers; a `% 2 ^ 32` is written where the C
  arithmetic can wrap (`bitlen -= 8`, `~mask`, the prescaler sum, values delivered by hardware).
* The controller is a block of memory-mapped registers plus an environment `Hw` that decides
  what the volatile registers (`irq_cause`, `din`) show; every register access is logged.
* The `while (bitlen > 4)` loop may run forever, so it takes a fuel argument (the number of
  loop iterations allowed) and returns `none` when the fuel does not suffice.
-/

namespace KirkwoodSpi

/-! ## Constants taken from headers -/

/-- Modelled from the spec: the constants the driver takes from `asm/arch-mvebu/spi.h`, `spi.h`
and the board configuration, whose values the sources do not give. They are kept symbolic: every
definition below is parameterised by a `Header`, and a theorem states what it needs of them. -/
structure Header where
  CONFIG_SYS_TCLK : Nat
  KWSPI_CLKPRESCL_MASK : Nat
  KWSPI_CLKPRESCL_MIN : Nat
  KWSPI_CSN_ACT : Nat
  KWSPI_SMEMRDY : Nat
  KWSPI_IRQMASK : Nat
  KWSPI_SMEMRDIRQ : Nat
  KWSPI_XFERLEN_1BYTE : Nat
  KWSPI_XFERLEN_MASK : Nat
  KWSPI_ADRLEN_3BYTE : Nat
  KWSPI_CPOL : Nat
  KWSPI_CPHA : Nat
  KWSPI_TXLSBF : Nat
  KWSPI_RXLSBF : Nat
  KW_SPI_TMISO_SAMPLE_MASK : Nat
  KW_SPI_TMISO_SAMPLE_1 : Nat
  KW_SPI_TMISO_SAMPLE_2 : Nat
  KWSPI_CS_SHIFT : Nat
  KWSPI_CS_MASK : Nat
  KWSPI_TIMEOUT : Nat
  SPI_CPHA : Nat
  SPI_CPOL : Nat
  SPI_LSB_FIRST : Nat
  SPI_XFER_BEGIN : Nat
  SPI_XFER_END : Nat

/-- The values of the constants in the upstream U-Boot headers
(`arch/arm/include/asm/arch-mvebu/spi.h`, `include/spi.h`), for a board whose core clock
`CONFIG_SYS_TCLK` is `tclk`. Used for the concrete instances only. -/
def upstream (tclk : Nat) : Header where
  CONFIG_SYS_TCLK := tclk
  KWSPI_CLKPRESCL_MASK := 0x1f
  KWSPI_CLKPRESCL_MIN := 0x12
  KWSPI_CSN_ACT := 1
  KWSPI_SMEMRDY := 1 <<< 1
  KWSPI_IRQMASK := 0
  KWSPI_SMEMRDIRQ := 1
  KWSPI_XFERLEN_1BYTE := 0
  KWSPI_XFERLEN_MASK := 1 <<< 5
  KWSPI_ADRLEN_3BYTE := 2 <<< 8
  KWSPI_CPOL := 1 <<< 11
  KWSPI_CPHA := 1 <<< 12
  KWSPI_TXLSBF := 1 <<< 13
  KWSPI_RXLSBF := 1 <<< 14
  KW_SPI_TMISO_SAMPLE_MASK := 0x3 <<< 6
  KW_SPI_TMISO_SAMPLE_1 := 1 <<< 6
  KW_SPI_TMISO_SAMPLE_2 := 2 <<< 6
  KWSPI_CS_SHIFT := 2
  KWSPI_CS_MASK := 0x7
  KWSPI_TIMEOUT := 10000
  SPI_CPHA := 1
  SPI_CPOL := 2
  SPI_LSB_FIRST := 8
  SPI_XFER_BEGIN := 1
  SPI_XFER_END := 2

/-! ## Registers, hardware and the observable trace -/

/-- Bitwise complement of a 32-bit value (C `~x` converted to `u32`). -/
def not32 (x : Nat) : Nat := (2 ^ 32 - 1) ^^^ (x % 2 ^ 32)

/-- Modelled from the spec: the registers of `struct kwspi_registers` (declared in
`asm/arch-mvebu/spi.h`) that the driver touches: control, configuration, data-out, data-in,
interrupt-cause, interrupt-mask and timing. -/
inductive Reg where
  | ctrl
  | cfg
  | dout
  | din
  | irq_cause
  | irq_mask
  | timing1
  deriving DecidableEq, Repr

/-- Contents of the register block (`struct kwspi_registers`). -/
structure kwspi_registers where
  ctrl : Nat
  cfg : Nat
  dout : Nat
  din : Nat
  irq_cause : Nat
  irq_mask : Nat
  timing1 : Nat
  deriving DecidableEq, Repr

/-- Stored value of a register. -/
def kwspi_registers.get (g : kwspi_registers) : Reg → Nat
  | .ctrl => g.ctrl
  | .cfg => g.cfg
  | .dout => g.dout
  | .din => g.din
  | .irq_cause => g.irq_cause
  | .irq_mask => g.irq_mask
  | .timing1 => g.timing1

/-- Register block with one register replaced. -/
def kwspi_registers.set (g : kwspi_registers) (r : Reg) (v : Nat) : kwspi_registers :=
  match r with
  | .ctrl => { g with ctrl := v }
  | .cfg => { g with cfg := v }
  | .dout => { g with dout := v }
  | .din => { g with din := v }
  | .irq_cause => { g with irq_cause := v }
  | .irq_mask => { g with irq_mask := v }
  | .timing1 => { g with timing1 := v }

/-- Platform data of a bus (`struct mvebu_spi_plat`): the register handle and the erratum flag. -/
structure mvebu_spi_plat where
  spireg : Nat
  is_errata_50mhz_ac : Bool
  deriving DecidableEq, Repr

/-- Observable actions of the driver, in program order. -/
inductive Event where
  | rd (r : Reg) (v : Nat)
  | wr (r : Reg) (v : Nat)
  | store (pos : Nat) (b : Nat)
  | timeout
  deriving DecidableEq, Repr

/-- The controller hardware as seen by the driver. A write to `dout` starts a transfer; transfers
are numbered 1, 2, 3, ... in the order they are started. `ready t k` tells whether the read-ready
bit is raised when `irq_cause` is read for the `k`-th time (counting from 0) after transfer `t`
was started; `din t` is the word the data-in register shows for transfer `t`. -/
structure Hw where
  ready : Nat → Nat → Bool
  din : Nat → Nat

/-- Everything the driver can read or change: the register block, the platform data, how many
transfers were started and how often `irq_cause` was read since the last start, the memory behind
the `din` pointer, and the log of actions so far. -/
structure World where
  reg : kwspi_registers
  plat : mvebu_spi_plat
  nxfer : Nat
  polls : Nat
  inbuf : List Nat
  trace : List Event
  deriving DecidableEq, Repr

/-- Modelled from the spec: `readl(&reg->r)` of `asm/io.h`, a 32-bit register read, together
with what the hardware shows. Reading `irq_cause` shows the stored value with the read-ready bit
`KWSPI_SMEMRDIRQ` added when the hardware raises it (the bit then stays latched in the register);
reading `din` shows the word received by the current transfer; the other registers are plain
storage. -/
def readl (K : Header) (hw : Hw) (r : Reg) (w : World) : Nat × World :=
  match r with
  | .irq_cause =>
    let v := w.reg.irq_cause ||| (if hw.ready w.nxfer w.polls then K.KWSPI_SMEMRDIRQ else 0)
    (v, { w with reg := { w.reg with irq_cause := v }, polls := w.polls + 1,
                 trace := w.trace ++ [Event.rd Reg.irq_cause v] })
  | .din =>
    let v := hw.din w.nxfer % 2 ^ 32
    (v, { w with reg := { w.reg with din := v }, trace := w.trace ++ [Event.rd Reg.din v] })
  | r => (w.reg.get r, { w with trace := w.trace ++ [Event.rd r (w.reg.get r)] })

/-- Modelled from the spec: `writel(v, &reg->r)` of `asm/io.h`, a 32-bit register write. A write
to `dout` both sets the value to shift out and starts the next transfer. -/
def writel (v : Nat) (r : Reg) (w : World) : World :=
  match r with
  | .dout =>
    { w with reg := { w.reg with dout := v }, nxfer := w.nxfer + 1, polls := 0,
             trace := w.trace ++ [Event.wr Reg.dout v] }
  | r => { w with reg := w.reg.set r v, trace := w.trace ++ [Event.wr r v] }

/-- Modelled from the spec: `setbits_le32(&reg->r, set)` of `asm/io.h`, a read-modify-write:
read, or in `set`, write back. -/
def setbits_le32 (K : Header) (hw : Hw) (r : Reg) (set : Nat) (w : World) : World :=
  let (v, w1) := readl K hw r w
  writel (v ||| set) r w1

/-- Modelled from the spec: `clrbits_le32(&reg->r, clear)` of `asm/io.h`, a read-modify-write:
read, mask out `clear`, write back. -/
def clrbits_le32 (K : Header) (hw : Hw) (r : Reg) (clear : Nat) (w : World) : World :=
  let (v, w1) := readl K hw r w
  writel (v &&& not32 clear) r w1

/-- Modelled from the spec: `clrsetbits_le32(&reg->r, clear, set)` of `asm/io.h`, a
read-modify-write: read, mask out `clear`, or in `set`, write back. -/
def clrsetbits_le32 (K : Header) (hw : Hw) (r : Reg) (clear set : Nat) (w : World) : World :=
  let (v, w1) := readl K hw r w
  writel ((v &&& not32 clear) ||| set) r w1

/-- The `printf` of the time-out message. -/
def printf_timeout (w : World) : World :=
  { w with trace := w.trace ++ [Event.timeout] }

/-! ## Configuration logic -/

/-- The prescaler `data` that `mvebu_spi_set_speed` computes from `hz`: the sum in 32-bit unsigned
arithmetic, then the two clamping assignments. -/
def set_speed_prescaler (K : Header) (hz : Nat) : Nat :=
  let data := ((K.CONFIG_SYS_TCLK / 2) / hz + 0x10) % 2 ^ 32
  let data := if data < K.KWSPI_CLKPRESCL_MIN then K.KWSPI_CLKPRESCL_MIN else data
  if data > K.KWSPI_CLKPRESCL_MASK then K.KWSPI_CLKPRESCL_MASK else data

/-- `mvebu_spi_set_speed(bus, hz)`. The division by `hz` is undefined for `hz = 0`, where the
embedding returns `none`; otherwise the return value and the new world. -/
def mvebu_spi_set_speed (K : Header) (hz : Nat) (w : World) : Option (Int × World) :=
  if hz = 0 then none
  else some (0, writel (K.KWSPI_ADRLEN_3BYTE ||| set_speed_prescaler K hz) Reg.cfg w)

/-- `mvebu_spi_50mhz_ac_timing_erratum(bus, mode)`. -/
def mvebu_spi_50mhz_ac_timing_erratum (K : Header) (hw : Hw) (mode : Nat) (w : World) : World :=
  let (data, w1) := readl K hw Reg.timing1 w
  let data := data &&& not32 K.KW_SPI_TMISO_SAMPLE_MASK
  let data :=
    if K.CONFIG_SYS_TCLK = 250000000 ∧ mode &&& K.SPI_CPOL ≠ 0 ∧ mode &&& K.SPI_CPHA ≠ 0 then
      data ||| K.KW_SPI_TMISO_SAMPLE_2
    else
      data ||| K.KW_SPI_TMISO_SAMPLE_1
  writel data Reg.timing1 w1

/-- `mvebu_spi_set_mode(bus, mode)`: return value and new world. -/
def mvebu_spi_set_mode (K : Header) (hw : Hw) (mode : Nat) (w : World) : Int × World :=
  let (data, w1) := readl K hw Reg.cfg w
  let data := data &&& not32 (K.KWSPI_CPHA ||| K.KWSPI_CPOL ||| K.KWSPI_RXLSBF ||| K.KWSPI_TXLSBF)
  let data := if mode &&& K.SPI_CPHA ≠ 0 then data ||| K.KWSPI_CPHA else data
  let data := if mode &&& K.SPI_CPOL ≠ 0 then data ||| K.KWSPI_CPOL else data
  let data :=
    if mode &&& K.SPI_LSB_FIRST ≠ 0 then data ||| (K.KWSPI_RXLSBF ||| K.KWSPI_TXLSBF) else data
  let w2 := writel data Reg.cfg w1
  let w3 :=
    if w2.plat.is_errata_50mhz_ac then mvebu_spi_50mhz_ac_timing_erratum K hw mode w2 else w2
  (0, w3)

/-- The clamp of the specification: `x` forced into the closed interval `[lo, hi]`. -/
def clampSpec (x lo hi : Nat) : Nat :=
  if x < lo then lo else if hi < x then hi else x

/-! ## Transfer engine -/

/-- `_spi_cs_activate(reg)`. -/
def _spi_cs_activate (K : Header) (hw : Hw) (w : World) : World :=
  setbits_le32 K hw Reg.ctrl K.KWSPI_CSN_ACT w

/-- `_spi_cs_deactivate(reg)`. -/
def _spi_cs_deactivate (K : Header) (hw : Hw) (w : World) : World :=
  clrbits_le32 K hw Reg.ctrl K.KWSPI_CSN_ACT w

/-- The variables of `_spi_xfer` that its loop changes: the remaining bit count, the `dout`
pointer (the bytes at and after it, `none` for a null pointer) and the `din` pointer (an offset
into `World.inbuf`, `none` for a null pointer). -/
structure XferVars where
  bitlen : Nat
  dout : Option (List Nat)
  din : Option Nat
  deriving DecidableEq, Repr

/-- `*(u32 *)dout`: the four bytes at the pointer read as a little-endian word. -/
def load_le32 (l : List Nat) : Nat :=
  l.getD 0 0 % 256 + 256 * (l.getD 1 0 % 256) + 65536 * (l.getD 2 0 % 256)
    + 16777216 * (l.getD 3 0 % 256)

/-- The `for (tm = 0, isread = 0; tm < KWSPI_TIMEOUT; ++tm)` loop. The first argument is the
number of iterations left (`KWSPI_TIMEOUT - tm`); the result carries the final `tm`. -/
def poll_loop (K : Header) (hw : Hw) : Nat → Nat → XferVars → World → Nat × XferVars × World
  | 0, tm, x, w => (tm, x, w)
  | n + 1, tm, x, w =>
    let (c, w1) := readl K hw Reg.irq_cause w
    if c &&& K.KWSPI_SMEMRDIRQ ≠ 0 then
      let (tmpdin, w2) := readl K hw Reg.din w1
      let (din1, w3) :=
        match x.din with
        | some p =>
          (some (p + 1),
            { w2 with inbuf := w2.inbuf.set p (tmpdin % 256),
                      trace := w2.trace ++ [Event.store p (tmpdin % 256)] })
        | none => (none, w2)
      let dout1 := x.dout.map List.tail
      (tm, { bitlen := (x.bitlen + 2 ^ 32 - 8) % 2 ^ 32, dout := dout1, din := din1 }, w3)
    else
      poll_loop K hw n (tm + 1) x w1

/-- The byte `tmpdout` written to data-out: `*(u32 *)dout & 0xff` when `dout` is not null, else
0. -/
def out_byte (dout : Option (List Nat)) : Nat :=
  match dout with
  | some l => load_le32 l &&& 0xff
  | none => 0

/-- Start of one byte exchange: clear the read-ready bit of `irq_cause`, then write the byte to
data-out. -/
def xfer_start (K : Header) (hw : Hw) (tmpdout : Nat) (w : World) : World :=
  writel tmpdout Reg.dout (clrbits_le32 K hw Reg.irq_cause K.KWSPI_SMEMRDIRQ w)

/-- One iteration of the `while (bitlen > 4)` loop body. -/
def xfer_iter (K : Header) (hw : Hw) (x : XferVars) (w : World) : XferVars × World :=
  let tmpdout := out_byte x.dout
  let w2 := xfer_start K hw tmpdout w
  let (tm, x1, w3) := poll_loop K hw K.KWSPI_TIMEOUT 0 x w2
  let w4 := if tm ≥ K.KWSPI_TIMEOUT then printf_timeout w3 else w3
  (x1, w4)

/-- The `while (bitlen > 4)` loop, allowed at most `fuel` iterations. -/
def xfer_while (K : Header) (hw : Hw) : Nat → XferVars → World → Option (XferVars × World)
  | 0, x, w => if x.bitlen > 4 then none else some (x, w)
  | fuel + 1, x, w =>
    if x.bitlen > 4 then
      let (x1, w1) := xfer_iter K hw x w
      xfer_while K hw fuel x1 w1
    else some (x, w)

/-- `_spi_xfer(reg, bitlen, dout, din, flags)`: `none` when `fuel` loop iterations do not
suffice, otherwise the return value and the new world. -/
def _spi_xfer (K : Header) (hw : Hw) (fuel : Nat) (bitlen : Nat) (dout : Option (List Nat))
    (din : Option Nat) (flags : Nat) (w : World) : Option (Int × World) :=
  let w1 := if flags &&& K.SPI_XFER_BEGIN ≠ 0 then _spi_cs_activate K hw w else w
  let w2 := clrsetbits_le32 K hw Reg.cfg K.KWSPI_XFERLEN_MASK K.KWSPI_XFERLEN_1BYTE w1
  match xfer_while K hw fuel { bitlen := bitlen, dout := dout, din := din } w2 with
  | none => none
  | some (_, w3) =>
    let w4 := if flags &&& K.SPI_XFER_END ≠ 0 then _spi_cs_deactivate K hw w3 else w3
    some (0, w4)

/-- `mvebu_spi_xfer(dev, bitlen, dout, din, flags)`. -/
def mvebu_spi_xfer (K : Header) (hw : Hw) (fuel : Nat) (bitlen : Nat) (dout : Option (List Nat))
    (din : Option Nat) (flags : Nat) (w : World) : Option (Int × World) :=
  _spi_xfer K hw fuel bitlen dout din flags w

/-! ## Bus lifecycle -/

/-- The weak default of `mvebu_board_spi_claim_bus(dev)`: nothing to do, returns 0. -/
def mvebu_board_spi_claim_bus (w : World) : Int × World :=
  (0, w)

/-- `mvebu_spi_claim_bus(dev)`, where `cs` is what `spi_chip_select(dev)` reports: program the
chip-select field of `ctrl`, then call the board hook. The set value is taken as a 32-bit word. -/
def mvebu_spi_claim_bus (K : Header) (hw : Hw) (cs : Nat) (w : World) : Int × World :=
  let w1 := clrsetbits_le32 K hw Reg.ctrl (K.KWSPI_CS_MASK <<< K.KWSPI_CS_SHIFT)
    ((cs <<< K.KWSPI_CS_SHIFT) % 2 ^ 32) w
  mvebu_board_spi_claim_bus w1

/-- The weak default of `mvebu_board_spi_release_bus(dev)`: nothing to do, returns 0. -/
def mvebu_board_spi_release_bus (w : World) : Int × World :=
  (0, w)

/-- `mvebu_spi_release_bus(dev)`. -/
def mvebu_spi_release_bus (w : World) : Int × World :=
  mvebu_board_spi_release_bus w

/-- `mvebu_spi_probe(bus)`: three register writes. The write to `irq_cause` is recorded as a
store like the others; how the controller reacts to it is not in the source. -/
def mvebu_spi_probe (K : Header) (w : World) : Int × World :=
  let w1 := writel K.KWSPI_SMEMRDY Reg.ctrl w
  let w2 := writel K.KWSPI_SMEMRDIRQ Reg.irq_cause w1
  let w3 := writel K.KWSPI_IRQMASK Reg.irq_mask w2
  (0, w3)

/-- Per-variant driver data (`struct mvebu_spi_dev`). -/
structure mvebu_spi_dev where
  is_errata_50mhz_ac : Bool
  deriving DecidableEq, Repr

/-- Driver data of `marvell,orion-spi`. -/
def armada_spi_dev_data : mvebu_spi_dev :=
  { is_errata_50mhz_ac := false }

/-- Driver data of `marvell,armada-xp-spi`. -/
def armada_xp_spi_dev_data : mvebu_spi_dev :=
  { is_errata_50mhz_ac := false }

/-- Driver data of `marvell,armada-375-spi`. -/
def armada_375_spi_dev_data : mvebu_spi_dev :=
  { is_errata_50mhz_ac := false }

/-- Driver data of `marvell,armada-380-spi`. -/
def armada_380_spi_dev_data : mvebu_spi_dev :=
  { is_errata_50mhz_ac := true }

/-- One entry of the match table (`struct udevice_id`): compatible string and driver data. -/
structure udevice_id where
  compatible : String
  data : mvebu_spi_dev
  deriving DecidableEq, Repr

/-- The match table `mvebu_spi_ids`, without its empty terminator. -/
def mvebu_spi_ids : List udevice_id :=
  [ { compatible := "marvell,orion-spi", data := armada_spi_dev_data },
    { compatible := "marvell,armada-375-spi", data := armada_375_spi_dev_data },
    { compatible := "marvell,armada-380-spi", data := armada_380_spi_dev_data },
    { compatible := "marvell,armada-xp-spi", data := armada_xp_spi_dev_data } ]

/-- Modelled from the spec: `dev_get_driver_data(bus)` of `dm/device.h`, the data of the table
entry that matched the device, which is the first one whose compatible string is the one of the
device, if any. -/
def dev_get_driver_data (compat : String) : Option mvebu_spi_dev :=
  (mvebu_spi_ids.find? fun e => e.compatible == compat).map fun e => e.data

/-- `mvebu_spi_of_to_plat(bus)`, where `addr` is what `dev_read_addr_ptr(bus)` returns and
`drvdata` the driver data of the matched variant. -/
def mvebu_spi_of_to_plat (addr : Nat) (drvdata : mvebu_spi_dev) (w : World) : Int × World :=
  let plat1 := { w.plat with spireg := addr }
  let plat2 := { plat1 with is_errata_50mhz_ac := drvdata.is_errata_50mhz_ac }
  (0, { w with plat := plat2 })

/-! ## Vocabulary for stating the transfer properties -/

/-- Transfer `t` is answered in time: one of the `KWSPI_TIMEOUT` polls sees read-ready. -/
def answered (K : Header) (hw : Hw) (t : Nat) : Prop :=
  ∃ k, k < K.KWSPI_TIMEOUT ∧ hw.ready t k = true

/-- The value `irq_cause` shows when it is read in world `w`. -/
def irq_seen (K : Header) (hw : Hw) (w : World) : Nat :=
  w.reg.irq_cause ||| (if hw.ready w.nxfer w.polls then K.KWSPI_SMEMRDIRQ else 0)

/-- The value `clrbits_le32(&reg->irq_cause, KWSPI_SMEMRDIRQ)` writes back in world `w`. -/
def irq_cleared (K : Header) (hw : Hw) (w : World) : Nat :=
  irq_seen K hw w &&& not32 K.KWSPI_SMEMRDIRQ

/-- The store event of one byte exchange: the low byte of `v` stored through `din`, nothing for a
null `din`. -/
def store_events (din : Option Nat) (v : Nat) : List Event :=
  match din with
  | some p => [Event.store p (v % 256)]
  | none => []

/-- The input buffer after one byte exchange that received the word `v`. -/
def store_inbuf (din : Option Nat) (v : Nat) (buf : List Nat) : List Nat :=
  match din with
  | some p => buf.set p (v % 256)
  | none => buf

/-- Byte `i` of the output message (0 for a null `dout`). -/
def byte_at (dout : Option (List Nat)) (i : Nat) : Nat :=
  match dout with
  | some l => l.getD i 0 % 256
  | none => 0

/-- Events that show on the bus or in memory: writes to `ctrl` (chip-select), writes to `dout`
(bytes sent) and stores to the input buffer (bytes received). -/
def Event.is_bus : Event → Bool
  | Event.wr Reg.ctrl _ => true
  | Event.wr Reg.dout _ => true
  | Event.store _ _ => true
  | _ => false

/-- The bus events of a trace, in order. -/
def bus_trace (tr : List Event) : List Event :=
  tr.filter Event.is_bus

/-- The values written to `dout`, in order. -/
def dout_writes : List Event → List Nat
  | [] => []
  | Event.wr Reg.dout v :: tr => v :: dout_writes tr
  | _ :: tr => dout_writes tr

/-- The bus events of `n` byte exchanges that are each answered in time, the first being
transfer `t + 1`: byte `i` is written to `dout`, then the low byte of the word received is stored
at offset `i` behind `din`. -/
def exchange_events (hw : Hw) (t : Nat) (dout : Option (List Nat)) (din : Option Nat)
    (n : Nat) : List Event :=
  (List.range n).flatMap fun i =>
    Event.wr Reg.dout (byte_at dout i) ::
      store_events (din.map fun p => p + i) (hw.din (t + 1 + i) % 2 ^ 32)

/-- Two worlds agree on everything but the log, and their logs show the same bus events. -/
def same_bus (w1 w2 : World) : Prop :=
  w1.reg = w2.reg ∧ w1.plat = w2.plat ∧ w1.nxfer = w2.nxfer ∧ w1.polls = w2.polls ∧
    w1.inbuf = w2.inbuf ∧ bus_trace w1.trace = bus_trace w2.trace

/-- The flags of one request of a split message: `SPI_XFER_BEGIN` on the first request only,
`SPI_XFER_END` on the last request only. -/
def split_flags (K : Header) (first last : Bool) : Nat :=
  (if first then K.SPI_XFER_BEGIN else 0) ||| (if last then K.SPI_XFER_END else 0)

/-- A message sent as consecutive whole-byte requests of `c₁, c₂, ...` bytes: each request is one
`_spi_xfer` call (with fuel for its bytes), the caller advancing `dout` and `din` by the bytes
already exchanged. `first` tells whether the next request is the first one. -/
def xfer_split (K : Header) (hw : Hw) :
    Bool → List Nat → Option (List Nat) → Option Nat → World → Option World
  | _, [], _, _, w => some w
  | first, c :: cs, dout, din, w =>
    match _spi_xfer K hw c (8 * c) dout din (split_flags K first cs.isEmpty) w with
    | none => none
    | some (_, w1) =>
      xfer_split K hw false cs (dout.map (List.drop c)) (din.map fun p => p + c) w1

/-- All of the `n` transfers started after transfer `t` are answered in time. -/
def in_time (K : Header) (hw : Hw) (t n : Nat) : Prop :=
  ∀ u, t < u → u ≤ t + n → answered K hw u

/-- The loop body run `n` times in a row, whatever the loop condition says. -/
def xfer_iters (K : Header) (hw : Hw) : Nat → XferVars → World → XferVars × World
  | 0, x, w => (x, w)
  | n + 1, x, w => xfer_iters K hw n (xfer_iter K hw x w).1 (xfer_iter K hw x w).2

/-- A world with the events `t` put in front of its log. -/
def retrace (t : List Event) (w : World) : World :=
  { w with trace := t ++ w.trace }

/-- The bytes written to `dout` when byte `i` of the message needs `ms[i]` timed-out attempts
before the attempt that is answered: byte `i` is written `ms[i] + 1` times in a row. -/
def retry_writes : Option (List Nat) → List Nat → List Nat
  | _, [] => []
  | dout, m :: ms =>
    List.replicate (m + 1) (byte_at dout 0) ++ retry_writes (dout.map List.tail) ms

/-- The number of reads of `din` in a log. -/
def din_reads : List Event → Nat
  | [] => 0
  | Event.rd Reg.din _ :: tr => din_reads tr + 1
  | _ :: tr => din_reads tr

/-- The number of reads of `irq_cause` in a log. -/
def irq_reads : List Event → Nat
  | [] => 0
  | Event.rd Reg.irq_cause _ :: tr => irq_reads tr + 1
  | _ :: tr => irq_reads tr

/-- The part of the world a transfer must leave alone: platform data, `ctrl`, `cfg`, `timing1`
and `irq_mask` of the second world are those of the first. -/
def config_kept (w w1 : World) : Prop :=
  w1.plat = w.plat ∧ w1.reg.ctrl = w.reg.ctrl ∧ w1.reg.cfg = w.reg.cfg ∧
    w1.reg.timing1 = w.reg.timing1 ∧ w1.reg.irq_mask = w.reg.irq_mask

/-- The four mode masks of the configuration register taken together. -/
def Header.mode_mask (K : Header) : Nat :=
  K.KWSPI_CPHA ||| K.KWSPI_CPOL ||| K.KWSPI_RXLSBF ||| K.KWSPI_TXLSBF

/-! ## Conditions on the header constants and concrete data -/

/-- The chip-select field of `ctrl` lies within 32 bits and does not contain `KWSPI_CSN_ACT`. -/
def Header.cs_field_ok (K : Header) : Prop :=
  K.KWSPI_CS_MASK <<< K.KWSPI_CS_SHIFT < 2 ^ 32 ∧
    K.KWSPI_CSN_ACT &&& (K.KWSPI_CS_MASK <<< K.KWSPI_CS_SHIFT) = 0

instance (K : Header) : Decidable K.cs_field_ok := by
  unfold Header.cs_field_ok
  infer_instance

/-- The ready flag `KWSPI_SMEMRDY` contains neither `KWSPI_CSN_ACT` nor a bit of the chip-select
field. -/
def Header.ready_flag_ok (K : Header) : Prop :=
  K.KWSPI_SMEMRDY &&& K.KWSPI_CSN_ACT = 0 ∧
    K.KWSPI_SMEMRDY &&& (K.KWSPI_CS_MASK <<< K.KWSPI_CS_SHIFT) = 0

instance (K : Header) : Decidable K.ready_flag_ok := by
  unfold Header.ready_flag_ok
  infer_instance

/-- The address-length flag and every prescaler value up to `KWSPI_CLKPRESCL_MASK` lie outside
the four mode masks. -/
def Header.speed_mode_disjoint (K : Header) : Prop :=
  K.KWSPI_ADRLEN_3BYTE &&& K.mode_mask = 0 ∧
    ∀ p, p < K.KWSPI_CLKPRESCL_MASK + 1 → p &&& K.mode_mask = 0

instance (K : Header) : Decidable K.speed_mode_disjoint := by
  unfold Header.speed_mode_disjoint
  infer_instance


/-- The transfer flags `SPI_XFER_BEGIN` and `SPI_XFER_END` are non-zero and do not overlap. -/
def Header.flags_ok (K : Header) : Prop :=
  K.SPI_XFER_BEGIN ≠ 0 ∧ K.SPI_XFER_END ≠ 0 ∧ K.SPI_XFER_BEGIN &&& K.SPI_XFER_END = 0

instance (K : Header) : Decidable K.flags_ok := by
  unfold Header.flags_ok
  infer_instance


/-- The four mode masks of the configuration register are non-empty and the phase, polarity and
bit-order masks do not overlap. -/
def Header.mode_bits_ok (K : Header) : Prop :=
  K.KWSPI_CPHA ≠ 0 ∧ K.KWSPI_CPOL ≠ 0 ∧ K.KWSPI_RXLSBF ≠ 0 ∧ K.KWSPI_TXLSBF ≠ 0 ∧
  K.KWSPI_CPHA &&& K.KWSPI_CPOL = 0 ∧ K.KWSPI_CPHA &&& K.KWSPI_RXLSBF = 0 ∧
  K.KWSPI_CPHA &&& K.KWSPI_TXLSBF = 0 ∧ K.KWSPI_CPOL &&& K.KWSPI_RXLSBF = 0 ∧
  K.KWSPI_CPOL &&& K.KWSPI_TXLSBF = 0

instance (K : Header) : Decidable K.mode_bits_ok := by
  unfold Header.mode_bits_ok
  infer_instance

/-- The two sample-point values lie inside the sample-point field and differ. -/
def Header.sample_field_ok (K : Header) : Prop :=
  K.KW_SPI_TMISO_SAMPLE_1 &&& K.KW_SPI_TMISO_SAMPLE_MASK = K.KW_SPI_TMISO_SAMPLE_1 ∧
  K.KW_SPI_TMISO_SAMPLE_2 &&& K.KW_SPI_TMISO_SAMPLE_MASK = K.KW_SPI_TMISO_SAMPLE_2 ∧
  K.KW_SPI_TMISO_SAMPLE_1 ≠ K.KW_SPI_TMISO_SAMPLE_2

instance (K : Header) : Decidable K.sample_field_ok := by
  unfold Header.sample_field_ok
  infer_instance

/-- The condition under which the erratum routine programs the alternate sample point. -/
def erratum_cond (K : Header) (mode : Nat) : Prop :=
  K.CONFIG_SYS_TCLK = 250000000 ∧ mode &&& K.SPI_CPOL ≠ 0 ∧ mode &&& K.SPI_CPHA ≠ 0

instance (K : Header) (mode : Nat) : Decidable (erratum_cond K mode) := by
  unfold erratum_cond
  infer_instance

/-- Hardware that raises read-ready on the first poll of every transfer and delivers the
transfer number as data. -/
def hw_prompt : Hw where
  ready := fun _ _ => true
  din := fun t => t

/-- Hardware that never raises read-ready. -/
def hw_silent : Hw where
  ready := fun _ _ => false
  din := fun _ => 0

/-- Hardware that leaves the first transfer unanswered and answers every later transfer on the
first poll, delivering the transfer number as data. -/
def hw_late : Hw where
  ready := fun t k => decide (2 ≤ t) && decide (k = 0)
  din := fun t => t

/-- Hardware that answers every transfer exactly on the last poll of the budget of the upstream
header (poll 10000, index 9999). -/
def hw_last : Hw where
  ready := fun _ k => decide (k = 9999)
  din := fun t => t

/-- The loop variables of a one-byte request: 8 bits to go, the output byte `0xA5`, input stored
at offset 0. -/
def one_byte_vars : XferVars :=
  { bitlen := 8, dout := some [0xA5], din := some 0 }

/-- A world with the given register block and erratum flag, nothing transferred or logged yet, and
an input buffer of `n` zero bytes. -/
def world_of (g : kwspi_registers) (errata : Bool) (n : Nat) : World where
  reg := g
  plat := { spireg := 0, is_errata_50mhz_ac := errata }
  nxfer := 0
  polls := 0
  inbuf := List.replicate n 0
  trace := []

/-- A register block with ctrl, cfg and timing1 as given and the other registers zero. -/
def regs_of (ctrl cfg timing1 : Nat) : kwspi_registers where
  ctrl := ctrl
  cfg := cfg
  dout := 0
  din := 0
  irq_cause := 0
  irq_mask := 0
  timing1 := timing1

/-- The world the one-byte request `bitlen = 8`, flags `BEGIN | END`, reaches on `hw_late` from
a freshly set-up controller: chip-select on, transfer size set, two loop iterations (the first
attempt times out, the second is answered), chip-select off. -/
def late_run : World :=
  _spi_cs_deactivate (upstream 250000000) hw_late
    (xfer_iters (upstream 250000000) hw_late 2 { bitlen := 8, dout := some [0xA5], din := some 0 }
      (clrsetbits_le32 (upstream 250000000) hw_late Reg.cfg
        (upstream 250000000).KWSPI_XFERLEN_MASK (upstream 250000000).KWSPI_XFERLEN_1BYTE
        (_spi_cs_activate (upstream 250000000) hw_late
          (world_of (regs_of 2 0x212 0x40) false 1)))).2

/-- A controller after probing and a speed and mode setting, idle, with a one-byte input
buffer: `ctrl = 2`, `cfg = 0x212`, `timing1 = 0x40`. -/
def idle_world : World :=
  world_of (regs_of 2 0x212 0x40) false 1

/-! ## Bit-level facts -/

theorem testBit_not32 (x i : Nat) :
    (not32 x).testBit i = (decide (i < 32) && !x.testBit i) := by
  unfold not32
  rw [Nat.testBit_xor, Nat.testBit_two_pow_sub_one, Nat.testBit_mod_two_pow]
  cases decide (i < 32) <;> simp

theorem testBit_of_and_eq_zero {a b : Nat} (h : a &&& b = 0) (i : Nat) :
    a.testBit i = true → b.testBit i = false := by
  intro ha
  have hb := congrArg (fun n => Nat.testBit n i) h
  simp [ha] at hb
  exact hb

theorem testBit_of_and_eq_left {a b : Nat} (h : a &&& b = a) (i : Nat) :
    a.testBit i = true → b.testBit i = true := by
  intro ha
  have hb := congrArg (fun n => Nat.testBit n i) h
  simp [ha] at hb
  exact hb

theorem lt_of_testBit_u32 {a : Nat} (h : a < 2 ^ 32) (i : Nat) :
    a.testBit i = true → i < 32 := by
  intro ha
  by_contra hge
  have hlt : a < 2 ^ i := lt_of_lt_of_le h (Nat.pow_le_pow_right (by decide) (by omega))
  rw [Nat.testBit_lt_two_pow hlt] at ha
  exact absurd ha (by decide)

theorem testBit_ite_zero (p : Prop) [Decidable p] (m i : Nat) :
    (if p then m else 0).testBit i = (decide p && m.testBit i) := by
  split <;> simp [*]

theorem and_not32_and_self (c m : Nat) : (c &&& not32 m) &&& m = 0 := by
  apply Nat.eq_of_testBit_eq
  intro i
  simp [testBit_not32]

/-! ## Configuration logic: mode -/

/-- The configuration word `mvebu_spi_set_mode` writes, as a function of the old one. -/
theorem set_mode_cfg_eq (K : Header) (hw : Hw) (mode : Nat) (w : World) :
    (mvebu_spi_set_mode K hw mode w).2.reg.cfg =
      (((w.reg.cfg &&&
            not32 (K.KWSPI_CPHA ||| K.KWSPI_CPOL ||| K.KWSPI_RXLSBF ||| K.KWSPI_TXLSBF))
          ||| (if mode &&& K.SPI_CPHA ≠ 0 then K.KWSPI_CPHA else 0))
          ||| (if mode &&& K.SPI_CPOL ≠ 0 then K.KWSPI_CPOL else 0))
          ||| (if mode &&& K.SPI_LSB_FIRST ≠ 0 then K.KWSPI_RXLSBF ||| K.KWSPI_TXLSBF else 0) := by
  simp only [mvebu_spi_set_mode, mvebu_spi_50mhz_ac_timing_erratum, readl, writel,
    kwspi_registers.get, kwspi_registers.set]
  split <;> split <;> split <;> split <;> simp

/-- The bits of a mask `m` in a word built like the one `mvebu_spi_set_mode` writes: `m` is
cleared with the other masks and set again when `p` holds; `y` and `z` do not overlap it. -/
theorem mode_field_and (c all m y z : Nat) (p q r : Prop) [Decidable p] [Decidable q]
    [Decidable r] (hall : ∀ i, m.testBit i = true → all.testBit i = true)
    (hy : ∀ i, m.testBit i = true → y.testBit i = false)
    (hz : ∀ i, m.testBit i = true → z.testBit i = false) :
    ((((c &&& not32 all) ||| (if p then m else 0)) ||| (if q then y else 0))
        ||| (if r then z else 0)) &&& m = if p then m else 0 := by
  apply Nat.eq_of_testBit_eq
  intro i
  simp only [Nat.testBit_and, Nat.testBit_or, testBit_not32, testBit_ite_zero]
  cases hm : m.testBit i
  · simp
  · simp [hall i hm, hy i hm, hz i hm]

theorem or_comm3 (a b c d : Nat) : ((a ||| b) ||| c) ||| d = ((a ||| c) ||| b) ||| d := by
  apply Nat.eq_of_testBit_eq
  intro i
  simp only [Nat.testBit_or]
  cases a.testBit i <;> cases b.testBit i <;> cases c.testBit i <;> simp

theorem set_mode_and_cpha (K : Header) (hw : Hw) (mode : Nat) (w : World) (hK : K.mode_bits_ok) :
    (mvebu_spi_set_mode K hw mode w).2.reg.cfg &&& K.KWSPI_CPHA =
      if mode &&& K.SPI_CPHA ≠ 0 then K.KWSPI_CPHA else 0 := by
  obtain ⟨_, _, _, _, h1, h2, h3, _, _⟩ := hK
  rw [set_mode_cfg_eq]
  apply mode_field_and
  · intro i hi; simp [hi]
  · exact testBit_of_and_eq_zero h1
  · intro i hi
    simp [testBit_of_and_eq_zero h2 i hi, testBit_of_and_eq_zero h3 i hi]

theorem and_comm_zero {a b : Nat} (h : a &&& b = 0) : b &&& a = 0 := by
  rw [Nat.and_comm]; exact h

theorem set_mode_and_cpol (K : Header) (hw : Hw) (mode : Nat) (w : World) (hK : K.mode_bits_ok) :
    (mvebu_spi_set_mode K hw mode w).2.reg.cfg &&& K.KWSPI_CPOL =
      if mode &&& K.SPI_CPOL ≠ 0 then K.KWSPI_CPOL else 0 := by
  obtain ⟨_, _, _, _, h1, _, _, h4, h5⟩ := hK
  rw [set_mode_cfg_eq, or_comm3]
  apply mode_field_and
  · intro i hi; simp [hi]
  · exact testBit_of_and_eq_zero (and_comm_zero h1)
  · intro i hi
    simp [testBit_of_and_eq_zero h4 i hi, testBit_of_and_eq_zero h5 i hi]

theorem set_mode_and_lsbf (K : Header) (hw : Hw) (mode : Nat) (w : World) (hK : K.mode_bits_ok) :
    ((mvebu_spi_set_mode K hw mode w).2.reg.cfg &&& K.KWSPI_RXLSBF =
      if mode &&& K.SPI_LSB_FIRST ≠ 0 then K.KWSPI_RXLSBF else 0) ∧
    ((mvebu_spi_set_mode K hw mode w).2.reg.cfg &&& K.KWSPI_TXLSBF =
      if mode &&& K.SPI_LSB_FIRST ≠ 0 then K.KWSPI_TXLSBF else 0) := by
  obtain ⟨_, _, _, _, _, h2, h3, h4, h5⟩ := hK
  rw [set_mode_cfg_eq]
  constructor
  · apply Nat.eq_of_testBit_eq
    intro i
    simp only [Nat.testBit_and, Nat.testBit_or, testBit_not32, testBit_ite_zero]
    cases hm : K.KWSPI_RXLSBF.testBit i
    · simp
    · simp [testBit_of_and_eq_zero (and_comm_zero h2) i hm,
        testBit_of_and_eq_zero (and_comm_zero h4) i hm]
  · apply Nat.eq_of_testBit_eq
    intro i
    simp only [Nat.testBit_and, Nat.testBit_or, testBit_not32, testBit_ite_zero]
    cases hm : K.KWSPI_TXLSBF.testBit i
    · simp
    · simp [testBit_of_and_eq_zero (and_comm_zero h3) i hm,
        testBit_of_and_eq_zero (and_comm_zero h5) i hm]

theorem set_mode_cfg_frame (K : Header) (hw : Hw) (mode : Nat) (w : World)
    (hcfg : w.reg.cfg < 2 ^ 32) (i : Nat)
    (hi : (K.KWSPI_CPHA ||| K.KWSPI_CPOL ||| K.KWSPI_RXLSBF ||| K.KWSPI_TXLSBF).testBit i
      = false) :
    (mvebu_spi_set_mode K hw mode w).2.reg.cfg.testBit i = w.reg.cfg.testBit i := by
  have hlt := lt_of_testBit_u32 hcfg i
  rw [set_mode_cfg_eq]
  simp only [Nat.testBit_or, Bool.or_eq_false_iff] at hi
  obtain ⟨⟨⟨h1, h2⟩, h3⟩, h4⟩ := hi
  simp only [Nat.testBit_and, Nat.testBit_or, testBit_not32, testBit_ite_zero, h1, h2, h3, h4]
  cases hc : w.reg.cfg.testBit i
  · simp
  · simp [hlt hc]

theorem ite_eq_self_iff (p : Prop) [Decidable p] (m : Nat) (hm : m ≠ 0) :
    (if p then m else 0) = m ↔ p := by
  split
  · simp [*]
  · simp [*]; exact fun h => hm h.symm

/-- C1: for every prior configuration register (a 32-bit value) and every mode word, after
`mvebu_spi_set_mode` the register has `KWSPI_CPHA` set iff `SPI_CPHA` was requested, `KWSPI_CPOL`
set iff `SPI_CPOL` was requested, `KWSPI_RXLSBF` and `KWSPI_TXLSBF` both set iff `SPI_LSB_FIRST`
was requested, and every bit outside the four mode masks keeps its value; the call returns 0. -/
theorem set_mode_cfg_bits (K : Header) (hw : Hw) (mode : Nat) (w : World)
    (hK : K.mode_bits_ok) (hcfg : w.reg.cfg < 2 ^ 32) :
    ((mvebu_spi_set_mode K hw mode w).2.reg.cfg &&& K.KWSPI_CPHA = K.KWSPI_CPHA
        ↔ mode &&& K.SPI_CPHA ≠ 0) ∧
    ((mvebu_spi_set_mode K hw mode w).2.reg.cfg &&& K.KWSPI_CPOL = K.KWSPI_CPOL
        ↔ mode &&& K.SPI_CPOL ≠ 0) ∧
    (((mvebu_spi_set_mode K hw mode w).2.reg.cfg &&& K.KWSPI_RXLSBF = K.KWSPI_RXLSBF ∧
      (mvebu_spi_set_mode K hw mode w).2.reg.cfg &&& K.KWSPI_TXLSBF = K.KWSPI_TXLSBF)
        ↔ mode &&& K.SPI_LSB_FIRST ≠ 0) ∧
    (∀ i, (K.KWSPI_CPHA ||| K.KWSPI_CPOL ||| K.KWSPI_RXLSBF ||| K.KWSPI_TXLSBF).testBit i = false →
      (mvebu_spi_set_mode K hw mode w).2.reg.cfg.testBit i = w.reg.cfg.testBit i) ∧
    (mvebu_spi_set_mode K hw mode w).1 = 0 := by
  have hK0 := hK
  obtain ⟨n1, n2, n3, n4, _⟩ := hK0
  refine ⟨?_, ?_, ?_, fun i hi => set_mode_cfg_frame K hw mode w hcfg i hi, rfl⟩
  · rw [set_mode_and_cpha K hw mode w hK]; exact ite_eq_self_iff _ _ n1
  · rw [set_mode_and_cpol K hw mode w hK]; exact ite_eq_self_iff _ _ n2
  · rw [(set_mode_and_lsbf K hw mode w hK).1, (set_mode_and_lsbf K hw mode w hK).2,
      ite_eq_self_iff _ _ n3, ite_eq_self_iff _ _ n4]
    exact and_self_iff

/-- Instance of the C1 theorem: upstream constants, mode `SPI_CPHA | SPI_CPOL`, prior
configuration `0x212` (3-byte addresses, prescaler `0x12`). -/
theorem set_mode_cfg_bits_witness :
    (upstream 250000000).mode_bits_ok ∧
    (world_of (regs_of 2 0x212 0x40) false 0).reg.cfg < 2 ^ 32 ∧
    (((mvebu_spi_set_mode (upstream 250000000) hw_prompt 3
          (world_of (regs_of 2 0x212 0x40) false 0)).2.reg.cfg
        &&& (upstream 250000000).KWSPI_CPHA = (upstream 250000000).KWSPI_CPHA
        ↔ 3 &&& (upstream 250000000).SPI_CPHA ≠ 0) ∧
    ((mvebu_spi_set_mode (upstream 250000000) hw_prompt 3
          (world_of (regs_of 2 0x212 0x40) false 0)).2.reg.cfg
        &&& (upstream 250000000).KWSPI_CPOL = (upstream 250000000).KWSPI_CPOL
        ↔ 3 &&& (upstream 250000000).SPI_CPOL ≠ 0) ∧
    (((mvebu_spi_set_mode (upstream 250000000) hw_prompt 3
          (world_of (regs_of 2 0x212 0x40) false 0)).2.reg.cfg
        &&& (upstream 250000000).KWSPI_RXLSBF = (upstream 250000000).KWSPI_RXLSBF ∧
      (mvebu_spi_set_mode (upstream 250000000) hw_prompt 3
          (world_of (regs_of 2 0x212 0x40) false 0)).2.reg.cfg
        &&& (upstream 250000000).KWSPI_TXLSBF = (upstream 250000000).KWSPI_TXLSBF)
        ↔ 3 &&& (upstream 250000000).SPI_LSB_FIRST ≠ 0) ∧
    (∀ i, ((upstream 250000000).KWSPI_CPHA ||| (upstream 250000000).KWSPI_CPOL |||
          (upstream 250000000).KWSPI_RXLSBF ||| (upstream 250000000).KWSPI_TXLSBF).testBit i
        = false →
      (mvebu_spi_set_mode (upstream 250000000) hw_prompt 3
          (world_of (regs_of 2 0x212 0x40) false 0)).2.reg.cfg.testBit i
        = (world_of (regs_of 2 0x212 0x40) false 0).reg.cfg.testBit i) ∧
    (mvebu_spi_set_mode (upstream 250000000) hw_prompt 3
        (world_of (regs_of 2 0x212 0x40) false 0)).1 = 0) :=
  ⟨by decide, by decide,
    set_mode_cfg_bits (upstream 250000000) hw_prompt 3
      (world_of (regs_of 2 0x212 0x40) false 0) (by decide) (by decide)⟩

/-! ## Configuration logic: speed -/

/-- C2: for every target frequency `hz > 0`, `mvebu_spi_set_speed` writes
`KWSPI_ADRLEN_3BYTE | data` to the configuration register, where the prescaler `data` lies in
`[KWSPI_CLKPRESCL_MIN, KWSPI_CLKPRESCL_MASK]`; it equals the minimum when the unclamped value is
below the minimum and the maximum when the unclamped value is above the maximum. -/
theorem set_speed_prescaler_range (K : Header) (hz : Nat) (w : World) (hhz : 0 < hz)
    (hK : K.KWSPI_CLKPRESCL_MIN ≤ K.KWSPI_CLKPRESCL_MASK) :
    mvebu_spi_set_speed K hz w =
      some (0, writel (K.KWSPI_ADRLEN_3BYTE ||| set_speed_prescaler K hz) Reg.cfg w) ∧
    K.KWSPI_CLKPRESCL_MIN ≤ set_speed_prescaler K hz ∧
    set_speed_prescaler K hz ≤ K.KWSPI_CLKPRESCL_MASK ∧
    (((K.CONFIG_SYS_TCLK / 2) / hz + 0x10) % 2 ^ 32 < K.KWSPI_CLKPRESCL_MIN →
      set_speed_prescaler K hz = K.KWSPI_CLKPRESCL_MIN) ∧
    (((K.CONFIG_SYS_TCLK / 2) / hz + 0x10) % 2 ^ 32 > K.KWSPI_CLKPRESCL_MASK →
      set_speed_prescaler K hz = K.KWSPI_CLKPRESCL_MASK) := by
  refine ⟨?_, ?_, ?_, ?_, ?_⟩
  · simp [mvebu_spi_set_speed, Nat.pos_iff_ne_zero.mp hhz]
  all_goals
    simp only [set_speed_prescaler]
    split_ifs <;> omega

/-- Instance of the C2 theorem: upstream constants (`0x12 .. 0x1f`), a 250 MHz core
clock and a 50 MHz target. -/
theorem set_speed_prescaler_range_witness :
    0 < 50000000 ∧
    (upstream 250000000).KWSPI_CLKPRESCL_MIN ≤ (upstream 250000000).KWSPI_CLKPRESCL_MASK ∧
    (mvebu_spi_set_speed (upstream 250000000) 50000000 (world_of (regs_of 2 0 0x40) false 0) =
      some (0, writel ((upstream 250000000).KWSPI_ADRLEN_3BYTE |||
        set_speed_prescaler (upstream 250000000) 50000000) Reg.cfg
          (world_of (regs_of 2 0 0x40) false 0)) ∧
    (upstream 250000000).KWSPI_CLKPRESCL_MIN ≤ set_speed_prescaler (upstream 250000000) 50000000 ∧
    set_speed_prescaler (upstream 250000000) 50000000 ≤ (upstream 250000000).KWSPI_CLKPRESCL_MASK ∧
    (((upstream 250000000).CONFIG_SYS_TCLK / 2 / 50000000 + 0x10) % 2 ^ 32
        < (upstream 250000000).KWSPI_CLKPRESCL_MIN →
      set_speed_prescaler (upstream 250000000) 50000000 =
        (upstream 250000000).KWSPI_CLKPRESCL_MIN) ∧
    (((upstream 250000000).CONFIG_SYS_TCLK / 2 / 50000000 + 0x10) % 2 ^ 32
        > (upstream 250000000).KWSPI_CLKPRESCL_MASK →
      set_speed_prescaler (upstream 250000000) 50000000 =
        (upstream 250000000).KWSPI_CLKPRESCL_MASK)) :=
  ⟨by decide, by decide,
    set_speed_prescaler_range (upstream 250000000) 50000000 _ (by decide) (by decide)⟩

/-- C10: for every `hz > 0` and every prior world, `mvebu_spi_set_speed` returns 0 and leaves the
configuration register equal to `KWSPI_ADRLEN_3BYTE | clamp((CONFIG_SYS_TCLK / 2) / hz + 0x10,
KWSPI_CLKPRESCL_MIN, KWSPI_CLKPRESCL_MASK)` with truncating division; the value does not depend
on the previous register contents. -/
theorem set_speed_cfg (K : Header) (hz : Nat) (w : World) (hhz : 0 < hz)
    (hT : K.CONFIG_SYS_TCLK < 2 ^ 32)
    (hK : K.KWSPI_CLKPRESCL_MIN ≤ K.KWSPI_CLKPRESCL_MASK) :
    (mvebu_spi_set_speed K hz w).map (fun r => (r.1, r.2.reg.cfg)) =
      some (0, K.KWSPI_ADRLEN_3BYTE |||
        clampSpec ((K.CONFIG_SYS_TCLK / 2) / hz + 0x10)
          K.KWSPI_CLKPRESCL_MIN K.KWSPI_CLKPRESCL_MASK) := by
  have h1 : (K.CONFIG_SYS_TCLK / 2) / hz ≤ K.CONFIG_SYS_TCLK / 2 := Nat.div_le_self _ _
  have h2 : ((K.CONFIG_SYS_TCLK / 2) / hz + 0x10) % 2 ^ 32 = (K.CONFIG_SYS_TCLK / 2) / hz + 0x10 :=
    Nat.mod_eq_of_lt (by omega)
  have h3 : set_speed_prescaler K hz = clampSpec ((K.CONFIG_SYS_TCLK / 2) / hz + 0x10)
          K.KWSPI_CLKPRESCL_MIN K.KWSPI_CLKPRESCL_MASK := by
    simp only [set_speed_prescaler, clampSpec, h2]
    split_ifs <;> omega
  simp [mvebu_spi_set_speed, Nat.pos_iff_ne_zero.mp hhz, writel, kwspi_registers.set, h3]

/-- Instance of the C10 theorem: upstream constants, 250 MHz core clock, 1 MHz target, prior
configuration `0x7a3f`; the prescaler clamps to `0x1f`. -/
theorem set_speed_cfg_witness :
    0 < 1000000 ∧ (upstream 250000000).CONFIG_SYS_TCLK < 2 ^ 32 ∧
    (upstream 250000000).KWSPI_CLKPRESCL_MIN ≤ (upstream 250000000).KWSPI_CLKPRESCL_MASK ∧
    (mvebu_spi_set_speed (upstream 250000000) 1000000
        (world_of (regs_of 2 0x7a3f 0x40) false 0)).map (fun r => (r.1, r.2.reg.cfg)) =
      some (0, (upstream 250000000).KWSPI_ADRLEN_3BYTE |||
        clampSpec (((upstream 250000000).CONFIG_SYS_TCLK / 2) / 1000000 + 0x10)
          (upstream 250000000).KWSPI_CLKPRESCL_MIN (upstream 250000000).KWSPI_CLKPRESCL_MASK) :=
  ⟨by decide, by decide, by decide,
    set_speed_cfg (upstream 250000000) 1000000 _ (by decide) (by decide) (by decide)⟩

/-! ## Configuration logic: erratum -/

theorem erratum_reg (K : Header) (hw : Hw) (mode : Nat) (w : World) :
    (mvebu_spi_50mhz_ac_timing_erratum K hw mode w).reg =
      { w.reg with timing1 :=
          (w.reg.timing1 &&& not32 K.KW_SPI_TMISO_SAMPLE_MASK) |||
            (if erratum_cond K mode then K.KW_SPI_TMISO_SAMPLE_2
             else K.KW_SPI_TMISO_SAMPLE_1) } := by
  simp only [mvebu_spi_50mhz_ac_timing_erratum, readl, writel, kwspi_registers.get,
    kwspi_registers.set, erratum_cond]
  split <;> rfl

theorem set_mode_timing1_eq (K : Header) (hw : Hw) (mode : Nat) (w : World) :
    (mvebu_spi_set_mode K hw mode w).2.reg.timing1 =
      if w.plat.is_errata_50mhz_ac = true then
        (w.reg.timing1 &&& not32 K.KW_SPI_TMISO_SAMPLE_MASK) |||
          (if erratum_cond K mode then K.KW_SPI_TMISO_SAMPLE_2 else K.KW_SPI_TMISO_SAMPLE_1)
      else w.reg.timing1 := by
  simp only [mvebu_spi_set_mode, readl, writel, kwspi_registers.get, kwspi_registers.set]
  by_cases he : w.plat.is_errata_50mhz_ac = true
  · simp only [he, if_true]
    rw [erratum_reg]
  · simp only [he, if_false]
    rfl

theorem sample_field_and (t m v : Nat) (hv : v &&& m = v) :
    ((t &&& not32 m) ||| v) &&& m = v := by
  apply Nat.eq_of_testBit_eq
  intro i
  simp only [Nat.testBit_and, Nat.testBit_or, testBit_not32]
  cases hm : m.testBit i
  · cases hvi : v.testBit i
    · simp
    · rw [testBit_of_and_eq_left hv i hvi] at hm
      exact absurd hm (by decide)
  · simp

/-- C3 (amended): when the erratum flag is set, after `mvebu_spi_set_mode` the sample-point field
of the timing register holds `KW_SPI_TMISO_SAMPLE_2` if and only if `CONFIG_SYS_TCLK == 250000000`
and `SPI_CPOL` and `SPI_CPHA` are both set in the mode, and `KW_SPI_TMISO_SAMPLE_1` otherwise;
when the erratum flag is not set, the timing register is left unchanged. -/
theorem set_mode_sample_point (K : Header) (hw : Hw) (mode : Nat) (w : World)
    (hK : K.sample_field_ok) :
    (w.plat.is_errata_50mhz_ac = true →
      (((mvebu_spi_set_mode K hw mode w).2.reg.timing1 &&& K.KW_SPI_TMISO_SAMPLE_MASK
          = K.KW_SPI_TMISO_SAMPLE_2) ↔
        (K.CONFIG_SYS_TCLK = 250000000 ∧ mode &&& K.SPI_CPOL ≠ 0 ∧ mode &&& K.SPI_CPHA ≠ 0)) ∧
      (¬ (K.CONFIG_SYS_TCLK = 250000000 ∧ mode &&& K.SPI_CPOL ≠ 0 ∧ mode &&& K.SPI_CPHA ≠ 0) →
        (mvebu_spi_set_mode K hw mode w).2.reg.timing1 &&& K.KW_SPI_TMISO_SAMPLE_MASK
          = K.KW_SPI_TMISO_SAMPLE_1)) ∧
    (w.plat.is_errata_50mhz_ac = false →
      (mvebu_spi_set_mode K hw mode w).2.reg.timing1 = w.reg.timing1) := by
  obtain ⟨h1, h2, hne⟩ := hK
  rw [set_mode_timing1_eq]
  constructor
  · intro he
    rw [if_pos he]
    by_cases hc : erratum_cond K mode
    · rw [if_pos hc, sample_field_and _ _ _ h2]
      exact ⟨⟨fun _ => hc, fun _ => rfl⟩, fun hn => absurd hc hn⟩
    · rw [if_neg hc, sample_field_and _ _ _ h1]
      exact ⟨⟨fun h => absurd h hne, fun h => absurd h hc⟩, fun _ => rfl⟩
  · intro he
    simp [he]

/-- Instance of the C3 theorem: upstream constants, 250 MHz core clock, erratum flag
set, mode `SPI_CPHA | SPI_CPOL`. -/
theorem set_mode_sample_point_witness :
    (upstream 250000000).sample_field_ok ∧
    ((world_of (regs_of 2 0x212 0) true 0).plat.is_errata_50mhz_ac = true →
      (((mvebu_spi_set_mode (upstream 250000000) hw_prompt 3
            (world_of (regs_of 2 0x212 0) true 0)).2.reg.timing1
          &&& (upstream 250000000).KW_SPI_TMISO_SAMPLE_MASK
          = (upstream 250000000).KW_SPI_TMISO_SAMPLE_2) ↔
        ((upstream 250000000).CONFIG_SYS_TCLK = 250000000 ∧
          3 &&& (upstream 250000000).SPI_CPOL ≠ 0 ∧ 3 &&& (upstream 250000000).SPI_CPHA ≠ 0)) ∧
      (¬ ((upstream 250000000).CONFIG_SYS_TCLK = 250000000 ∧
          3 &&& (upstream 250000000).SPI_CPOL ≠ 0 ∧ 3 &&& (upstream 250000000).SPI_CPHA ≠ 0) →
        (mvebu_spi_set_mode (upstream 250000000) hw_prompt 3
            (world_of (regs_of 2 0x212 0) true 0)).2.reg.timing1
          &&& (upstream 250000000).KW_SPI_TMISO_SAMPLE_MASK
          = (upstream 250000000).KW_SPI_TMISO_SAMPLE_1)) ∧
    ((world_of (regs_of 2 0x212 0) true 0).plat.is_errata_50mhz_ac = false →
      (mvebu_spi_set_mode (upstream 250000000) hw_prompt 3
          (world_of (regs_of 2 0x212 0) true 0)).2.reg.timing1
        = (world_of (regs_of 2 0x212 0) true 0).reg.timing1) :=
  ⟨by decide, (set_mode_sample_point (upstream 250000000) hw_prompt 3
      (world_of (regs_of 2 0x212 0) true 0) (by decide)).1,
    (set_mode_sample_point (upstream 250000000) hw_prompt 3
      (world_of (regs_of 2 0x212 0) true 0) (by decide)).2⟩

/-- C3 fails as stated: with the erratum flag clear, a timing register whose sample-point field
already holds `KW_SPI_TMISO_SAMPLE_2` and mode 0, the field still holds `KW_SPI_TMISO_SAMPLE_2`
after `mvebu_spi_set_mode`, not the default `KW_SPI_TMISO_SAMPLE_1`. -/
theorem set_mode_sample_point_counterexample :
    (world_of (regs_of 2 0x212 0x80) false 0).plat.is_errata_50mhz_ac = false ∧
    (mvebu_spi_set_mode (upstream 250000000) hw_prompt 0
        (world_of (regs_of 2 0x212 0x80) false 0)).2.reg.timing1
      &&& (upstream 250000000).KW_SPI_TMISO_SAMPLE_MASK
      = (upstream 250000000).KW_SPI_TMISO_SAMPLE_2 ∧
    (mvebu_spi_set_mode (upstream 250000000) hw_prompt 0
        (world_of (regs_of 2 0x212 0x80) false 0)).2.reg.timing1
      &&& (upstream 250000000).KW_SPI_TMISO_SAMPLE_MASK
      ≠ (upstream 250000000).KW_SPI_TMISO_SAMPLE_1 := by
  decide

/-! ## Transfer engine: the poll loop and one loop iteration -/

theorem readl_irq_not_ready (K : Header) (hw : Hw) (w : World)
    (h : hw.ready w.nxfer w.polls = false) :
    readl K hw Reg.irq_cause w =
      (w.reg.irq_cause,
        { w with polls := w.polls + 1,
                 trace := w.trace ++ [Event.rd Reg.irq_cause w.reg.irq_cause] }) := by
  simp [readl, h]

theorem readl_irq_ready (K : Header) (hw : Hw) (w : World)
    (h : hw.ready w.nxfer w.polls = true) :
    readl K hw Reg.irq_cause w =
      (w.reg.irq_cause ||| K.KWSPI_SMEMRDIRQ,
        { w with reg := { w.reg with irq_cause := w.reg.irq_cause ||| K.KWSPI_SMEMRDIRQ },
                 polls := w.polls + 1,
                 trace := w.trace ++
                   [Event.rd Reg.irq_cause (w.reg.irq_cause ||| K.KWSPI_SMEMRDIRQ)] }) := by
  simp [readl, h]

theorem poll_loop_skip (K : Header) (hw : Hw) (k : Nat) :
    ∀ (m tm : Nat) (x : XferVars) (w : World),
      w.reg.irq_cause &&& K.KWSPI_SMEMRDIRQ = 0 →
      (∀ j, j < k → hw.ready w.nxfer (w.polls + j) = false) →
      poll_loop K hw (k + m) tm x w =
        poll_loop K hw m (tm + k) x
          { w with polls := w.polls + k,
                   trace := w.trace ++
                     List.replicate k (Event.rd Reg.irq_cause w.reg.irq_cause) } := by
  induction k with
  | zero => intro m tm x w _ _; simp
  | succ k ih =>
    intro m tm x w hc hno
    have h0 : hw.ready w.nxfer w.polls = false := by simpa using hno 0 (Nat.succ_pos k)
    rw [show k + 1 + m = (k + m) + 1 by omega, poll_loop, readl_irq_not_ready K hw w h0]
    simp only [hc, ne_eq, not_true_eq_false, if_false]
    rw [ih]
    · simp [List.replicate_succ, Nat.add_assoc, Nat.add_comm 1 k]
    · exact hc
    · intro j hj
      have := hno (j + 1) (by omega)
      simpa [Nat.add_assoc, Nat.add_comm 1 j] using this

theorem or_and_self (c m : Nat) : (c ||| m) &&& m = m := by
  apply Nat.eq_of_testBit_eq
  intro i
  simp only [Nat.testBit_and, Nat.testBit_or]
  cases c.testBit i <;> cases m.testBit i <;> rfl

theorem poll_loop_timeout (K : Header) (hw : Hw) (n tm : Nat) (x : XferVars) (w : World)
    (hc : w.reg.irq_cause &&& K.KWSPI_SMEMRDIRQ = 0)
    (hno : ∀ j, j < n → hw.ready w.nxfer (w.polls + j) = false) :
    poll_loop K hw n tm x w =
      (tm + n, x,
        { w with polls := w.polls + n,
                 trace := w.trace ++
                   List.replicate n (Event.rd Reg.irq_cause w.reg.irq_cause) }) := by
  have h := poll_loop_skip K hw n 0 tm x w hc hno
  rw [Nat.add_zero] at h
  rw [h, poll_loop]

theorem poll_loop_answer (K : Header) (hw : Hw) (n k tm : Nat) (x : XferVars) (w : World)
    (hK : K.KWSPI_SMEMRDIRQ ≠ 0)
    (hc : w.reg.irq_cause &&& K.KWSPI_SMEMRDIRQ = 0)
    (hno : ∀ j, j < k → hw.ready w.nxfer (w.polls + j) = false)
    (hk : hw.ready w.nxfer (w.polls + k) = true) (hkn : k < n) :
    poll_loop K hw n tm x w =
      (tm + k,
        { bitlen := (x.bitlen + 2 ^ 32 - 8) % 2 ^ 32, dout := x.dout.map List.tail,
          din := x.din.map (fun p => p + 1) },
        { w with reg := { w.reg with irq_cause := w.reg.irq_cause ||| K.KWSPI_SMEMRDIRQ,
                                      din := hw.din w.nxfer % 2 ^ 32 },
                 polls := w.polls + k + 1,
                 inbuf := store_inbuf x.din (hw.din w.nxfer % 2 ^ 32) w.inbuf,
                 trace := w.trace ++
                   List.replicate k (Event.rd Reg.irq_cause w.reg.irq_cause) ++
                   [Event.rd Reg.irq_cause (w.reg.irq_cause ||| K.KWSPI_SMEMRDIRQ),
                    Event.rd Reg.din (hw.din w.nxfer % 2 ^ 32)] ++
                   store_events x.din (hw.din w.nxfer % 2 ^ 32) }) := by
  obtain ⟨m, rfl⟩ : ∃ m, n = k + (m + 1) := ⟨n - k - 1, by omega⟩
  rw [poll_loop_skip K hw k (m + 1) tm x w hc hno, poll_loop, readl_irq_ready K hw _ hk]
  simp only [or_and_self, ne_eq, hK, not_false_eq_true, if_true, readl]
  cases hd : x.din <;> simp [store_inbuf, store_events]


theorem xfer_start_eq (K : Header) (hw : Hw) (b : Nat) (w : World) :
    xfer_start K hw b w =
      { w with reg := { w.reg with irq_cause := irq_cleared K hw w, dout := b },
               nxfer := w.nxfer + 1, polls := 0,
               trace := w.trace ++
                 [Event.rd Reg.irq_cause (irq_seen K hw w),
                  Event.wr Reg.irq_cause (irq_cleared K hw w), Event.wr Reg.dout b] } := by
  simp [xfer_start, clrbits_le32, readl, writel, kwspi_registers.set, irq_cleared, irq_seen]

theorem irq_cleared_and (K : Header) (hw : Hw) (w : World) :
    irq_cleared K hw w &&& K.KWSPI_SMEMRDIRQ = 0 :=
  and_not32_and_self _ _

theorem xfer_iter_timeout (K : Header) (hw : Hw) (x : XferVars) (w : World)
    (hno : ∀ k, k < K.KWSPI_TIMEOUT → hw.ready (w.nxfer + 1) k = false) :
    xfer_iter K hw x w =
      (x,
        { w with reg := { w.reg with irq_cause := irq_cleared K hw w, dout := out_byte x.dout },
                 nxfer := w.nxfer + 1, polls := K.KWSPI_TIMEOUT,
                 trace := w.trace ++
                   [Event.rd Reg.irq_cause (irq_seen K hw w),
                    Event.wr Reg.irq_cause (irq_cleared K hw w),
                    Event.wr Reg.dout (out_byte x.dout)] ++
                   List.replicate K.KWSPI_TIMEOUT
                     (Event.rd Reg.irq_cause (irq_cleared K hw w)) ++
                   [Event.timeout] }) := by
  simp only [xfer_iter]
  rw [poll_loop_timeout K hw K.KWSPI_TIMEOUT 0 x _
    (by rw [xfer_start_eq]; exact irq_cleared_and K hw w)
    (by rw [xfer_start_eq]; simpa using hno)]
  simp [xfer_start_eq, printf_timeout]

theorem xfer_iter_answer (K : Header) (hw : Hw) (x : XferVars) (w : World) (k : Nat)
    (hK : K.KWSPI_SMEMRDIRQ ≠ 0)
    (hno : ∀ j, j < k → hw.ready (w.nxfer + 1) j = false)
    (hk : hw.ready (w.nxfer + 1) k = true) (hkT : k < K.KWSPI_TIMEOUT) :
    xfer_iter K hw x w =
      ({ bitlen := (x.bitlen + 2 ^ 32 - 8) % 2 ^ 32, dout := x.dout.map List.tail,
         din := x.din.map (fun p => p + 1) },
        { w with reg := { w.reg with
                            irq_cause := irq_cleared K hw w ||| K.KWSPI_SMEMRDIRQ,
                            dout := out_byte x.dout,
                            din := hw.din (w.nxfer + 1) % 2 ^ 32 },
                 nxfer := w.nxfer + 1, polls := k + 1,
                 inbuf := store_inbuf x.din (hw.din (w.nxfer + 1) % 2 ^ 32) w.inbuf,
                 trace := w.trace ++
                   [Event.rd Reg.irq_cause (irq_seen K hw w),
                    Event.wr Reg.irq_cause (irq_cleared K hw w),
                    Event.wr Reg.dout (out_byte x.dout)] ++
                   List.replicate k (Event.rd Reg.irq_cause (irq_cleared K hw w)) ++
                   [Event.rd Reg.irq_cause (irq_cleared K hw w ||| K.KWSPI_SMEMRDIRQ),
                    Event.rd Reg.din (hw.din (w.nxfer + 1) % 2 ^ 32)] ++
                   store_events x.din (hw.din (w.nxfer + 1) % 2 ^ 32) }) := by
  simp only [xfer_iter]
  rw [poll_loop_answer K hw K.KWSPI_TIMEOUT k 0 x _ hK
    (by rw [xfer_start_eq]; exact irq_cleared_and K hw w)
    (by rw [xfer_start_eq]; simpa using hno)
    (by rw [xfer_start_eq]; simpa using hk) hkT]
  have hlt : ¬ (K.KWSPI_TIMEOUT ≤ k) := by omega
  simp [xfer_start_eq, hlt]

theorem readl_retrace (K : Header) (hw : Hw) (r : Reg) (t : List Event) (w : World) :
    readl K hw r (retrace t w) = ((readl K hw r w).1, retrace t (readl K hw r w).2) := by
  cases r <;> simp [readl, retrace, List.append_assoc]

theorem writel_retrace (v : Nat) (r : Reg) (t : List Event) (w : World) :
    writel v r (retrace t w) = retrace t (writel v r w) := by
  cases r <;> simp [writel, retrace, List.append_assoc]

theorem setbits_retrace (K : Header) (hw : Hw) (r : Reg) (m : Nat) (t : List Event) (w : World) :
    setbits_le32 K hw r m (retrace t w) = retrace t (setbits_le32 K hw r m w) := by
  simp only [setbits_le32, readl_retrace, writel_retrace]

theorem clrbits_retrace (K : Header) (hw : Hw) (r : Reg) (m : Nat) (t : List Event) (w : World) :
    clrbits_le32 K hw r m (retrace t w) = retrace t (clrbits_le32 K hw r m w) := by
  simp only [clrbits_le32, readl_retrace, writel_retrace]

theorem clrsetbits_retrace (K : Header) (hw : Hw) (r : Reg) (c m : Nat) (t : List Event)
    (w : World) :
    clrsetbits_le32 K hw r c m (retrace t w) = retrace t (clrsetbits_le32 K hw r c m w) := by
  simp only [clrsetbits_le32, readl_retrace, writel_retrace]

theorem printf_retrace (t : List Event) (w : World) :
    printf_timeout (retrace t w) = retrace t (printf_timeout w) := by
  simp [printf_timeout, retrace, List.append_assoc]

theorem poll_loop_retrace (K : Header) (hw : Hw) (t : List Event) (n : Nat) :
    ∀ (tm : Nat) (x : XferVars) (w : World),
      poll_loop K hw n tm x (retrace t w) =
        ((poll_loop K hw n tm x w).1, (poll_loop K hw n tm x w).2.1,
          retrace t (poll_loop K hw n tm x w).2.2) := by
  induction n with
  | zero => intro tm x w; simp [poll_loop]
  | succ n ih =>
    intro tm x w
    simp only [poll_loop, readl_retrace]
    split
    · cases x.din <;> simp [retrace, List.append_assoc]
    · rw [ih]

theorem xfer_iter_retrace (K : Header) (hw : Hw) (t : List Event) (x : XferVars) (w : World) :
    xfer_iter K hw x (retrace t w) =
      ((xfer_iter K hw x w).1, retrace t (xfer_iter K hw x w).2) := by
  simp only [xfer_iter, xfer_start, clrbits_retrace, writel_retrace, poll_loop_retrace]
  split <;> simp [printf_retrace]

theorem xfer_while_retrace (K : Header) (hw : Hw) (t : List Event) (fuel : Nat) :
    ∀ (x : XferVars) (w : World),
      xfer_while K hw fuel x (retrace t w) =
        (xfer_while K hw fuel x w).map (fun r => (r.1, retrace t r.2)) := by
  induction fuel with
  | zero => intro x w; simp only [xfer_while]; split <;> simp
  | succ fuel ih =>
    intro x w
    simp only [xfer_while]
    split
    · rw [xfer_iter_retrace, ih]
    · simp

theorem spi_xfer_retrace (K : Header) (hw : Hw) (t : List Event) (fuel bitlen : Nat)
    (dout : Option (List Nat)) (din : Option Nat) (flags : Nat) (w : World) :
    _spi_xfer K hw fuel bitlen dout din flags (retrace t w) =
      (_spi_xfer K hw fuel bitlen dout din flags w).map (fun r => (r.1, retrace t r.2)) := by
  have h1 : (if flags &&& K.SPI_XFER_BEGIN ≠ 0 then _spi_cs_activate K hw (retrace t w)
      else retrace t w) =
      retrace t (if flags &&& K.SPI_XFER_BEGIN ≠ 0 then _spi_cs_activate K hw w else w) := by
    split <;> simp [_spi_cs_activate, setbits_retrace]
  simp only [_spi_xfer, h1, clrsetbits_retrace, xfer_while_retrace]
  cases xfer_while K hw fuel { bitlen := bitlen, dout := dout, din := din }
      (clrsetbits_le32 K hw Reg.cfg K.KWSPI_XFERLEN_MASK K.KWSPI_XFERLEN_1BYTE
        (if flags &&& K.SPI_XFER_BEGIN ≠ 0 then _spi_cs_activate K hw w else w)) with
  | none => simp
  | some r =>
    simp only [Option.map_some']
    split <;> simp [_spi_cs_deactivate, clrbits_retrace]


theorem answered_first (K : Header) (hw : Hw) (t : Nat) (h : answered K hw t) :
    ∃ k, k < K.KWSPI_TIMEOUT ∧ hw.ready t k = true ∧ ∀ j, j < k → hw.ready t j = false := by
  classical
  have hex : ∃ k, k < K.KWSPI_TIMEOUT ∧ hw.ready t k = true := h
  refine ⟨Nat.find hex, (Nat.find_spec hex).1, (Nat.find_spec hex).2, ?_⟩
  intro j hj
  have hmin := Nat.find_min hex hj
  have hlt : j < K.KWSPI_TIMEOUT := lt_trans hj (Nat.find_spec hex).1
  cases hr : hw.ready t j
  · rfl
  · exact absurd ⟨hlt, hr⟩ hmin

theorem bus_trace_append (a b : List Event) : bus_trace (a ++ b) = bus_trace a ++ bus_trace b := by
  simp [bus_trace]

theorem bus_trace_store_events (din : Option Nat) (v : Nat) :
    bus_trace (store_events din v) = store_events din v := by
  cases din <;> simp [bus_trace, store_events, Event.is_bus]

theorem bus_trace_replicate_rd (n : Nat) (r : Reg) (v : Nat) :
    bus_trace (List.replicate n (Event.rd r v)) = [] := by
  simp [bus_trace, Event.is_bus]

/-- What one loop iteration does when its transfer is answered in time. -/
theorem xfer_iter_answered (K : Header) (hw : Hw) (x : XferVars) (w : World)
    (hK : K.KWSPI_SMEMRDIRQ ≠ 0) (ha : answered K hw (w.nxfer + 1)) :
    (xfer_iter K hw x w).1 =
        { bitlen := (x.bitlen + 2 ^ 32 - 8) % 2 ^ 32, dout := x.dout.map List.tail,
          din := x.din.map (fun p => p + 1) } ∧
    (xfer_iter K hw x w).2.nxfer = w.nxfer + 1 ∧
    (xfer_iter K hw x w).2.plat = w.plat ∧
    (xfer_iter K hw x w).2.reg.ctrl = w.reg.ctrl ∧
    (xfer_iter K hw x w).2.reg.cfg = w.reg.cfg ∧
    (xfer_iter K hw x w).2.reg.timing1 = w.reg.timing1 ∧
    (xfer_iter K hw x w).2.reg.irq_mask = w.reg.irq_mask ∧
    (xfer_iter K hw x w).2.inbuf = store_inbuf x.din (hw.din (w.nxfer + 1) % 2 ^ 32) w.inbuf ∧
    bus_trace (xfer_iter K hw x w).2.trace =
      bus_trace w.trace ++
        Event.wr Reg.dout (out_byte x.dout) ::
          store_events x.din (hw.din (w.nxfer + 1) % 2 ^ 32) := by
  obtain ⟨k, hkT, hk, hno⟩ := answered_first K hw _ ha
  rw [xfer_iter_answer K hw x w k hK hno hk hkT]
  refine ⟨rfl, rfl, rfl, rfl, rfl, rfl, rfl, rfl, ?_⟩
  simp only [bus_trace_append, bus_trace_store_events, bus_trace_replicate_rd]
  simp [bus_trace, Event.is_bus]

/-- The world after an answered iteration does not depend on the remaining bit count. -/
theorem xfer_iter_answered_world (K : Header) (hw : Hw) (x : XferVars) (w : World) (L : Nat)
    (hK : K.KWSPI_SMEMRDIRQ ≠ 0) (ha : answered K hw (w.nxfer + 1)) :
    (xfer_iter K hw { x with bitlen := L } w).2 = (xfer_iter K hw x w).2 := by
  obtain ⟨k, hkT, hk, hno⟩ := answered_first K hw _ ha
  rw [xfer_iter_answer K hw x w k hK hno hk hkT,
    xfer_iter_answer K hw { x with bitlen := L } w k hK hno hk hkT]

/-! ## Transfer engine: runs of answered transfers -/

theorem out_byte_eq (dout : Option (List Nat)) : out_byte dout = byte_at dout 0 := by
  cases dout with
  | none => rfl
  | some l =>
    have h : load_le32 l &&& 0xff = load_le32 l % 256 :=
      Nat.and_pow_two_sub_one_eq_mod (load_le32 l) 8
    simp only [out_byte, byte_at, h]
    simp only [load_le32]
    omega

theorem byte_at_tail (dout : Option (List Nat)) (i : Nat) :
    byte_at (dout.map List.tail) i = byte_at dout (i + 1) := by
  cases dout with
  | none => rfl
  | some l => cases l <;> simp [byte_at]

theorem byte_at_drop (dout : Option (List Nat)) (c i : Nat) :
    byte_at (dout.map (List.drop c)) i = byte_at dout (c + i) := by
  cases dout with
  | none => rfl
  | some l => simp [byte_at, List.getD_eq_getElem?_getD, List.getElem?_drop]

theorem exchange_events_zero (hw : Hw) (t : Nat) (dout : Option (List Nat)) (din : Option Nat) :
    exchange_events hw t dout din 0 = [] := by
  simp [exchange_events]

theorem exchange_events_succ (hw : Hw) (t : Nat) (dout : Option (List Nat)) (din : Option Nat)
    (n : Nat) :
    exchange_events hw t dout din (n + 1) =
      (Event.wr Reg.dout (out_byte dout) :: store_events din (hw.din (t + 1) % 2 ^ 32)) ++
        exchange_events hw (t + 1) (dout.map List.tail) (din.map fun p => p + 1) n := by
  simp only [exchange_events, List.range_succ_eq_map, List.flatMap_cons, List.flatMap_map,
    out_byte_eq]
  congr 1
  · cases din <;> simp
  · apply congrArg
    funext i
    simp only [Function.comp, byte_at_tail, Nat.succ_eq_add_one]
    have h1 : t + 1 + 1 + i = t + 1 + (i + 1) := by omega
    rw [h1]
    cases din <;> simp [Nat.add_assoc, Nat.add_comm 1 i]

theorem exchange_events_add (hw : Hw) (t : Nat) (dout : Option (List Nat)) (din : Option Nat)
    (a b : Nat) :
    exchange_events hw t dout din (a + b) =
      exchange_events hw t dout din a ++
        exchange_events hw (t + a) (dout.map (List.drop a)) (din.map fun p => p + a) b := by
  induction a generalizing t dout din with
  | zero =>
    have h1 : dout.map (List.drop 0) = dout := by cases dout <;> simp
    have h2 : (din.map fun p => p + 0) = din := by cases din <;> simp
    simp [exchange_events_zero, h1, h2]
  | succ a ih =>
    rw [show a + 1 + b = (a + b) + 1 by omega, exchange_events_succ, exchange_events_succ, ih]
    have h1 : (dout.map List.tail).map (List.drop a) = dout.map (List.drop (a + 1)) := by
      cases dout <;> simp
    have h2 : ((din.map fun p => p + 1).map fun p => p + a) = din.map fun p => p + (a + 1) := by
      cases din <;> simp [Nat.add_assoc, Nat.add_comm 1 a]
    rw [h1, h2, show t + 1 + a = t + (a + 1) by omega]
    simp [List.append_assoc]

theorem in_time_succ (K : Header) (hw : Hw) (t n : Nat) (h : in_time K hw t (n + 1)) :
    answered K hw (t + 1) ∧ in_time K hw (t + 1) n := by
  constructor
  · exact h (t + 1) (by omega) (by omega)
  · intro u h1 h2
    exact h u (by omega) (by omega)

theorem in_time_add (K : Header) (hw : Hw) (t a b : Nat) (h : in_time K hw t (a + b)) :
    in_time K hw t a ∧ in_time K hw (t + a) b := by
  constructor
  · intro u h1 h2
    exact h u h1 (by omega)
  · intro u h1 h2
    exact h u (by omega) (by omega)

/-- What `n` loop iterations do when all their transfers are answered in time. -/
theorem xfer_iters_answered (K : Header) (hw : Hw) (hK : K.KWSPI_SMEMRDIRQ ≠ 0) (n : Nat) :
    ∀ (x : XferVars) (w : World), in_time K hw w.nxfer n →
      (xfer_iters K hw n x w).1.dout = x.dout.map (List.drop n) ∧
      (xfer_iters K hw n x w).1.din = x.din.map (fun p => p + n) ∧
      (xfer_iters K hw n x w).2.nxfer = w.nxfer + n ∧
      (xfer_iters K hw n x w).2.plat = w.plat ∧
      (xfer_iters K hw n x w).2.reg.ctrl = w.reg.ctrl ∧
      (xfer_iters K hw n x w).2.reg.cfg = w.reg.cfg ∧
      (xfer_iters K hw n x w).2.reg.timing1 = w.reg.timing1 ∧
      (xfer_iters K hw n x w).2.reg.irq_mask = w.reg.irq_mask ∧
      bus_trace (xfer_iters K hw n x w).2.trace =
        bus_trace w.trace ++ exchange_events hw w.nxfer x.dout x.din n := by
  induction n with
  | zero =>
    intro x w _
    have h1 : x.dout.map (List.drop 0) = x.dout := by cases x.dout <;> simp
    have h2 : (x.din.map fun p => p + 0) = x.din := by cases x.din <;> simp
    simp [xfer_iters, exchange_events_zero, h1, h2]
  | succ n ih =>
    intro x w ht
    obtain ⟨ha, ht1⟩ := in_time_succ K hw _ _ ht
    obtain ⟨e1, e2, e3, e4, e5, e6, e7, e8, e9⟩ := xfer_iter_answered K hw x w hK ha
    have ht2 : in_time K hw (xfer_iter K hw x w).2.nxfer n := by rw [e2]; exact ht1
    obtain ⟨f1, f2, f3, f4, f5, f6, f7, f8, f9⟩ :=
      ih (xfer_iter K hw x w).1 (xfer_iter K hw x w).2 ht2
    simp only [xfer_iters]
    refine ⟨?_, ?_, ?_, ?_, ?_, ?_, ?_, ?_, ?_⟩
    · rw [f1, e1]; cases x.dout <;> simp
    · rw [f2, e1]; cases x.din <;> simp [Nat.add_assoc, Nat.add_comm 1 n]
    · rw [f3, e2]; omega
    · rw [f4, e3]
    · rw [f5, e4]
    · rw [f6, e5]
    · rw [f7, e6]
    · rw [f8, e7]
    · rw [f9, e9, e2, e1, exchange_events_succ]
      simp [List.append_assoc]

/-- The world after `n` answered iterations does not depend on the remaining bit count. -/
theorem xfer_iters_answered_world (K : Header) (hw : Hw) (hK : K.KWSPI_SMEMRDIRQ ≠ 0) (n : Nat) :
    ∀ (x : XferVars) (w : World) (L : Nat), in_time K hw w.nxfer n →
      (xfer_iters K hw n { x with bitlen := L } w).2 = (xfer_iters K hw n x w).2 := by
  induction n with
  | zero => intro x w L _; rfl
  | succ n ih =>
    intro x w L ht
    obtain ⟨ha, ht1⟩ := in_time_succ K hw _ _ ht
    have e := (xfer_iter_answered K hw x w hK ha).1
    have e2 := (xfer_iter_answered K hw x w hK ha).2.1
    have eL := (xfer_iter_answered K hw { x with bitlen := L } w hK ha).1
    have ew := xfer_iter_answered_world K hw x w L hK ha
    have ht2 : in_time K hw (xfer_iter K hw x w).2.nxfer n := by rw [e2]; exact ht1
    simp only [xfer_iters]
    rw [ew, eL]
    have h := ih (xfer_iter K hw x w).1 (xfer_iter K hw x w).2 ((L + 2 ^ 32 - 8) % 2 ^ 32) ht2
    rw [e] at h
    rw [e]
    exact h

/-- With all transfers answered in time, a remaining bit count of `8 * n + r` with `r ≤ 4` makes
the `while` loop run exactly `n` iterations and leaves `r`. -/
theorem xfer_while_answered (K : Header) (hw : Hw) (hK : K.KWSPI_SMEMRDIRQ ≠ 0) (n : Nat) :
    ∀ (fuel : Nat) (x : XferVars) (w : World) (r : Nat),
      x.bitlen = 8 * n + r → r ≤ 4 → 8 * n + r < 2 ^ 32 → n ≤ fuel →
      in_time K hw w.nxfer n →
      xfer_while K hw fuel x w = some (xfer_iters K hw n x w) ∧
        (xfer_iters K hw n x w).1.bitlen = r := by
  induction n with
  | zero =>
    intro fuel x w r hx hr _ _ _
    have hb : ¬ x.bitlen > 4 := by omega
    cases fuel <;> simp [xfer_while, xfer_iters, hb] <;> omega
  | succ n ih =>
    intro fuel x w r hx hr hlt hf ht
    obtain ⟨ha, ht1⟩ := in_time_succ K hw _ _ ht
    have e := (xfer_iter_answered K hw x w hK ha).1
    have e2 := (xfer_iter_answered K hw x w hK ha).2.1
    have ht2 : in_time K hw (xfer_iter K hw x w).2.nxfer n := by rw [e2]; exact ht1
    obtain ⟨fuel, rfl⟩ : ∃ f, fuel = f + 1 := ⟨fuel - 1, by omega⟩
    have hb : x.bitlen > 4 := by omega
    have hx1 : (xfer_iter K hw x w).1.bitlen = 8 * n + r := by
      rw [e]
      show (x.bitlen + 2 ^ 32 - 8) % 2 ^ 32 = 8 * n + r
      omega
    have h := ih fuel (xfer_iter K hw x w).1 (xfer_iter K hw x w).2 r hx1 hr (by omega)
      (by omega) ht2
    simp only [xfer_while, hb, if_true, xfer_iters]
    exact h

theorem store_inbuf_length (din : Option Nat) (v : Nat) (buf : List Nat) :
    (store_inbuf din v buf).length = buf.length := by
  cases din <;> simp [store_inbuf]

/-- The input buffer after `n` answered iterations: the `n` bytes received, in order, at the
`n` positions from `din` on; the other positions keep their contents. -/
theorem xfer_iters_inbuf (K : Header) (hw : Hw) (hK : K.KWSPI_SMEMRDIRQ ≠ 0) (n : Nat) :
    ∀ (x : XferVars) (w : World) (p : Nat), in_time K hw w.nxfer n → x.din = some p →
      p + n ≤ w.inbuf.length →
      (xfer_iters K hw n x w).2.inbuf.length = w.inbuf.length ∧
      (∀ i, i < n →
        (xfer_iters K hw n x w).2.inbuf.getD (p + i) 0 = hw.din (w.nxfer + 1 + i) % 256) ∧
      (∀ j, j < p ∨ p + n ≤ j →
        (xfer_iters K hw n x w).2.inbuf.getD j 0 = w.inbuf.getD j 0) := by
  induction n with
  | zero => intro x w p _ _ _; simp [xfer_iters]
  | succ n ih =>
    intro x w p ht hp hlen
    obtain ⟨ha, ht1⟩ := in_time_succ K hw _ _ ht
    obtain ⟨e1, e2, _, _, _, _, _, e8, _⟩ := xfer_iter_answered K hw x w hK ha
    have ht2 : in_time K hw (xfer_iter K hw x w).2.nxfer n := by rw [e2]; exact ht1
    have hp1 : (xfer_iter K hw x w).1.din = some (p + 1) := by rw [e1]; simp [hp]
    have hbuf : (xfer_iter K hw x w).2.inbuf =
        w.inbuf.set p (hw.din (w.nxfer + 1) % 2 ^ 32 % 256) := by
      rw [e8, hp]; rfl
    have hlen1 : p + 1 + n ≤ (xfer_iter K hw x w).2.inbuf.length := by
      rw [hbuf, List.length_set]; omega
    obtain ⟨g1, g2, g3⟩ := ih (xfer_iter K hw x w).1 (xfer_iter K hw x w).2 (p + 1) ht2 hp1 hlen1
    simp only [xfer_iters]
    refine ⟨?_, ?_, ?_⟩
    · rw [g1, hbuf, List.length_set]
    · intro i hi
      cases i with
      | zero =>
        rw [Nat.add_zero, g3 p (Or.inl (by omega)), hbuf]
        have hpl : p < w.inbuf.length := by omega
        simp [List.getD_eq_getElem?_getD, List.getElem?_set, hpl]
        exact Nat.mod_mod_of_dvd _ (by norm_num)
      | succ i =>
        have := g2 i (by omega)
        rw [e2] at this
        rw [show p + (i + 1) = p + 1 + i by omega, this]
        congr 2
        omega
    · intro j hj
      rw [g3 j (by omega), hbuf]
      have hne : p ≠ j := by omega
      simp [List.getD_eq_getElem?_getD, List.getElem?_set, hne]

/-- A null `din` leaves the input buffer alone. -/
theorem xfer_iters_inbuf_none (K : Header) (hw : Hw) (hK : K.KWSPI_SMEMRDIRQ ≠ 0) (n : Nat) :
    ∀ (x : XferVars) (w : World), in_time K hw w.nxfer n → x.din = none →
      (xfer_iters K hw n x w).2.inbuf = w.inbuf := by
  induction n with
  | zero => intro x w _ _; rfl
  | succ n ih =>
    intro x w ht hp
    obtain ⟨ha, ht1⟩ := in_time_succ K hw _ _ ht
    obtain ⟨e1, e2, _, _, _, _, _, e8, _⟩ := xfer_iter_answered K hw x w hK ha
    have ht2 : in_time K hw (xfer_iter K hw x w).2.nxfer n := by rw [e2]; exact ht1
    have hp1 : (xfer_iter K hw x w).1.din = none := by rw [e1]; simp [hp]
    simp only [xfer_iters]
    rw [ih _ _ ht2 hp1, e8, hp]
    rfl

/-! ## Transfer engine: a whole request on hardware that answers in time -/

theorem cs_activate_eq (K : Header) (hw : Hw) (w : World) :
    _spi_cs_activate K hw w =
      { w with reg := { w.reg with ctrl := w.reg.ctrl ||| K.KWSPI_CSN_ACT },
               trace := w.trace ++
                 [Event.rd Reg.ctrl w.reg.ctrl,
                  Event.wr Reg.ctrl (w.reg.ctrl ||| K.KWSPI_CSN_ACT)] } := by
  simp [_spi_cs_activate, setbits_le32, readl, writel, kwspi_registers.get, kwspi_registers.set]

theorem cs_deactivate_eq (K : Header) (hw : Hw) (w : World) :
    _spi_cs_deactivate K hw w =
      { w with reg := { w.reg with ctrl := w.reg.ctrl &&& not32 K.KWSPI_CSN_ACT },
               trace := w.trace ++
                 [Event.rd Reg.ctrl w.reg.ctrl,
                  Event.wr Reg.ctrl (w.reg.ctrl &&& not32 K.KWSPI_CSN_ACT)] } := by
  simp [_spi_cs_deactivate, clrbits_le32, readl, writel, kwspi_registers.get,
    kwspi_registers.set]

theorem clrsetbits_cfg_eq (K : Header) (hw : Hw) (c m : Nat) (w : World) :
    clrsetbits_le32 K hw Reg.cfg c m w =
      { w with reg := { w.reg with cfg := (w.reg.cfg &&& not32 c) ||| m },
               trace := w.trace ++
                 [Event.rd Reg.cfg w.reg.cfg,
                  Event.wr Reg.cfg ((w.reg.cfg &&& not32 c) ||| m)] } := by
  simp [clrsetbits_le32, readl, writel, kwspi_registers.get, kwspi_registers.set]

/-- The world in which the `while` loop of `_spi_xfer` starts. -/
theorem spi_xfer_unfold (K : Header) (hw : Hw) (fuel bitlen : Nat) (dout : Option (List Nat))
    (din : Option Nat) (flags : Nat) (w : World) :
    _spi_xfer K hw fuel bitlen dout din flags w =
      (xfer_while K hw fuel { bitlen := bitlen, dout := dout, din := din }
        (clrsetbits_le32 K hw Reg.cfg K.KWSPI_XFERLEN_MASK K.KWSPI_XFERLEN_1BYTE
          (if flags &&& K.SPI_XFER_BEGIN ≠ 0 then _spi_cs_activate K hw w else w))).map
        (fun r => ((0 : Int),
          if flags &&& K.SPI_XFER_END ≠ 0 then _spi_cs_deactivate K hw r.2 else r.2)) := by
  simp only [_spi_xfer]
  cases xfer_while K hw fuel { bitlen := bitlen, dout := dout, din := din }
      (clrsetbits_le32 K hw Reg.cfg K.KWSPI_XFERLEN_MASK K.KWSPI_XFERLEN_1BYTE
        (if flags &&& K.SPI_XFER_BEGIN ≠ 0 then _spi_cs_activate K hw w else w)) <;> rfl

/-- The events of asserting chip-select under the `SPI_XFER_BEGIN` flag. -/
theorem bus_trace_begin (K : Header) (hw : Hw) (flags : Nat) (w : World) :
    bus_trace (if flags &&& K.SPI_XFER_BEGIN ≠ 0 then _spi_cs_activate K hw w else w).trace =
      bus_trace w.trace ++
        (if flags &&& K.SPI_XFER_BEGIN ≠ 0 then
          [Event.wr Reg.ctrl (w.reg.ctrl ||| K.KWSPI_CSN_ACT)] else []) := by
  split
  · simp [cs_activate_eq, bus_trace, Event.is_bus]
  · simp

theorem bus_trace_end (K : Header) (hw : Hw) (flags : Nat) (w : World) :
    bus_trace (if flags &&& K.SPI_XFER_END ≠ 0 then _spi_cs_deactivate K hw w else w).trace =
      bus_trace w.trace ++
        (if flags &&& K.SPI_XFER_END ≠ 0 then
          [Event.wr Reg.ctrl (w.reg.ctrl &&& not32 K.KWSPI_CSN_ACT)] else []) := by
  split
  · simp [cs_deactivate_eq, bus_trace, Event.is_bus]
  · simp

/-- `_spi_xfer` on hardware that answers every transfer of the request in time: it returns 0
after exactly `n` byte exchanges for a bit length `8 * n + r` with `r ≤ 4`. -/
theorem spi_xfer_answered (K : Header) (hw : Hw) (hK : K.KWSPI_SMEMRDIRQ ≠ 0)
    (fuel n r : Nat) (dout : Option (List Nat)) (din : Option Nat) (flags : Nat) (w : World)
    (hr : r ≤ 4) (hlt : 8 * n + r < 2 ^ 32) (hf : n ≤ fuel) (ht : in_time K hw w.nxfer n) :
    ∃ w1, _spi_xfer K hw fuel (8 * n + r) dout din flags w = some (0, w1) ∧
      w1.nxfer = w.nxfer + n ∧ w1.plat = w.plat ∧
      w1.reg.ctrl =
        (if flags &&& K.SPI_XFER_END ≠ 0 then
          (if flags &&& K.SPI_XFER_BEGIN ≠ 0 then w.reg.ctrl ||| K.KWSPI_CSN_ACT
            else w.reg.ctrl) &&& not32 K.KWSPI_CSN_ACT
         else if flags &&& K.SPI_XFER_BEGIN ≠ 0 then w.reg.ctrl ||| K.KWSPI_CSN_ACT
            else w.reg.ctrl) ∧
      w1.reg.cfg = (w.reg.cfg &&& not32 K.KWSPI_XFERLEN_MASK) ||| K.KWSPI_XFERLEN_1BYTE ∧
      w1.reg.timing1 = w.reg.timing1 ∧ w1.reg.irq_mask = w.reg.irq_mask ∧
      bus_trace w1.trace =
        bus_trace w.trace ++
          (if flags &&& K.SPI_XFER_BEGIN ≠ 0 then
            [Event.wr Reg.ctrl (w.reg.ctrl ||| K.KWSPI_CSN_ACT)] else []) ++
          exchange_events hw w.nxfer dout din n ++
          (if flags &&& K.SPI_XFER_END ≠ 0 then
            [Event.wr Reg.ctrl
              ((if flags &&& K.SPI_XFER_BEGIN ≠ 0 then w.reg.ctrl ||| K.KWSPI_CSN_ACT
                else w.reg.ctrl) &&& not32 K.KWSPI_CSN_ACT)] else []) ∧
      (∀ p, din = some p → p + n ≤ w.inbuf.length →
        w1.inbuf.length = w.inbuf.length ∧
        (∀ i, i < n → w1.inbuf.getD (p + i) 0 = hw.din (w.nxfer + 1 + i) % 256) ∧
        (∀ j, j < p ∨ p + n ≤ j → w1.inbuf.getD j 0 = w.inbuf.getD j 0)) ∧
      (din = none → w1.inbuf = w.inbuf) := by
  rw [spi_xfer_unfold]
  generalize hw1 : (if flags &&& K.SPI_XFER_BEGIN ≠ 0 then _spi_cs_activate K hw w else w) = W1
  have a1 : W1.nxfer = w.nxfer := by rw [← hw1]; split <;> simp [cs_activate_eq]
  have a2 : W1.plat = w.plat := by rw [← hw1]; split <;> simp [cs_activate_eq]
  have a3 : W1.reg.ctrl = (if flags &&& K.SPI_XFER_BEGIN ≠ 0 then
      w.reg.ctrl ||| K.KWSPI_CSN_ACT else w.reg.ctrl) := by
    rw [← hw1]; split <;> simp [cs_activate_eq]
  have a4 : W1.reg.cfg = w.reg.cfg := by rw [← hw1]; split <;> simp [cs_activate_eq]
  have a5 : W1.reg.timing1 = w.reg.timing1 := by rw [← hw1]; split <;> simp [cs_activate_eq]
  have a6 : W1.reg.irq_mask = w.reg.irq_mask := by rw [← hw1]; split <;> simp [cs_activate_eq]
  have a7 : W1.inbuf = w.inbuf := by rw [← hw1]; split <;> simp [cs_activate_eq]
  have a8 := bus_trace_begin K hw flags w
  rw [hw1] at a8
  generalize hw2 :
    clrsetbits_le32 K hw Reg.cfg K.KWSPI_XFERLEN_MASK K.KWSPI_XFERLEN_1BYTE W1 = W2
  have b1 : W2.nxfer = w.nxfer := by rw [← hw2, clrsetbits_cfg_eq]; exact a1
  have b2 : W2.plat = w.plat := by rw [← hw2, clrsetbits_cfg_eq]; exact a2
  have b3 : W2.reg.ctrl = W1.reg.ctrl := by rw [← hw2, clrsetbits_cfg_eq]
  have b4 : W2.reg.cfg = (w.reg.cfg &&& not32 K.KWSPI_XFERLEN_MASK) ||| K.KWSPI_XFERLEN_1BYTE := by
    rw [← hw2, clrsetbits_cfg_eq, ← a4]
  have b5 : W2.reg.timing1 = w.reg.timing1 := by rw [← hw2, clrsetbits_cfg_eq]; exact a5
  have b6 : W2.reg.irq_mask = w.reg.irq_mask := by rw [← hw2, clrsetbits_cfg_eq]; exact a6
  have b7 : W2.inbuf = w.inbuf := by rw [← hw2, clrsetbits_cfg_eq]; exact a7
  have b8 : bus_trace W2.trace = bus_trace W1.trace := by
    rw [← hw2, clrsetbits_cfg_eq]; simp [bus_trace, Event.is_bus]
  have ht2 : in_time K hw W2.nxfer n := by rw [b1]; exact ht
  obtain ⟨hwh, _⟩ := xfer_while_answered K hw hK n fuel
    { bitlen := 8 * n + r, dout := dout, din := din } W2 r rfl hr hlt hf ht2
  obtain ⟨_, _, c3, c4, c5, c6, c7, c8, c9⟩ := xfer_iters_answered K hw hK n
    { bitlen := 8 * n + r, dout := dout, din := din } W2 ht2
  have c10 := xfer_iters_inbuf K hw hK n { bitlen := 8 * n + r, dout := dout, din := din } W2
  have c11 := xfer_iters_inbuf_none K hw hK n
    { bitlen := 8 * n + r, dout := dout, din := din } W2 ht2
  rw [hwh]
  generalize xfer_iters K hw n { bitlen := 8 * n + r, dout := dout, din := din } W2 = R
    at c3 c4 c5 c6 c7 c8 c9 c10 c11
  have d8 := bus_trace_end K hw flags R.2
  refine ⟨_, rfl, ?_, ?_, ?_, ?_, ?_, ?_, ?_, ?_, ?_⟩
  · split <;> simp [cs_deactivate_eq, c3, b1]
  · split <;> simp [cs_deactivate_eq, c4, b2]
  · split
    · simp [cs_deactivate_eq, c5, b3, a3]
    · simp [c5, b3, a3]
  · split <;> simp [cs_deactivate_eq, c6, b4]
  · split <;> simp [cs_deactivate_eq, c7, b5]
  · split <;> simp [cs_deactivate_eq, c8, b6]
  · rw [d8, c9, b8, a8, c5, b3, a3, b1]
  · intro p hp hlen
    have := c10 p ht2 hp (by rw [b7]; exact hlen)
    rw [b7, b1] at this
    split <;> simpa [cs_deactivate_eq] using this
  · intro hp
    have := c11 hp
    rw [b7] at this
    split <;> simpa [cs_deactivate_eq] using this

/-! ## Transfer engine: splitting a message into several requests -/

theorem same_bus_refl (w : World) : same_bus w w :=
  ⟨rfl, rfl, rfl, rfl, rfl, rfl⟩

theorem same_bus_trans {a b c : World} (h1 : same_bus a b) (h2 : same_bus b c) : same_bus a c := by
  obtain ⟨p1, p2, p3, p4, p5, p6⟩ := h1
  obtain ⟨q1, q2, q3, q4, q5, q6⟩ := h2
  exact ⟨p1.trans q1, p2.trans q2, p3.trans q3, p4.trans q4, p5.trans q5, p6.trans q6⟩

theorem retrace_self (w : World) : retrace w.trace { w with trace := [] } = w := by
  simp [retrace]

theorem same_bus_retrace_left {w1 w2 : World} (h : same_bus w1 w2) :
    retrace w2.trace { w1 with trace := [] } = w2 := by
  obtain ⟨p1, p2, p3, p4, p5, _⟩ := h
  cases w1; cases w2
  simp only [retrace, List.append_nil] at *
  simp [p1, p2, p3, p4, p5]

/-- A step that commutes with putting events in front of the log maps worlds with the same bus
behaviour to worlds with the same bus behaviour. -/
theorem same_bus_map (f : World → World) (hf : ∀ t w, f (retrace t w) = retrace t (f w))
    {w1 w2 : World} (h : same_bus w1 w2) : same_bus (f w1) (f w2) := by
  have e1 : f w1 = retrace w1.trace (f { w1 with trace := [] }) := by
    rw [← hf, retrace_self]
  have e2 : f w2 = retrace w2.trace (f { w1 with trace := [] }) := by
    rw [← hf, same_bus_retrace_left h]
  rw [e1, e2]
  refine ⟨rfl, rfl, rfl, rfl, rfl, ?_⟩
  simp only [retrace, bus_trace_append, h.2.2.2.2.2]

theorem xfer_iters_retrace (K : Header) (hw : Hw) (t : List Event) (n : Nat) :
    ∀ (x : XferVars) (w : World),
      xfer_iters K hw n x (retrace t w) =
        ((xfer_iters K hw n x w).1, retrace t (xfer_iters K hw n x w).2) := by
  induction n with
  | zero => intro x w; rfl
  | succ n ih =>
    intro x w
    simp only [xfer_iters, xfer_iter_retrace, ih]

theorem cs_deactivate_retrace (K : Header) (hw : Hw) (t : List Event) (w : World) :
    _spi_cs_deactivate K hw (retrace t w) = retrace t (_spi_cs_deactivate K hw w) := by
  simp only [_spi_cs_deactivate, clrbits_retrace]

theorem xfer_iters_add (K : Header) (hw : Hw) (a b : Nat) :
    ∀ (x : XferVars) (w : World),
      xfer_iters K hw (a + b) x w =
        xfer_iters K hw b (xfer_iters K hw a x w).1 (xfer_iters K hw a x w).2 := by
  induction a with
  | zero => intro x w; simp [xfer_iters]
  | succ a ih =>
    intro x w
    rw [show a + 1 + b = (a + b) + 1 by omega]
    simp only [xfer_iters, ih]

/-- The remaining bit count after `n` answered iterations. -/
theorem xfer_iters_bitlen (K : Header) (hw : Hw) (hK : K.KWSPI_SMEMRDIRQ ≠ 0) (n : Nat) :
    ∀ (x : XferVars) (w : World) (m : Nat), in_time K hw w.nxfer n →
      x.bitlen = 8 * n + m → 8 * n + m < 2 ^ 32 →
      (xfer_iters K hw n x w).1.bitlen = m := by
  induction n with
  | zero => intro x w m _ hx _; simp [xfer_iters, hx]
  | succ n ih =>
    intro x w m ht hx hlt
    obtain ⟨ha, ht1⟩ := in_time_succ K hw _ _ ht
    have e := (xfer_iter_answered K hw x w hK ha).1
    have e2 := (xfer_iter_answered K hw x w hK ha).2.1
    have ht2 : in_time K hw (xfer_iter K hw x w).2.nxfer n := by rw [e2]; exact ht1
    have hx1 : (xfer_iter K hw x w).1.bitlen = 8 * n + m := by
      rw [e]
      show (x.bitlen + 2 ^ 32 - 8) % 2 ^ 32 = 8 * n + m
      omega
    simp only [xfer_iters]
    exact ih _ _ m ht2 hx1 (by omega)

theorem xferlen_idem (c m s : Nat) :
    ((((c &&& not32 m) ||| s) &&& not32 m) ||| s) = ((c &&& not32 m) ||| s) := by
  apply Nat.eq_of_testBit_eq
  intro i
  simp only [Nat.testBit_and, Nat.testBit_or, testBit_not32]
  cases c.testBit i <;> cases s.testBit i <;> cases m.testBit i <;> cases decide (i < 32) <;> rfl

theorem or_and_distrib (a b c : Nat) : (a ||| b) &&& c = (a &&& c) ||| (b &&& c) := by
  apply Nat.eq_of_testBit_eq
  intro i
  simp only [Nat.testBit_and, Nat.testBit_or]
  cases a.testBit i <;> cases b.testBit i <;> cases c.testBit i <;> rfl

theorem split_flags_begin (K : Header) (hF : K.flags_ok) (first last : Bool) :
    split_flags K first last &&& K.SPI_XFER_BEGIN ≠ 0 ↔ first = true := by
  obtain ⟨hB, hE, hBE⟩ := hF
  have hEB : K.SPI_XFER_END &&& K.SPI_XFER_BEGIN = 0 := by rw [Nat.and_comm]; exact hBE
  cases first <;> cases last <;>
    simp [split_flags, or_and_distrib, hB, hE, hEB]

theorem split_flags_end (K : Header) (hF : K.flags_ok) (first last : Bool) :
    split_flags K first last &&& K.SPI_XFER_END ≠ 0 ↔ last = true := by
  obtain ⟨hB, hE, hBE⟩ := hF
  cases first <;> cases last <;>
    simp [split_flags, or_and_distrib, hB, hE, hBE]

theorem same_bus_clrsetbits_cfg (K : Header) (hw : Hw) (c m : Nat) (w : World)
    (h : (w.reg.cfg &&& not32 c) ||| m = w.reg.cfg) :
    same_bus w (clrsetbits_le32 K hw Reg.cfg c m w) := by
  rw [clrsetbits_cfg_eq, h]
  refine ⟨rfl, rfl, rfl, rfl, rfl, ?_⟩
  simp [bus_trace, Event.is_bus]

theorem xfervars_ext {x y : XferVars} (h1 : x.bitlen = y.bitlen) (h2 : x.dout = y.dout)
    (h3 : x.din = y.din) : x = y := by
  cases x; cases y; simp_all

/-- A request with `SPI_XFER_END` for `a + b` bytes behaves on the bus like a request for the
first `a` bytes without `SPI_XFER_END` followed by a request for the other `b` bytes with
`SPI_XFER_END` and without `SPI_XFER_BEGIN`. -/
theorem split_step_same_bus (K : Header) (hw : Hw) (hK : K.KWSPI_SMEMRDIRQ ≠ 0)
    (hF : K.flags_ok) (a b : Nat) (first : Bool) (dout : Option (List Nat)) (din : Option Nat)
    (w : World) (hlt : 8 * (a + b) < 2 ^ 32) (ht : in_time K hw w.nxfer (a + b)) :
    ∃ wa w1 w2,
      _spi_xfer K hw a (8 * a) dout din (split_flags K first false) w = some (0, wa) ∧
      wa.nxfer = w.nxfer + a ∧
      _spi_xfer K hw b (8 * b) (dout.map (List.drop a)) (din.map fun p => p + a)
        (split_flags K false true) wa = some (0, w2) ∧
      _spi_xfer K hw (a + b) (8 * (a + b)) dout din (split_flags K first true) w = some (0, w1) ∧
      same_bus w1 w2 := by
  obtain ⟨hta, htb⟩ := in_time_add K hw _ a b ht
  simp only [spi_xfer_unfold, split_flags_begin K hF, split_flags_end K hF]
  generalize hW1 : (if first = true then _spi_cs_activate K hw w else w) = W1
  have a1 : W1.nxfer = w.nxfer := by rw [← hW1]; split <;> simp [cs_activate_eq]
  generalize hW2 :
    clrsetbits_le32 K hw Reg.cfg K.KWSPI_XFERLEN_MASK K.KWSPI_XFERLEN_1BYTE W1 = W2
  have b1 : W2.nxfer = w.nxfer := by rw [← hW2, clrsetbits_cfg_eq]; exact a1
  have b4 : W2.reg.cfg = (W1.reg.cfg &&& not32 K.KWSPI_XFERLEN_MASK) ||| K.KWSPI_XFERLEN_1BYTE := by
    rw [← hW2, clrsetbits_cfg_eq]
  have hta2 : in_time K hw W2.nxfer a := by rw [b1]; exact hta
  have ht2 : in_time K hw W2.nxfer (a + b) := by rw [b1]; exact ht
  -- the first request
  obtain ⟨hA, hAb⟩ := xfer_while_answered K hw hK a a
    { bitlen := 8 * a, dout := dout, din := din } W2 0 rfl (by omega) (by omega) (le_refl a) hta2
  obtain ⟨pA1, pA2, pA3, _, _, pA6, _, _, _⟩ := xfer_iters_answered K hw hK a
    { bitlen := 8 * a, dout := dout, din := din } W2 hta2
  -- the combined request
  obtain ⟨hC, _⟩ := xfer_while_answered K hw hK (a + b) (a + b)
    { bitlen := 8 * (a + b), dout := dout, din := din } W2 0 rfl (by omega) (by omega)
    (le_refl _) ht2
  have hCw := xfer_iters_answered_world K hw hK a
    { bitlen := 8 * a, dout := dout, din := din } W2 (8 * (a + b)) hta2
  have hCb := xfer_iters_bitlen K hw hK a
    { bitlen := 8 * (a + b), dout := dout, din := din } W2 (8 * b) hta2
    (by show 8 * (a + b) = 8 * a + 8 * b; omega) (by omega)
  obtain ⟨pC1, pC2, _⟩ := xfer_iters_answered K hw hK a
    { bitlen := 8 * (a + b), dout := dout, din := din } W2 hta2
  have hCx : (xfer_iters K hw a { bitlen := 8 * (a + b), dout := dout, din := din } W2).1 =
      { bitlen := 8 * b, dout := dout.map (List.drop a), din := din.map fun p => p + a } :=
    xfervars_ext hCb pC1 pC2
  have hCw2 : (xfer_iters K hw a { bitlen := 8 * (a + b), dout := dout, din := din } W2).2 =
      (xfer_iters K hw a { bitlen := 8 * a, dout := dout, din := din } W2).2 := hCw
  have hC2 : xfer_while K hw (a + b) { bitlen := 8 * (a + b), dout := dout, din := din } W2 =
      some (xfer_iters K hw b
        { bitlen := 8 * b, dout := dout.map (List.drop a), din := din.map fun p => p + a }
        (xfer_iters K hw a { bitlen := 8 * a, dout := dout, din := din } W2).2) := by
    rw [hC, xfer_iters_add, hCx, hCw2]
  generalize hWa : (xfer_iters K hw a { bitlen := 8 * a, dout := dout, din := din } W2) = RA
    at hA pA3 pA6 hC2
  -- the second request
  have hidem : (RA.2.reg.cfg &&& not32 K.KWSPI_XFERLEN_MASK) ||| K.KWSPI_XFERLEN_1BYTE
      = RA.2.reg.cfg := by
    rw [pA6, b4, xferlen_idem]
  have hsb := same_bus_clrsetbits_cfg K hw K.KWSPI_XFERLEN_MASK K.KWSPI_XFERLEN_1BYTE RA.2 hidem
  have hnx : (clrsetbits_le32 K hw Reg.cfg K.KWSPI_XFERLEN_MASK K.KWSPI_XFERLEN_1BYTE
      RA.2).nxfer = w.nxfer + a := by rw [← hsb.2.2.1, pA3, b1]
  have htb2 : in_time K hw (clrsetbits_le32 K hw Reg.cfg K.KWSPI_XFERLEN_MASK
      K.KWSPI_XFERLEN_1BYTE RA.2).nxfer b := by rw [hnx]; exact htb
  obtain ⟨hB, _⟩ := xfer_while_answered K hw hK b b
    { bitlen := 8 * b, dout := dout.map (List.drop a), din := din.map fun p => p + a }
    (clrsetbits_le32 K hw Reg.cfg K.KWSPI_XFERLEN_MASK K.KWSPI_XFERLEN_1BYTE RA.2) 0
    rfl (by omega) (by omega) (le_refl b) htb2
  refine ⟨RA.2,
    _spi_cs_deactivate K hw (xfer_iters K hw b
      { bitlen := 8 * b, dout := dout.map (List.drop a), din := din.map fun p => p + a }
      RA.2).2,
    _spi_cs_deactivate K hw (xfer_iters K hw b
      { bitlen := 8 * b, dout := dout.map (List.drop a), din := din.map fun p => p + a }
      (clrsetbits_le32 K hw Reg.cfg K.KWSPI_XFERLEN_MASK K.KWSPI_XFERLEN_1BYTE RA.2)).2,
    ?_, ?_, ?_, ?_, ?_⟩
  · rw [hA]; simp
  · rw [pA3, b1]
  · simp only [Bool.false_eq_true, if_false]
    rw [hB]; simp
  · rw [hC2]; simp
  · exact same_bus_map
      (fun v => _spi_cs_deactivate K hw
        (xfer_iters K hw b
          { bitlen := 8 * b, dout := dout.map (List.drop a), din := din.map fun p => p + a }
          v).2)
      (fun t v => by simp only [xfer_iters_retrace, cs_deactivate_retrace]) hsb

/-- A message sent as consecutive whole-byte requests, `SPI_XFER_END` on the last one only,
behaves on the bus like the single request for the whole message. -/
theorem xfer_split_same_bus (K : Header) (hw : Hw) (hK : K.KWSPI_SMEMRDIRQ ≠ 0)
    (hF : K.flags_ok) :
    ∀ (cs : List Nat) (first : Bool) (dout : Option (List Nat)) (din : Option Nat) (w : World),
      cs ≠ [] → 8 * cs.sum < 2 ^ 32 → in_time K hw w.nxfer cs.sum →
      ∃ w1 w2,
        _spi_xfer K hw cs.sum (8 * cs.sum) dout din (split_flags K first true) w = some (0, w1) ∧
        xfer_split K hw first cs dout din w = some w2 ∧ same_bus w1 w2 := by
  intro cs
  induction cs with
  | nil => intro _ _ _ _ h; exact absurd rfl h
  | cons c rest ih =>
    intro first dout din w _ hlt ht
    cases hrest : rest with
    | nil =>
      subst hrest
      simp only [List.sum_cons, List.sum_nil, Nat.add_zero] at hlt ht ⊢
      obtain ⟨w1, h1, _⟩ := spi_xfer_answered K hw hK c c 0 dout din (split_flags K first true) w
        (by omega) (by omega) (le_refl c) ht
      rw [Nat.add_zero] at h1
      exact ⟨w1, w1, h1, by simp [xfer_split, h1], same_bus_refl w1⟩
    | cons c2 rest2 =>
      have hne : rest ≠ [] := by rw [hrest]; simp
      rw [← hrest]
      simp only [List.sum_cons] at hlt ht ⊢
      obtain ⟨wa, w1, w2, s1, s2, s3, s4, s5⟩ :=
        split_step_same_bus K hw hK hF c rest.sum first dout din w hlt ht
      have hta : in_time K hw wa.nxfer rest.sum := by
        rw [s2]; exact (in_time_add K hw _ _ _ ht).2
      obtain ⟨v1, v2, t1, t2, t3⟩ :=
        ih false (dout.map (List.drop c)) (din.map fun p => p + c) wa hne (by omega) hta
      rw [s3] at t1
      have hv : w2 = v1 := by
        have := Option.some.inj t1
        exact (Prod.mk.inj this).2
      subst hv
      have hemp : rest.isEmpty = false := by rw [hrest]; rfl
      refine ⟨w1, v2, s4, ?_, same_bus_trans s5 t3⟩
      simp only [xfer_split, hemp, s1]
      exact t2

theorem dout_writes_append (a b : List Event) :
    dout_writes (a ++ b) = dout_writes a ++ dout_writes b := by
  induction a with
  | nil => rfl
  | cons e a ih =>
    cases e with
    | wr r v => cases r <;> simp [dout_writes, ih]
    | rd r v => simp [dout_writes, ih]
    | store p v => simp [dout_writes, ih]
    | timeout => simp [dout_writes, ih]

theorem dout_writes_bus_trace (tr : List Event) : dout_writes (bus_trace tr) = dout_writes tr := by
  induction tr with
  | nil => rfl
  | cons e a ih =>
    cases e with
    | wr r v => cases r <;> simp_all [dout_writes, bus_trace, Event.is_bus]
    | rd r v => simp_all [dout_writes, bus_trace, Event.is_bus]
    | store p v => simp_all [dout_writes, bus_trace, Event.is_bus]
    | timeout => simp_all [dout_writes, bus_trace, Event.is_bus]

theorem dout_writes_store_events (din : Option Nat) (v : Nat) :
    dout_writes (store_events din v) = [] := by
  cases din <;> rfl

/-- The bytes written to `dout` by `n` answered exchanges are bytes `0 .. n - 1` of the output
message, in order. -/
theorem dout_writes_exchange_events (hw : Hw) (t : Nat) (dout : Option (List Nat))
    (din : Option Nat) (n : Nat) :
    dout_writes (exchange_events hw t dout din n) = (List.range n).map (byte_at dout) := by
  induction n with
  | zero => simp [exchange_events, dout_writes]
  | succ n ih =>
    have h := exchange_events_add hw t dout din n 1
    rw [h, dout_writes_append, ih, List.range_succ, List.map_append]
    congr 1
    simp [exchange_events, dout_writes, dout_writes_store_events, byte_at_drop]

/-! ## Transfer engine: requests with both flags, and split messages -/

theorem begin_end_flags (K : Header) (hF : K.flags_ok) :
    (K.SPI_XFER_BEGIN ||| K.SPI_XFER_END) &&& K.SPI_XFER_BEGIN ≠ 0 ∧
    (K.SPI_XFER_BEGIN ||| K.SPI_XFER_END) &&& K.SPI_XFER_END ≠ 0 := by
  have h1 := (split_flags_begin K hF true true).2 rfl
  have h2 := (split_flags_end K hF true true).2 rfl
  simpa [split_flags] using And.intro h1 h2

/-- The bus behaviour of a request with both flags on hardware that answers in time. -/
theorem begin_end_request_bus (K : Header) (hw : Hw) (n fuel : Nat) (dout : Option (List Nat))
    (din : Option Nat) (w : World) (hK : K.KWSPI_SMEMRDIRQ ≠ 0) (hF : K.flags_ok)
    (hn : 8 * n < 2 ^ 32) (hf : n ≤ fuel) (ht : in_time K hw w.nxfer n) :
    ∃ w1, _spi_xfer K hw fuel (8 * n) dout din (K.SPI_XFER_BEGIN ||| K.SPI_XFER_END) w
        = some (0, w1) ∧
      bus_trace w1.trace =
        bus_trace w.trace ++
          Event.wr Reg.ctrl (w.reg.ctrl ||| K.KWSPI_CSN_ACT) ::
            exchange_events hw w.nxfer dout din n ++
          [Event.wr Reg.ctrl ((w.reg.ctrl ||| K.KWSPI_CSN_ACT) &&& not32 K.KWSPI_CSN_ACT)] ∧
      (∀ p, din = some p → p + n ≤ w.inbuf.length →
        ∀ i, i < n → w1.inbuf.getD (p + i) 0 = hw.din (w.nxfer + 1 + i) % 256) := by
  obtain ⟨hB, hE⟩ := begin_end_flags K hF
  obtain ⟨w1, h1, _, _, _, _, _, _, h8, h9, _⟩ :=
    spi_xfer_answered K hw hK fuel n 0 dout din (K.SPI_XFER_BEGIN ||| K.SPI_XFER_END) w
      (by omega) (by omega) hf ht
  rw [Nat.add_zero] at h1
  refine ⟨w1, h1, ?_, fun p hp hlen => (h9 p hp hlen).2.1⟩
  rw [h8]
  simp [hB, hE]

/-- C4: for every `n`, `_spi_xfer` with `bitlen = 8 * n` and flags `BEGIN | END`, on hardware
that raises read-ready within the poll budget for each of the `n` transfers, returns 0 and shows
on the bus, in this order: one write to `ctrl` that sets `KWSPI_CSN_ACT`; then for `i = 0 .. n-1`
a write of byte `i` of the output message (0 for a null `dout`) to `dout` followed by the store of
the low byte read from `din` at offset `i` of the input buffer (no store for a null `din`); then
one write to `ctrl` that clears `KWSPI_CSN_ACT`. The bytes written to `dout` are exactly bytes
`0 .. n-1`, and afterwards position `i` of the input buffer holds the byte received by the
`i`-th transfer. -/
theorem spi_xfer_begin_end (K : Header) (hw : Hw) (n fuel : Nat) (dout : Option (List Nat))
    (din : Option Nat) (w : World) (hK : K.KWSPI_SMEMRDIRQ ≠ 0) (hF : K.flags_ok)
    (hn : 8 * n < 2 ^ 32) (hf : n ≤ fuel) (ht : in_time K hw w.nxfer n) :
    ∃ w1, _spi_xfer K hw fuel (8 * n) dout din (K.SPI_XFER_BEGIN ||| K.SPI_XFER_END) w
        = some (0, w1) ∧
      bus_trace w1.trace =
        bus_trace w.trace ++
          Event.wr Reg.ctrl (w.reg.ctrl ||| K.KWSPI_CSN_ACT) ::
            exchange_events hw w.nxfer dout din n ++
          [Event.wr Reg.ctrl ((w.reg.ctrl ||| K.KWSPI_CSN_ACT) &&& not32 K.KWSPI_CSN_ACT)] ∧
      (w.reg.ctrl ||| K.KWSPI_CSN_ACT) &&& K.KWSPI_CSN_ACT = K.KWSPI_CSN_ACT ∧
      ((w.reg.ctrl ||| K.KWSPI_CSN_ACT) &&& not32 K.KWSPI_CSN_ACT) &&& K.KWSPI_CSN_ACT = 0 ∧
      dout_writes w1.trace = dout_writes w.trace ++ (List.range n).map (byte_at dout) ∧
      (∀ p, din = some p → p + n ≤ w.inbuf.length →
        ∀ i, i < n → w1.inbuf.getD (p + i) 0 = hw.din (w.nxfer + 1 + i) % 256) := by
  obtain ⟨w1, h1, h2, h3⟩ := begin_end_request_bus K hw n fuel dout din w hK hF hn hf ht
  refine ⟨w1, h1, h2, or_and_self _ _, and_not32_and_self _ _, ?_, h3⟩
  rw [← dout_writes_bus_trace w1.trace, h2]
  simp [dout_writes_append, dout_writes_bus_trace, dout_writes_exchange_events, dout_writes]

theorem hw_prompt_in_time (t n : Nat) : in_time (upstream 250000000) hw_prompt t n :=
  fun _ _ _ => ⟨0, by decide, rfl⟩

/-- Instance of the C4 theorem: upstream constants, `bitlen = 16`, the two bytes `0xA5`,
`0x3C`, hardware that answers on the first poll. -/
theorem spi_xfer_begin_end_witness :
    (upstream 250000000).KWSPI_SMEMRDIRQ ≠ 0 ∧ (upstream 250000000).flags_ok ∧
    8 * 2 < 2 ^ 32 ∧ 2 ≤ 2 ∧
    in_time (upstream 250000000) hw_prompt (world_of (regs_of 2 0x212 0x40) false 2).nxfer 2 ∧
    ∃ w1, _spi_xfer (upstream 250000000) hw_prompt 2 (8 * 2) (some [0xA5, 0x3C]) (some 0)
          ((upstream 250000000).SPI_XFER_BEGIN ||| (upstream 250000000).SPI_XFER_END)
          (world_of (regs_of 2 0x212 0x40) false 2) = some (0, w1) ∧
      bus_trace w1.trace =
        bus_trace (world_of (regs_of 2 0x212 0x40) false 2).trace ++
          Event.wr Reg.ctrl ((world_of (regs_of 2 0x212 0x40) false 2).reg.ctrl |||
              (upstream 250000000).KWSPI_CSN_ACT) ::
            exchange_events hw_prompt (world_of (regs_of 2 0x212 0x40) false 2).nxfer
              (some [0xA5, 0x3C]) (some 0) 2 ++
          [Event.wr Reg.ctrl (((world_of (regs_of 2 0x212 0x40) false 2).reg.ctrl |||
              (upstream 250000000).KWSPI_CSN_ACT) &&&
                not32 (upstream 250000000).KWSPI_CSN_ACT)] ∧
      ((world_of (regs_of 2 0x212 0x40) false 2).reg.ctrl |||
          (upstream 250000000).KWSPI_CSN_ACT) &&& (upstream 250000000).KWSPI_CSN_ACT
        = (upstream 250000000).KWSPI_CSN_ACT ∧
      (((world_of (regs_of 2 0x212 0x40) false 2).reg.ctrl |||
          (upstream 250000000).KWSPI_CSN_ACT) &&& not32 (upstream 250000000).KWSPI_CSN_ACT)
        &&& (upstream 250000000).KWSPI_CSN_ACT = 0 ∧
      dout_writes w1.trace =
        dout_writes (world_of (regs_of 2 0x212 0x40) false 2).trace ++
          (List.range 2).map (byte_at (some [0xA5, 0x3C])) ∧
      (∀ p, some 0 = some p → p + 2 ≤ (world_of (regs_of 2 0x212 0x40) false 2).inbuf.length →
        ∀ i, i < 2 → w1.inbuf.getD (p + i) 0 =
          hw_prompt.din ((world_of (regs_of 2 0x212 0x40) false 2).nxfer + 1 + i) % 256) :=
  ⟨by decide, by decide, by decide, by decide, hw_prompt_in_time _ _,
    spi_xfer_begin_end (upstream 250000000) hw_prompt 2 2 (some [0xA5, 0x3C]) (some 0)
      (world_of (regs_of 2 0x212 0x40) false 2) (by decide) (by decide) (by decide) (by decide)
      (hw_prompt_in_time _ _)⟩

/-- The request of the specification's example evaluated: `bitlen = 16`, flags `BEGIN | END`,
output bytes `0xA5 0x3C`; the bus shows chip-select on, the two exchanges, chip-select off. -/
theorem spi_xfer_two_bytes_run :
    (_spi_xfer (upstream 250000000) hw_prompt 2 16 (some [0xA5, 0x3C]) (some 0) 3
        (world_of (regs_of 2 0x212 0x40) false 2)).map
        (fun r => (r.1, bus_trace r.2.trace, r.2.inbuf))
      = some (0, [Event.wr Reg.ctrl 3, Event.wr Reg.dout 0xA5, Event.store 0 1,
                  Event.wr Reg.dout 0x3C, Event.store 1 2, Event.wr Reg.ctrl 2], [1, 2]) := by
  decide

/-- C5: a message of `cs.sum` bytes sent as consecutive whole-byte requests of `cs` bytes each,
with `SPI_XFER_BEGIN` on the first request only and `SPI_XFER_END` on the last only, on hardware
that answers every transfer in time: the split requests and the single request with
`BEGIN | END` both return, end in worlds that agree on all registers, on the input buffer and
on the sequence of bus events, and that sequence is one write setting `KWSPI_CSN_ACT`, the byte
exchanges, one write clearing `KWSPI_CSN_ACT`. -/
theorem spi_xfer_split (K : Header) (hw : Hw) (cs : List Nat) (dout : Option (List Nat))
    (din : Option Nat) (w : World) (hK : K.KWSPI_SMEMRDIRQ ≠ 0) (hF : K.flags_ok)
    (hcs : cs ≠ []) (hlt : 8 * cs.sum < 2 ^ 32) (ht : in_time K hw w.nxfer cs.sum) :
    ∃ w1 w2,
      _spi_xfer K hw cs.sum (8 * cs.sum) dout din (K.SPI_XFER_BEGIN ||| K.SPI_XFER_END) w
        = some (0, w1) ∧
      xfer_split K hw true cs dout din w = some w2 ∧
      same_bus w1 w2 ∧
      dout_writes w2.trace = dout_writes w.trace ++ (List.range cs.sum).map (byte_at dout) ∧
      bus_trace w2.trace =
        bus_trace w.trace ++
          Event.wr Reg.ctrl (w.reg.ctrl ||| K.KWSPI_CSN_ACT) ::
            exchange_events hw w.nxfer dout din cs.sum ++
          [Event.wr Reg.ctrl ((w.reg.ctrl ||| K.KWSPI_CSN_ACT) &&& not32 K.KWSPI_CSN_ACT)] ∧
      (w.reg.ctrl ||| K.KWSPI_CSN_ACT) &&& K.KWSPI_CSN_ACT = K.KWSPI_CSN_ACT ∧
      ((w.reg.ctrl ||| K.KWSPI_CSN_ACT) &&& not32 K.KWSPI_CSN_ACT) &&& K.KWSPI_CSN_ACT = 0 := by
  obtain ⟨w1, w2, h1, h2, h3⟩ := xfer_split_same_bus K hw hK hF cs true dout din w hcs hlt ht
  have hfl : split_flags K true true = K.SPI_XFER_BEGIN ||| K.SPI_XFER_END := by
    simp [split_flags]
  rw [hfl] at h1
  obtain ⟨v1, g1, g2, _⟩ :=
    begin_end_request_bus K hw cs.sum cs.sum dout din w hK hF hlt (le_refl _) ht
  rw [h1] at g1
  have hv : w1 = v1 := (Prod.mk.inj (Option.some.inj g1)).2
  subst hv
  have hb : bus_trace w2.trace = _ := h3.2.2.2.2.2.symm.trans g2
  refine ⟨w1, w2, h1, h2, h3, ?_, hb, or_and_self _ _, and_not32_and_self _ _⟩
  rw [← dout_writes_bus_trace w2.trace, hb]
  simp [dout_writes_append, dout_writes_bus_trace, dout_writes_exchange_events, dout_writes]

/-! ## Transfer engine: any hardware -/

/-- Whatever the hardware does, the poll loop leaves the remaining bit count alone or takes 8
off it (in 32-bit unsigned arithmetic). -/
theorem poll_loop_bitlen (K : Header) (hw : Hw) (n : Nat) :
    ∀ (tm : Nat) (x : XferVars) (w : World),
      (poll_loop K hw n tm x w).2.1.bitlen = x.bitlen ∨
      (poll_loop K hw n tm x w).2.1.bitlen = (x.bitlen + 2 ^ 32 - 8) % 2 ^ 32 := by
  induction n with
  | zero => intro tm x w; left; rfl
  | succ n ih =>
    intro tm x w
    simp only [poll_loop]
    split
    · right
      cases x.din <;> rfl
    · exact ih _ _ _

theorem xfer_iter_bitlen (K : Header) (hw : Hw) (x : XferVars) (w : World) :
    (xfer_iter K hw x w).1.bitlen = x.bitlen ∨
    (xfer_iter K hw x w).1.bitlen = (x.bitlen + 2 ^ 32 - 8) % 2 ^ 32 := by
  simp only [xfer_iter]
  exact poll_loop_bitlen K hw _ _ _ _

/-- A bit count that leaves a remainder of 5, 6 or 7 modulo 8 keeps the `while` loop running for
ever, whatever the hardware does: no amount of fuel makes it return. -/
theorem xfer_while_remainder_none (K : Header) (hw : Hw) (fuel : Nat) :
    ∀ (x : XferVars) (w : World), x.bitlen < 2 ^ 32 → 5 ≤ x.bitlen % 8 →
      xfer_while K hw fuel x w = none := by
  induction fuel with
  | zero =>
    intro x w _ h5
    have hb : x.bitlen > 4 := by omega
    simp [xfer_while, hb]
  | succ fuel ih =>
    intro x w hlt h5
    have hb : x.bitlen > 4 := by omega
    simp only [xfer_while, hb, if_true]
    apply ih
    · rcases xfer_iter_bitlen K hw x w with h | h <;> rw [h] <;> omega
    · rcases xfer_iter_bitlen K hw x w with h | h <;> rw [h] <;> omega

theorem not_answered_iff (K : Header) (hw : Hw) (t : Nat) :
    ¬ answered K hw t ↔ ∀ k, k < K.KWSPI_TIMEOUT → hw.ready t k = false := by
  constructor
  · intro h k hk
    cases hr : hw.ready t k
    · rfl
    · exact absurd ⟨k, hk, hr⟩ h
  · rintro h ⟨k, hk, hr⟩
    rw [h k hk] at hr
    exact absurd hr (by decide)

/-- What one loop iteration does when its transfer is not answered within the poll budget: the
loop variables are unchanged, the byte has been written to `dout`, nothing was received, and the
time-out message is logged. -/
theorem xfer_iter_timed_out (K : Header) (hw : Hw) (x : XferVars) (w : World)
    (ha : ¬ answered K hw (w.nxfer + 1)) :
    (xfer_iter K hw x w).1 = x ∧
    (xfer_iter K hw x w).2.nxfer = w.nxfer + 1 ∧
    (xfer_iter K hw x w).2.plat = w.plat ∧
    (xfer_iter K hw x w).2.reg.ctrl = w.reg.ctrl ∧
    (xfer_iter K hw x w).2.reg.cfg = w.reg.cfg ∧
    (xfer_iter K hw x w).2.reg.timing1 = w.reg.timing1 ∧
    (xfer_iter K hw x w).2.reg.irq_mask = w.reg.irq_mask ∧
    (xfer_iter K hw x w).2.inbuf = w.inbuf ∧
    bus_trace (xfer_iter K hw x w).2.trace =
      bus_trace w.trace ++ [Event.wr Reg.dout (out_byte x.dout)] ∧
    (xfer_iter K hw x w).2.trace.count Event.timeout = w.trace.count Event.timeout + 1 := by
  rw [xfer_iter_timeout K hw x w ((not_answered_iff K hw _).1 ha)]
  refine ⟨rfl, rfl, rfl, rfl, rfl, rfl, rfl, rfl, ?_, ?_⟩
  · simp only [bus_trace_append, bus_trace_replicate_rd]
    simp [bus_trace, Event.is_bus]
  · simp [List.count_replicate]

/-- The `while` loop in terms of the iterated loop body: if the loop condition holds before each
of the first `m` iterations and fails after them, the loop returns the state after `m`
iterations (given fuel for them). -/
theorem xfer_while_eq_iters (K : Header) (hw : Hw) (m : Nat) :
    ∀ (fuel : Nat) (x : XferVars) (w : World), m ≤ fuel →
      (∀ j, j < m → (xfer_iters K hw j x w).1.bitlen > 4) →
      ¬ (xfer_iters K hw m x w).1.bitlen > 4 →
      xfer_while K hw fuel x w = some (xfer_iters K hw m x w) := by
  induction m with
  | zero =>
    intro fuel x w _ _ hend
    have hb : ¬ x.bitlen > 4 := hend
    cases fuel <;> simp [xfer_while, xfer_iters, hb]
  | succ m ih =>
    intro fuel x w hf hrun hend
    obtain ⟨fuel, rfl⟩ : ∃ f, fuel = f + 1 := ⟨fuel - 1, by omega⟩
    have hb : x.bitlen > 4 := hrun 0 (Nat.succ_pos m)
    simp only [xfer_while, hb, if_true, xfer_iters]
    apply ih fuel _ _ (by omega)
    · intro j hj
      exact hrun (j + 1) (by omega)
    · exact hend

/-- While the loop condition holds and transfers go unanswered, the loop never returns. -/
theorem xfer_while_silent_none (K : Header) (hw : Hw) (fuel : Nat) :
    ∀ (x : XferVars) (w : World), x.bitlen > 4 →
      (∀ t, w.nxfer < t → ¬ answered K hw t) →
      xfer_while K hw fuel x w = none := by
  induction fuel with
  | zero => intro x w hb _; simp [xfer_while, hb]
  | succ fuel ih =>
    intro x w hb hs
    obtain ⟨e1, e2, _⟩ := xfer_iter_timed_out K hw x w (hs _ (Nat.lt_succ_self _))
    simp only [xfer_while, hb, if_true]
    apply ih
    · rw [e1]; exact hb
    · intro t ht
      rw [e2] at ht
      exact hs t (by omega)

theorem xfer_while_iters_add (K : Header) (hw : Hw) (m : Nat) :
    ∀ (f : Nat) (x : XferVars) (w : World),
      (∀ j, j < m → (xfer_iters K hw j x w).1.bitlen > 4) →
      xfer_while K hw (m + f) x w =
        xfer_while K hw f (xfer_iters K hw m x w).1 (xfer_iters K hw m x w).2 := by
  induction m with
  | zero => intro f x w _; simp [xfer_iters]
  | succ m ih =>
    intro f x w hrun
    have hb : x.bitlen > 4 := hrun 0 (Nat.succ_pos m)
    rw [show m + 1 + f = (m + f) + 1 by omega]
    simp only [xfer_while, hb, if_true, xfer_iters]
    apply ih
    intro j hj
    exact hrun (j + 1) (by omega)

/-- What `d` loop iterations in a row do when none of their transfers is answered in time: the
loop variables are unchanged and the same byte has been written to `dout` `d` times. -/
theorem xfer_iters_timed_out (K : Header) (hw : Hw) (d : Nat) :
    ∀ (x : XferVars) (w : World), (∀ e, e < d → ¬ answered K hw (w.nxfer + 1 + e)) →
      (∀ j, j ≤ d → (xfer_iters K hw j x w).1 = x) ∧
      (xfer_iters K hw d x w).2.nxfer = w.nxfer + d ∧
      dout_writes (xfer_iters K hw d x w).2.trace =
        dout_writes w.trace ++ List.replicate d (out_byte x.dout) := by
  induction d with
  | zero =>
    intro x w _
    refine ⟨?_, rfl, by simp [xfer_iters]⟩
    intro j hj
    have : j = 0 := by omega
    subst this
    rfl
  | succ d ih =>
    intro x w hno
    obtain ⟨e1, e2, _, _, _, _, _, _, e9, _⟩ := xfer_iter_timed_out K hw x w (hno 0 (Nat.succ_pos d))
    have hno1 : ∀ e, e < d → ¬ answered K hw ((xfer_iter K hw x w).2.nxfer + 1 + e) := by
      intro e he
      rw [e2, show w.nxfer + 1 + 1 + e = w.nxfer + 1 + (e + 1) by omega]
      exact hno (e + 1) (by omega)
    obtain ⟨g1, g2, g3⟩ := ih (xfer_iter K hw x w).1 (xfer_iter K hw x w).2 hno1
    refine ⟨?_, ?_, ?_⟩
    · intro j hj
      cases j with
      | zero => rfl
      | succ j =>
        simp only [xfer_iters]
        rw [g1 j (by omega), e1]
    · simp only [xfer_iters]
      rw [g2, e2]; omega
    · simp only [xfer_iters]
      rw [g3, ← dout_writes_bus_trace (xfer_iter K hw x w).2.trace, e9, e1]
      simp [dout_writes_append, dout_writes_bus_trace, dout_writes, List.replicate_succ]

theorem dout_writes_answered (K : Header) (hw : Hw) (x : XferVars) (w : World)
    (hK : K.KWSPI_SMEMRDIRQ ≠ 0) (ha : answered K hw (w.nxfer + 1)) :
    dout_writes (xfer_iter K hw x w).2.trace = dout_writes w.trace ++ [out_byte x.dout] := by
  have e9 := (xfer_iter_answered K hw x w hK ha).2.2.2.2.2.2.2.2
  rw [← dout_writes_bus_trace (xfer_iter K hw x w).2.trace, e9]
  simp [dout_writes_append, dout_writes_bus_trace, dout_writes, dout_writes_store_events]

/-- If the hardware never falls silent for good, the `while` loop finishes: every byte is
written to `dout`, each one again after every timed-out attempt. -/
theorem xfer_while_eventually (K : Header) (hw : Hw) (hK : K.KWSPI_SMEMRDIRQ ≠ 0)
    (hev : ∀ t, ∃ u, t < u ∧ answered K hw u) (n : Nat) :
    ∀ (x : XferVars) (w : World) (r : Nat), x.bitlen = 8 * n + r → r ≤ 4 → 8 * n + r < 2 ^ 32 →
      ∃ fuel ms, ms.length = n ∧ fuel = n + ms.sum ∧
        xfer_while K hw fuel x w = some (xfer_iters K hw fuel x w) ∧
        (xfer_iters K hw fuel x w).2.nxfer = w.nxfer + fuel ∧
        dout_writes (xfer_iters K hw fuel x w).2.trace =
          dout_writes w.trace ++ retry_writes x.dout ms := by
  classical
  induction n with
  | zero =>
    intro x w r hx hr _
    have hb : ¬ x.bitlen > 4 := by omega
    exact ⟨0, [], rfl, rfl, by simp [xfer_while, xfer_iters, hb], rfl,
      by simp [xfer_iters, retry_writes]⟩
  | succ n ih =>
    intro x w r hx hr hlt
    have hex : ∃ d, answered K hw (w.nxfer + 1 + d) := by
      obtain ⟨u, hu, ha⟩ := hev w.nxfer
      exact ⟨u - (w.nxfer + 1), by rw [show w.nxfer + 1 + (u - (w.nxfer + 1)) = u by omega]; exact ha⟩
    have hd := Nat.find_spec hex
    have hmin : ∀ e, e < Nat.find hex → ¬ answered K hw (w.nxfer + 1 + e) :=
      fun e he => Nat.find_min hex he
    generalize Nat.find hex = d at hd hmin
    obtain ⟨t1, t2, t3⟩ := xfer_iters_timed_out K hw d x w hmin
    have hb : x.bitlen > 4 := by omega
    have hrun : ∀ j, j < d → (xfer_iters K hw j x w).1.bitlen > 4 := by
      intro j hj
      rw [t1 j (by omega)]; exact hb
    have hxd : (xfer_iters K hw d x w).1 = x := t1 d (le_refl d)
    have ha : answered K hw ((xfer_iters K hw d x w).2.nxfer + 1) := by
      rw [t2, show w.nxfer + d + 1 = w.nxfer + 1 + d by omega]; exact hd
    obtain ⟨e1, e2, _⟩ := xfer_iter_answered K hw x (xfer_iters K hw d x w).2 hK ha
    have e9 := dout_writes_answered K hw x (xfer_iters K hw d x w).2 hK ha
    have hx1 : (xfer_iter K hw x (xfer_iters K hw d x w).2).1.bitlen = 8 * n + r := by
      rw [e1]
      show (x.bitlen + 2 ^ 32 - 8) % 2 ^ 32 = 8 * n + r
      omega
    obtain ⟨fuel, ms, h1, h2, h3, h4, h5⟩ :=
      ih (xfer_iter K hw x (xfer_iters K hw d x w).2).1
        (xfer_iter K hw x (xfer_iters K hw d x w).2).2 r hx1 hr (by omega)
    have hit : xfer_iters K hw (d + (fuel + 1)) x w =
        xfer_iters K hw fuel (xfer_iter K hw x (xfer_iters K hw d x w).2).1
          (xfer_iter K hw x (xfer_iters K hw d x w).2).2 := by
      rw [xfer_iters_add, hxd]
      simp only [xfer_iters]
    refine ⟨d + (fuel + 1), d :: ms, by simp [h1], by simp [h2]; omega, ?_, ?_, ?_⟩
    · rw [xfer_while_iters_add K hw d (fuel + 1) x w hrun, hxd, hit]
      simp only [xfer_while, hb, if_true]
      exact h3
    · rw [hit, h4, e2, t2]; omega
    · rw [hit, h5, e9, t3, e1]
      simp only [retry_writes, out_byte_eq, List.replicate_succ', List.append_assoc]

/-! ## Transfer engine: time-outs -/

theorem dout_writes_begin (K : Header) (hw : Hw) (flags : Nat) (w : World) :
    dout_writes (if flags &&& K.SPI_XFER_BEGIN ≠ 0 then _spi_cs_activate K hw w else w).trace =
      dout_writes w.trace := by
  split
  · simp [cs_activate_eq, dout_writes_append, dout_writes]
  · rfl

theorem dout_writes_end (K : Header) (hw : Hw) (flags : Nat) (w : World) :
    dout_writes (if flags &&& K.SPI_XFER_END ≠ 0 then _spi_cs_deactivate K hw w else w).trace =
      dout_writes w.trace := by
  split
  · simp [cs_deactivate_eq, dout_writes_append, dout_writes]
  · rfl

theorem nxfer_begin (K : Header) (hw : Hw) (flags : Nat) (w : World) :
    (if flags &&& K.SPI_XFER_BEGIN ≠ 0 then _spi_cs_activate K hw w else w).nxfer = w.nxfer := by
  split <;> simp [cs_activate_eq]

theorem nxfer_end (K : Header) (hw : Hw) (flags : Nat) (w : World) :
    (if flags &&& K.SPI_XFER_END ≠ 0 then _spi_cs_deactivate K hw w else w).nxfer = w.nxfer := by
  split <;> simp [cs_deactivate_eq]

/-- C6 (amended): a timed-out attempt does not abort the transfer and leaves the remaining bit
count and both cursors unchanged, so the next attempt writes the same byte to `dout` again; and
if the hardware never falls silent for good (after every transfer there is a later one that is
answered within the poll budget), a request of `n` bytes runs to completion and returns 0, having
written every byte of the message to `dout`, byte `i` once more than the number `ms[i]` of its
timed-out attempts. -/
theorem spi_xfer_timeouts (K : Header) (hw : Hw) (n : Nat) (dout : Option (List Nat))
    (din : Option Nat) (flags : Nat) (w : World) (hK : K.KWSPI_SMEMRDIRQ ≠ 0)
    (hn : 8 * n < 2 ^ 32) (hev : ∀ t, ∃ u, t < u ∧ answered K hw u) :
    (∀ (x : XferVars) (v : World), ¬ answered K hw (v.nxfer + 1) →
      (xfer_iter K hw x v).1 = x ∧
      bus_trace (xfer_iter K hw x v).2.trace =
        bus_trace v.trace ++ [Event.wr Reg.dout (out_byte x.dout)] ∧
      (xfer_iter K hw x v).2.trace.count Event.timeout = v.trace.count Event.timeout + 1) ∧
    ∃ fuel ms w1,
      _spi_xfer K hw fuel (8 * n) dout din flags w = some (0, w1) ∧
      ms.length = n ∧ fuel = n + ms.sum ∧ w1.nxfer = w.nxfer + n + ms.sum ∧
      dout_writes w1.trace = dout_writes w.trace ++ retry_writes dout ms := by
  constructor
  · intro x v ha
    obtain ⟨e1, _, _, _, _, _, _, _, e9, e10⟩ := xfer_iter_timed_out K hw x v ha
    exact ⟨e1, e9, e10⟩
  · simp only [spi_xfer_unfold]
    have hW : (clrsetbits_le32 K hw Reg.cfg K.KWSPI_XFERLEN_MASK K.KWSPI_XFERLEN_1BYTE
        (if flags &&& K.SPI_XFER_BEGIN ≠ 0 then _spi_cs_activate K hw w else w)).nxfer = w.nxfer ∧
      dout_writes (clrsetbits_le32 K hw Reg.cfg K.KWSPI_XFERLEN_MASK K.KWSPI_XFERLEN_1BYTE
        (if flags &&& K.SPI_XFER_BEGIN ≠ 0 then _spi_cs_activate K hw w else w)).trace
        = dout_writes w.trace := by
      rw [clrsetbits_cfg_eq]
      constructor
      · exact nxfer_begin K hw flags w
      · show dout_writes (_ ++ _) = _
        rw [dout_writes_append, dout_writes_begin]
        simp [dout_writes]
    generalize hW2 : (clrsetbits_le32 K hw Reg.cfg K.KWSPI_XFERLEN_MASK K.KWSPI_XFERLEN_1BYTE
        (if flags &&& K.SPI_XFER_BEGIN ≠ 0 then _spi_cs_activate K hw w else w)) = W2 at hW
    obtain ⟨fuel, ms, h1, h2, h3, h4, h5⟩ :=
      xfer_while_eventually K hw hK hev n { bitlen := 8 * n, dout := dout, din := din } W2
        0 rfl (by omega) (by omega)
    refine ⟨fuel, ms,
      (if flags &&& K.SPI_XFER_END ≠ 0 then
        _spi_cs_deactivate K hw
          (xfer_iters K hw fuel { bitlen := 8 * n, dout := dout, din := din } W2).2
       else (xfer_iters K hw fuel { bitlen := 8 * n, dout := dout, din := din } W2).2),
      ?_, h1, h2, ?_, ?_⟩
    · rw [h3]; rfl
    · rw [nxfer_end, h4, hW.1, h2]; omega
    · rw [dout_writes_end, h5, hW.2]

theorem hw_late_eventually (t : Nat) : ∃ u, t < u ∧ answered (upstream 250000000) hw_late u :=
  ⟨t + 2, by omega, 0, by decide, by simp [hw_late]⟩

theorem hw_late_first : ¬ answered (upstream 250000000) hw_late 1 := by
  rintro ⟨k, _, hk⟩
  simp [hw_late] at hk

theorem hw_silent_never (K : Header) (t : Nat) : ¬ answered K hw_silent t := by
  rintro ⟨k, _, hk⟩
  simp [hw_silent] at hk

/-- Instance of the C6 theorem: upstream constants, the two-byte message `0xA5 0x3C`, hardware
whose first transfer goes unanswered. -/
theorem spi_xfer_timeouts_witness :
    (upstream 250000000).KWSPI_SMEMRDIRQ ≠ 0 ∧ 8 * 2 < 2 ^ 32 ∧
    (∀ t, ∃ u, t < u ∧ answered (upstream 250000000) hw_late u) ∧
    (∀ (x : XferVars) (v : World), ¬ answered (upstream 250000000) hw_late (v.nxfer + 1) →
      (xfer_iter (upstream 250000000) hw_late x v).1 = x ∧
      bus_trace (xfer_iter (upstream 250000000) hw_late x v).2.trace =
        bus_trace v.trace ++ [Event.wr Reg.dout (out_byte x.dout)] ∧
      (xfer_iter (upstream 250000000) hw_late x v).2.trace.count Event.timeout =
        v.trace.count Event.timeout + 1) ∧
    ∃ fuel ms w1,
      _spi_xfer (upstream 250000000) hw_late fuel (8 * 2) (some [0xA5, 0x3C]) (some 0) 3
          (world_of (regs_of 2 0x212 0x40) false 2) = some (0, w1) ∧
      ms.length = 2 ∧ fuel = 2 + ms.sum ∧
      w1.nxfer = (world_of (regs_of 2 0x212 0x40) false 2).nxfer + 2 + ms.sum ∧
      dout_writes w1.trace =
        dout_writes (world_of (regs_of 2 0x212 0x40) false 2).trace ++
          retry_writes (some [0xA5, 0x3C]) ms :=
  ⟨by decide, by decide, hw_late_eventually,
    spi_xfer_timeouts (upstream 250000000) hw_late 2 (some [0xA5, 0x3C]) (some 0) 3
      (world_of (regs_of 2 0x212 0x40) false 2) (by decide) (by decide) hw_late_eventually⟩

/-- C6 fails as stated: on hardware that never raises read-ready, a one-byte request
(`bitlen = 8`) never returns, however many loop iterations it is given; and in a two-byte request
the attempt after a time-out writes byte 0 again instead of going on to byte 1. -/
theorem spi_xfer_timeouts_counterexample :
    (¬ ∃ fuel, (_spi_xfer (upstream 250000000) hw_silent fuel 8 (some [0xA5]) (some 0) 3
        (world_of (regs_of 2 0x212 0x40) false 1)).isSome = true) ∧
    dout_writes (xfer_iters (upstream 250000000) hw_silent 2
        { bitlen := 16, dout := some [0xA5, 0x3C], din := some 0 }
        (world_of (regs_of 2 0x212 0x40) false 2)).2.trace = [0xA5, 0xA5] := by
  constructor
  · rintro ⟨fuel, h⟩
    rw [spi_xfer_unfold, xfer_while_silent_none (upstream 250000000) hw_silent fuel _ _
      (by decide) (fun t _ => hw_silent_never _ t)] at h
    exact absurd h (by decide)
  · have h := (xfer_iters_timed_out (upstream 250000000) hw_silent 2
      { bitlen := 16, dout := some [0xA5, 0x3C], din := some 0 }
      (world_of (regs_of 2 0x212 0x40) false 2) (fun e _ => hw_silent_never _ _)).2.2
    rw [h]
    decide

/-! ## Transfer engine: short requests, the end flag, partial bytes -/

theorem xfer_while_short (K : Header) (hw : Hw) (fuel : Nat) (x : XferVars) (w : World)
    (hb : x.bitlen ≤ 4) : xfer_while K hw fuel x w = some (x, w) := by
  have h : ¬ x.bitlen > 4 := by omega
  cases fuel <;> simp [xfer_while, h]

theorem ctrl_end (K : Header) (hw : Hw) (flags : Nat) (w : World)
    (hE : flags &&& K.SPI_XFER_END ≠ 0) :
    (if flags &&& K.SPI_XFER_END ≠ 0 then _spi_cs_deactivate K hw w else w).reg.ctrl
      &&& K.KWSPI_CSN_ACT = 0 := by
  rw [if_pos hE, cs_deactivate_eq]
  exact and_not32_and_self _ _

theorem ctrl_begin_only (K : Header) (hw : Hw) (flags : Nat) (x : XferVars) (w : World)
    (hB : flags &&& K.SPI_XFER_BEGIN ≠ 0) (hE : ¬ flags &&& K.SPI_XFER_END ≠ 0) :
    (if flags &&& K.SPI_XFER_END ≠ 0 then
        _spi_cs_deactivate K hw
          (x, clrsetbits_le32 K hw Reg.cfg K.KWSPI_XFERLEN_MASK K.KWSPI_XFERLEN_1BYTE
            (if flags &&& K.SPI_XFER_BEGIN ≠ 0 then _spi_cs_activate K hw w else w)).2
      else
        (x, clrsetbits_le32 K hw Reg.cfg K.KWSPI_XFERLEN_MASK K.KWSPI_XFERLEN_1BYTE
          (if flags &&& K.SPI_XFER_BEGIN ≠ 0 then _spi_cs_activate K hw w else w)).2).reg.ctrl
      &&& K.KWSPI_CSN_ACT = K.KWSPI_CSN_ACT := by
  rw [if_neg hE, if_pos hB, clrsetbits_cfg_eq, cs_activate_eq]
  exact or_and_self _ _

/-- C7: for every `bitlen ≤ 4`, every flags value and any amount of fuel, `_spi_xfer` returns 0
without a byte exchange: its register accesses are exactly the chip-select assertion (if
`SPI_XFER_BEGIN`), the read-modify-write of `cfg`, and the chip-select deassertion (if
`SPI_XFER_END`); no transfer is started, `dout`, `din`, `irq_cause` and the input buffer are
unchanged; `KWSPI_CSN_ACT` ends up clear if `SPI_XFER_END` is given and set if only
`SPI_XFER_BEGIN` is given. -/
theorem spi_xfer_short (K : Header) (hw : Hw) (fuel bitlen : Nat) (dout : Option (List Nat))
    (din : Option Nat) (flags : Nat) (w : World) (hb : bitlen ≤ 4) :
    ∃ w1, _spi_xfer K hw fuel bitlen dout din flags w = some (0, w1) ∧
      w1.trace =
        w.trace ++
          (if flags &&& K.SPI_XFER_BEGIN ≠ 0 then
            [Event.rd Reg.ctrl w.reg.ctrl,
             Event.wr Reg.ctrl (w.reg.ctrl ||| K.KWSPI_CSN_ACT)] else []) ++
          [Event.rd Reg.cfg w.reg.cfg,
           Event.wr Reg.cfg
             ((w.reg.cfg &&& not32 K.KWSPI_XFERLEN_MASK) ||| K.KWSPI_XFERLEN_1BYTE)] ++
          (if flags &&& K.SPI_XFER_END ≠ 0 then
            [Event.rd Reg.ctrl
               (if flags &&& K.SPI_XFER_BEGIN ≠ 0 then w.reg.ctrl ||| K.KWSPI_CSN_ACT
                else w.reg.ctrl),
             Event.wr Reg.ctrl
               ((if flags &&& K.SPI_XFER_BEGIN ≠ 0 then w.reg.ctrl ||| K.KWSPI_CSN_ACT
                 else w.reg.ctrl) &&& not32 K.KWSPI_CSN_ACT)] else []) ∧
      w1.nxfer = w.nxfer ∧ w1.inbuf = w.inbuf ∧ w1.reg.dout = w.reg.dout ∧
      w1.reg.din = w.reg.din ∧ w1.reg.irq_cause = w.reg.irq_cause ∧
      (flags &&& K.SPI_XFER_END ≠ 0 → w1.reg.ctrl &&& K.KWSPI_CSN_ACT = 0) ∧
      (flags &&& K.SPI_XFER_BEGIN ≠ 0 → ¬ flags &&& K.SPI_XFER_END ≠ 0 →
        w1.reg.ctrl &&& K.KWSPI_CSN_ACT = K.KWSPI_CSN_ACT) := by
  rw [spi_xfer_unfold, xfer_while_short K hw fuel _ _ hb]
  refine ⟨_, rfl, ?_, ?_, ?_, ?_, ?_, ?_, ?_, ?_⟩
  · by_cases hB : flags &&& K.SPI_XFER_BEGIN ≠ 0 <;>
      by_cases hE : flags &&& K.SPI_XFER_END ≠ 0 <;>
      simp [hB, hE, cs_activate_eq, cs_deactivate_eq, clrsetbits_cfg_eq]
  · by_cases hB : flags &&& K.SPI_XFER_BEGIN ≠ 0 <;>
      by_cases hE : flags &&& K.SPI_XFER_END ≠ 0 <;>
      simp [hB, hE, cs_activate_eq, cs_deactivate_eq, clrsetbits_cfg_eq]
  · by_cases hB : flags &&& K.SPI_XFER_BEGIN ≠ 0 <;>
      by_cases hE : flags &&& K.SPI_XFER_END ≠ 0 <;>
      simp [hB, hE, cs_activate_eq, cs_deactivate_eq, clrsetbits_cfg_eq]
  · by_cases hB : flags &&& K.SPI_XFER_BEGIN ≠ 0 <;>
      by_cases hE : flags &&& K.SPI_XFER_END ≠ 0 <;>
      simp [hB, hE, cs_activate_eq, cs_deactivate_eq, clrsetbits_cfg_eq]
  · by_cases hB : flags &&& K.SPI_XFER_BEGIN ≠ 0 <;>
      by_cases hE : flags &&& K.SPI_XFER_END ≠ 0 <;>
      simp [hB, hE, cs_activate_eq, cs_deactivate_eq, clrsetbits_cfg_eq]
  · by_cases hB : flags &&& K.SPI_XFER_BEGIN ≠ 0 <;>
      by_cases hE : flags &&& K.SPI_XFER_END ≠ 0 <;>
      simp [hB, hE, cs_activate_eq, cs_deactivate_eq, clrsetbits_cfg_eq]
  · intro hE
    exact ctrl_end K hw flags _ hE
  · intro hB hE
    exact ctrl_begin_only K hw flags _ w hB hE

/-- C9: for every request with `SPI_XFER_END`, every hardware behaviour, every bit length and
any amount of fuel: whenever `_spi_xfer` returns, the return value is 0 and `KWSPI_CSN_ACT` is
clear in `ctrl`. -/
theorem spi_xfer_end (K : Header) (hw : Hw) (fuel bitlen : Nat) (dout : Option (List Nat))
    (din : Option Nat) (flags : Nat) (w : World) (r : Int) (w1 : World)
    (hE : flags &&& K.SPI_XFER_END ≠ 0)
    (h : _spi_xfer K hw fuel bitlen dout din flags w = some (r, w1)) :
    r = 0 ∧ w1.reg.ctrl &&& K.KWSPI_CSN_ACT = 0 := by
  rw [spi_xfer_unfold] at h
  cases hx : xfer_while K hw fuel { bitlen := bitlen, dout := dout, din := din }
      (clrsetbits_le32 K hw Reg.cfg K.KWSPI_XFERLEN_MASK K.KWSPI_XFERLEN_1BYTE
        (if flags &&& K.SPI_XFER_BEGIN ≠ 0 then _spi_cs_activate K hw w else w)) with
  | none => rw [hx] at h; exact absurd h (by simp)
  | some R =>
    rw [hx] at h
    simp only [Option.map_some', Option.some.injEq, Prod.mk.injEq] at h
    obtain ⟨h1, h2⟩ := h
    refine ⟨h1.symm, ?_⟩
    rw [← h2]
    exact ctrl_end K hw flags _ hE


/-- Instance of the C7 theorem: upstream constants, `bitlen = 3`, flags `BEGIN | END`. -/
theorem spi_xfer_short_witness :
    3 ≤ 4 ∧
    ∃ w1, _spi_xfer (upstream 250000000) hw_prompt 0 3 (some [0xA5]) (some 0) 3
          (world_of (regs_of 2 0x212 0x40) false 1) = some (0, w1) ∧
      w1.trace =
        (world_of (regs_of 2 0x212 0x40) false 1).trace ++
          (if 3 &&& (upstream 250000000).SPI_XFER_BEGIN ≠ 0 then
            [Event.rd Reg.ctrl (world_of (regs_of 2 0x212 0x40) false 1).reg.ctrl,
             Event.wr Reg.ctrl ((world_of (regs_of 2 0x212 0x40) false 1).reg.ctrl |||
               (upstream 250000000).KWSPI_CSN_ACT)] else []) ++
          [Event.rd Reg.cfg (world_of (regs_of 2 0x212 0x40) false 1).reg.cfg,
           Event.wr Reg.cfg
             (((world_of (regs_of 2 0x212 0x40) false 1).reg.cfg &&&
                 not32 (upstream 250000000).KWSPI_XFERLEN_MASK) |||
               (upstream 250000000).KWSPI_XFERLEN_1BYTE)] ++
          (if 3 &&& (upstream 250000000).SPI_XFER_END ≠ 0 then
            [Event.rd Reg.ctrl
               (if 3 &&& (upstream 250000000).SPI_XFER_BEGIN ≠ 0 then
                  (world_of (regs_of 2 0x212 0x40) false 1).reg.ctrl |||
                    (upstream 250000000).KWSPI_CSN_ACT
                else (world_of (regs_of 2 0x212 0x40) false 1).reg.ctrl),
             Event.wr Reg.ctrl
               ((if 3 &&& (upstream 250000000).SPI_XFER_BEGIN ≠ 0 then
                   (world_of (regs_of 2 0x212 0x40) false 1).reg.ctrl |||
                     (upstream 250000000).KWSPI_CSN_ACT
                 else (world_of (regs_of 2 0x212 0x40) false 1).reg.ctrl) &&&
                 not32 (upstream 250000000).KWSPI_CSN_ACT)] else []) ∧
      w1.nxfer = (world_of (regs_of 2 0x212 0x40) false 1).nxfer ∧
      w1.inbuf = (world_of (regs_of 2 0x212 0x40) false 1).inbuf ∧
      w1.reg.dout = (world_of (regs_of 2 0x212 0x40) false 1).reg.dout ∧
      w1.reg.din = (world_of (regs_of 2 0x212 0x40) false 1).reg.din ∧
      w1.reg.irq_cause = (world_of (regs_of 2 0x212 0x40) false 1).reg.irq_cause ∧
      (3 &&& (upstream 250000000).SPI_XFER_END ≠ 0 →
        w1.reg.ctrl &&& (upstream 250000000).KWSPI_CSN_ACT = 0) ∧
      (3 &&& (upstream 250000000).SPI_XFER_BEGIN ≠ 0 →
        ¬ 3 &&& (upstream 250000000).SPI_XFER_END ≠ 0 →
        w1.reg.ctrl &&& (upstream 250000000).KWSPI_CSN_ACT =
          (upstream 250000000).KWSPI_CSN_ACT) :=
  ⟨by decide,
    spi_xfer_short (upstream 250000000) hw_prompt 0 3 (some [0xA5]) (some 0) 3
      (world_of (regs_of 2 0x212 0x40) false 1) (by decide)⟩

/-- The request `bitlen = 3`, flags `BEGIN | END`, evaluated: chip-select is switched on and off
and nothing else shows on the bus. -/
theorem spi_xfer_three_bits_run :
    (_spi_xfer (upstream 250000000) hw_prompt 0 3 (some [0xA5]) (some 0) 3
        (world_of (regs_of 2 0x212 0x40) false 1)).map
        (fun r => (r.1, r.2.trace, r.2.inbuf, r.2.nxfer))
      = some (0, [Event.rd Reg.ctrl 2, Event.wr Reg.ctrl 3, Event.rd Reg.cfg 0x212,
                  Event.wr Reg.cfg 0x212, Event.rd Reg.ctrl 3, Event.wr Reg.ctrl 2], [0], 0) := by
  decide

/-- The one-byte request on `hw_late` returns after two loop iterations, in the world
`late_run`. -/
theorem spi_xfer_late_run :
    _spi_xfer (upstream 250000000) hw_late 2 8 (some [0xA5]) (some 0) 3
      (world_of (regs_of 2 0x212 0x40) false 1) = some (0, late_run) := by
  rw [spi_xfer_unfold]
  have hB : (3 : Nat) &&& (upstream 250000000).SPI_XFER_BEGIN ≠ 0 := by decide
  have hE : (3 : Nat) &&& (upstream 250000000).SPI_XFER_END ≠ 0 := by decide
  rw [if_pos hB]
  generalize hW2 : clrsetbits_le32 (upstream 250000000) hw_late Reg.cfg
      (upstream 250000000).KWSPI_XFERLEN_MASK (upstream 250000000).KWSPI_XFERLEN_1BYTE
      (_spi_cs_activate (upstream 250000000) hw_late
        (world_of (regs_of 2 0x212 0x40) false 1)) = W2
  have hn : W2.nxfer = 0 := by rw [← hW2]; rfl
  have hno : ∀ e, e < 1 → ¬ answered (upstream 250000000) hw_late (W2.nxfer + 1 + e) := by
    intro e he
    have : e = 0 := by omega
    subst this
    rw [hn]; exact hw_late_first
  obtain ⟨t1, t2, _⟩ := xfer_iters_timed_out (upstream 250000000) hw_late 1
    { bitlen := 8, dout := some [0xA5], din := some 0 } W2 hno
  have ha : answered (upstream 250000000) hw_late
      ((xfer_iters (upstream 250000000) hw_late 1
        { bitlen := 8, dout := some [0xA5], din := some 0 } W2).2.nxfer + 1) := by
    rw [t2, hn]; exact ⟨0, by decide, by simp [hw_late]⟩
  have e1 := (xfer_iter_answered (upstream 250000000) hw_late
    { bitlen := 8, dout := some [0xA5], din := some 0 }
    (xfer_iters (upstream 250000000) hw_late 1
        { bitlen := 8, dout := some [0xA5], din := some 0 } W2).2 (by decide) ha).1
  have h2 : xfer_iters (upstream 250000000) hw_late 2
      { bitlen := 8, dout := some [0xA5], din := some 0 } W2 =
      xfer_iter (upstream 250000000) hw_late { bitlen := 8, dout := some [0xA5], din := some 0 }
        (xfer_iters (upstream 250000000) hw_late 1
          { bitlen := 8, dout := some [0xA5], din := some 0 } W2).2 := by
    rw [show (2 : Nat) = 1 + 1 from rfl, xfer_iters_add, t1 1 (le_refl 1)]
    rfl
  rw [xfer_while_eq_iters (upstream 250000000) hw_late 2 2 _ W2 (le_refl 2)]
  · simp only [Option.map_some', if_pos hE, late_run, hW2]
  · intro j hj
    rw [t1 j (by omega)]
    decide
  · rw [h2, e1]
    decide

/-- Instance of the C9 theorem: upstream constants, a one-byte request with flags `BEGIN | END`
whose first attempt times out and whose second attempt is answered. -/
theorem spi_xfer_end_witness :
    3 &&& (upstream 250000000).SPI_XFER_END ≠ 0 ∧
    _spi_xfer (upstream 250000000) hw_late 2 8 (some [0xA5]) (some 0) 3
      (world_of (regs_of 2 0x212 0x40) false 1) = some (0, late_run) ∧
    ((0 : Int) = 0 ∧ late_run.reg.ctrl &&& (upstream 250000000).KWSPI_CSN_ACT = 0) :=
  ⟨by decide, spi_xfer_late_run,
    spi_xfer_end (upstream 250000000) hw_late 2 8 (some [0xA5]) (some 0) 3
      (world_of (regs_of 2 0x212 0x40) false 1) 0 late_run (by decide) spi_xfer_late_run⟩

/-- C8 (amended): for every 32-bit `bitlen` whose remainder modulo 8 is at most 4, `_spi_xfer`
on hardware that answers every transfer in time returns 0 after exactly `bitlen / 8` byte
exchanges: `bitlen / 8` transfers are started, the bytes written to `dout` are bytes
`0 .. bitlen / 8 - 1` of the message, and a trailing remainder of 1 to 4 bits causes no further
exchange. -/
theorem spi_xfer_whole_bytes (K : Header) (hw : Hw) (fuel bitlen : Nat)
    (dout : Option (List Nat)) (din : Option Nat) (flags : Nat) (w : World)
    (hK : K.KWSPI_SMEMRDIRQ ≠ 0) (hlt : bitlen < 2 ^ 32) (hrem : bitlen % 8 ≤ 4)
    (hf : bitlen / 8 ≤ fuel) (ht : in_time K hw w.nxfer (bitlen / 8)) :
    ∃ w1, _spi_xfer K hw fuel bitlen dout din flags w = some (0, w1) ∧
      w1.nxfer = w.nxfer + bitlen / 8 ∧
      dout_writes w1.trace = dout_writes w.trace ++ (List.range (bitlen / 8)).map (byte_at dout) ∧
      bus_trace w1.trace =
        bus_trace w.trace ++
          (if flags &&& K.SPI_XFER_BEGIN ≠ 0 then
            [Event.wr Reg.ctrl (w.reg.ctrl ||| K.KWSPI_CSN_ACT)] else []) ++
          exchange_events hw w.nxfer dout din (bitlen / 8) ++
          (if flags &&& K.SPI_XFER_END ≠ 0 then
            [Event.wr Reg.ctrl
              ((if flags &&& K.SPI_XFER_BEGIN ≠ 0 then w.reg.ctrl ||| K.KWSPI_CSN_ACT
                else w.reg.ctrl) &&& not32 K.KWSPI_CSN_ACT)] else []) := by
  have hdm : 8 * (bitlen / 8) + bitlen % 8 = bitlen := Nat.div_add_mod bitlen 8
  obtain ⟨w1, h1, h2, _, _, _, _, _, h8, _⟩ :=
    spi_xfer_answered K hw hK fuel (bitlen / 8) (bitlen % 8) dout din flags w hrem
      (by rw [hdm]; exact hlt) hf ht
  rw [hdm] at h1
  refine ⟨w1, h1, h2, ?_, h8⟩
  rw [← dout_writes_bus_trace w1.trace, h8]
  simp only [dout_writes_append, dout_writes_bus_trace, dout_writes_exchange_events]
  split <;> split <;> simp [dout_writes]

/-- Instance of the C8 theorem: upstream constants, `bitlen = 20` (two bytes and four bits). -/
theorem spi_xfer_whole_bytes_witness :
    (upstream 250000000).KWSPI_SMEMRDIRQ ≠ 0 ∧ 20 < 2 ^ 32 ∧ 20 % 8 ≤ 4 ∧ 20 / 8 ≤ 2 ∧
    in_time (upstream 250000000) hw_prompt (world_of (regs_of 2 0x212 0x40) false 2).nxfer
      (20 / 8) ∧
    ∃ w1, _spi_xfer (upstream 250000000) hw_prompt 2 20 (some [0xA5, 0x3C, 0x7E]) (some 0) 3
          (world_of (regs_of 2 0x212 0x40) false 2) = some (0, w1) ∧
      w1.nxfer = (world_of (regs_of 2 0x212 0x40) false 2).nxfer + 20 / 8 ∧
      dout_writes w1.trace =
        dout_writes (world_of (regs_of 2 0x212 0x40) false 2).trace ++
          (List.range (20 / 8)).map (byte_at (some [0xA5, 0x3C, 0x7E])) ∧
      bus_trace w1.trace =
        bus_trace (world_of (regs_of 2 0x212 0x40) false 2).trace ++
          (if 3 &&& (upstream 250000000).SPI_XFER_BEGIN ≠ 0 then
            [Event.wr Reg.ctrl ((world_of (regs_of 2 0x212 0x40) false 2).reg.ctrl |||
              (upstream 250000000).KWSPI_CSN_ACT)] else []) ++
          exchange_events hw_prompt (world_of (regs_of 2 0x212 0x40) false 2).nxfer
            (some [0xA5, 0x3C, 0x7E]) (some 0) (20 / 8) ++
          (if 3 &&& (upstream 250000000).SPI_XFER_END ≠ 0 then
            [Event.wr Reg.ctrl
              ((if 3 &&& (upstream 250000000).SPI_XFER_BEGIN ≠ 0 then
                  (world_of (regs_of 2 0x212 0x40) false 2).reg.ctrl |||
                    (upstream 250000000).KWSPI_CSN_ACT
                else (world_of (regs_of 2 0x212 0x40) false 2).reg.ctrl) &&&
                not32 (upstream 250000000).KWSPI_CSN_ACT)] else []) :=
  ⟨by decide, by decide, by decide, by decide, hw_prompt_in_time _ _,
    spi_xfer_whole_bytes (upstream 250000000) hw_prompt 2 20 (some [0xA5, 0x3C, 0x7E]) (some 0)
      3 (world_of (regs_of 2 0x212 0x40) false 2) (by decide) (by decide) (by decide)
      (by decide) (hw_prompt_in_time _ _)⟩

/-- C8 fails as stated: with `bitlen = 5` (so `bitlen / 8 = 0`) on hardware that answers on the
first poll, the first loop iteration exchanges a byte (`0xA5` is written to `dout`) and leaves
the remaining bit count at `5 - 8` modulo `2 ^ 32`, and the call never returns. -/
theorem spi_xfer_whole_bytes_counterexample :
    5 / 8 = 0 ∧
    dout_writes (xfer_iter (upstream 250000000) hw_prompt
        { bitlen := 5, dout := some [0xA5], din := some 0 }
        (clrsetbits_le32 (upstream 250000000) hw_prompt Reg.cfg
          (upstream 250000000).KWSPI_XFERLEN_MASK (upstream 250000000).KWSPI_XFERLEN_1BYTE
          (_spi_cs_activate (upstream 250000000) hw_prompt
            (world_of (regs_of 2 0x212 0x40) false 1)))).2.trace = [0xA5] ∧
    (xfer_iter (upstream 250000000) hw_prompt
        { bitlen := 5, dout := some [0xA5], din := some 0 }
        (clrsetbits_le32 (upstream 250000000) hw_prompt Reg.cfg
          (upstream 250000000).KWSPI_XFERLEN_MASK (upstream 250000000).KWSPI_XFERLEN_1BYTE
          (_spi_cs_activate (upstream 250000000) hw_prompt
            (world_of (regs_of 2 0x212 0x40) false 1)))).1.bitlen = 4294967293 ∧
    ¬ ∃ fuel, (_spi_xfer (upstream 250000000) hw_prompt fuel 5 (some [0xA5]) (some 0) 3
        (world_of (regs_of 2 0x212 0x40) false 1)).isSome = true := by
  refine ⟨by decide, by decide, by decide, ?_⟩
  rintro ⟨fuel, h⟩
  rw [spi_xfer_unfold, xfer_while_remainder_none (upstream 250000000) hw_prompt fuel _ _
    (by decide) (by decide)] at h
  exact absurd h (by decide)

/-- Instance of the C5 theorem: upstream constants, the three-byte message `0xA5 0x3C 0x7E` sent
as three one-byte requests with flags `BEGIN`, none, `END`, against one request of 24 bits with
`BEGIN | END`. -/
theorem spi_xfer_split_witness :
    (upstream 250000000).KWSPI_SMEMRDIRQ ≠ 0 ∧ (upstream 250000000).flags_ok ∧
    [1, 1, 1] ≠ ([] : List Nat) ∧ 8 * [1, 1, 1].sum < 2 ^ 32 ∧
    in_time (upstream 250000000) hw_prompt (world_of (regs_of 2 0x212 0x40) false 3).nxfer
      [1, 1, 1].sum ∧
    ∃ w1 w2,
      _spi_xfer (upstream 250000000) hw_prompt [1, 1, 1].sum (8 * [1, 1, 1].sum)
          (some [0xA5, 0x3C, 0x7E]) (some 0)
          ((upstream 250000000).SPI_XFER_BEGIN ||| (upstream 250000000).SPI_XFER_END)
          (world_of (regs_of 2 0x212 0x40) false 3) = some (0, w1) ∧
      xfer_split (upstream 250000000) hw_prompt true [1, 1, 1] (some [0xA5, 0x3C, 0x7E])
          (some 0) (world_of (regs_of 2 0x212 0x40) false 3) = some w2 ∧
      same_bus w1 w2 ∧
      dout_writes w2.trace =
        dout_writes (world_of (regs_of 2 0x212 0x40) false 3).trace ++
          (List.range [1, 1, 1].sum).map (byte_at (some [0xA5, 0x3C, 0x7E])) ∧
      bus_trace w2.trace =
        bus_trace (world_of (regs_of 2 0x212 0x40) false 3).trace ++
          Event.wr Reg.ctrl ((world_of (regs_of 2 0x212 0x40) false 3).reg.ctrl |||
              (upstream 250000000).KWSPI_CSN_ACT) ::
            exchange_events hw_prompt (world_of (regs_of 2 0x212 0x40) false 3).nxfer
              (some [0xA5, 0x3C, 0x7E]) (some 0) [1, 1, 1].sum ++
          [Event.wr Reg.ctrl (((world_of (regs_of 2 0x212 0x40) false 3).reg.ctrl |||
              (upstream 250000000).KWSPI_CSN_ACT) &&&
                not32 (upstream 250000000).KWSPI_CSN_ACT)] ∧
      ((world_of (regs_of 2 0x212 0x40) false 3).reg.ctrl |||
          (upstream 250000000).KWSPI_CSN_ACT) &&& (upstream 250000000).KWSPI_CSN_ACT
        = (upstream 250000000).KWSPI_CSN_ACT ∧
      (((world_of (regs_of 2 0x212 0x40) false 3).reg.ctrl |||
          (upstream 250000000).KWSPI_CSN_ACT) &&& not32 (upstream 250000000).KWSPI_CSN_ACT)
        &&& (upstream 250000000).KWSPI_CSN_ACT = 0 :=
  ⟨by decide, by decide, by decide, by decide, hw_prompt_in_time _ _,
    spi_xfer_split (upstream 250000000) hw_prompt [1, 1, 1] (some [0xA5, 0x3C, 0x7E]) (some 0)
      (world_of (regs_of 2 0x212 0x40) false 3) (by decide) (by decide) (by decide) (by decide)
      (hw_prompt_in_time _ _)⟩

/-- The three one-byte requests with flags `BEGIN`, none, `END` evaluated on the message
`0xA5 0x3C 0x7E`: chip-select on once, the three exchanges, chip-select off once. -/
theorem xfer_split_three_run :
    (xfer_split (upstream 250000000) hw_prompt true [1, 1, 1] (some [0xA5, 0x3C, 0x7E]) (some 0)
        (world_of (regs_of 2 0x212 0x40) false 3)).map
        (fun r => (bus_trace r.trace, r.inbuf)) =
      some ([Event.wr Reg.ctrl 3, Event.wr Reg.dout 0xA5, Event.store 0 1,
             Event.wr Reg.dout 0x3C, Event.store 1 2, Event.wr Reg.dout 0x7E, Event.store 2 3,
             Event.wr Reg.ctrl 2], [1, 2, 3]) := by
  decide

/-! ## Configuration logic: input validation -/

/-- C11 (amended): `mvebu_spi_set_speed` does not validate its input; it is defined exactly for
the target frequencies `hz ≠ 0`, and for every such `hz` it cannot fail: it returns 0 after
writing `KWSPI_ADRLEN_3BYTE | data` to the configuration register with the prescaler `data` in
`[KWSPI_CLKPRESCL_MIN, KWSPI_CLKPRESCL_MASK]`. -/
theorem set_speed_defined (K : Header) (hz : Nat) (w : World)
    (hK : K.KWSPI_CLKPRESCL_MIN ≤ K.KWSPI_CLKPRESCL_MASK) :
    (mvebu_spi_set_speed K hz w = none ↔ hz = 0) ∧
    (hz ≠ 0 →
      ∃ w1 data, mvebu_spi_set_speed K hz w = some (0, w1) ∧
        w1.reg.cfg = K.KWSPI_ADRLEN_3BYTE ||| data ∧
        K.KWSPI_CLKPRESCL_MIN ≤ data ∧ data ≤ K.KWSPI_CLKPRESCL_MASK) := by
  constructor
  · by_cases h : hz = 0 <;> simp [mvebu_spi_set_speed, h]
  · intro h
    refine ⟨writel (K.KWSPI_ADRLEN_3BYTE ||| set_speed_prescaler K hz) Reg.cfg w,
      set_speed_prescaler K hz, by simp [mvebu_spi_set_speed, h], ?_, ?_, ?_⟩
    · simp [writel, kwspi_registers.set]
    · simp only [set_speed_prescaler]
      split_ifs <;> omega
    · simp only [set_speed_prescaler]
      split_ifs <;> omega

/-- Instance of the C11 theorem: upstream constants, 250 MHz core clock, 50 MHz target. -/
theorem set_speed_defined_witness :
    (upstream 250000000).KWSPI_CLKPRESCL_MIN ≤ (upstream 250000000).KWSPI_CLKPRESCL_MASK ∧
    (mvebu_spi_set_speed (upstream 250000000) 50000000
        (world_of (regs_of 2 0 0x40) false 0) = none ↔ 50000000 = 0) ∧
    (50000000 ≠ 0 →
      ∃ w1 data, mvebu_spi_set_speed (upstream 250000000) 50000000
          (world_of (regs_of 2 0 0x40) false 0) = some (0, w1) ∧
        w1.reg.cfg = (upstream 250000000).KWSPI_ADRLEN_3BYTE ||| data ∧
        (upstream 250000000).KWSPI_CLKPRESCL_MIN ≤ data ∧
        data ≤ (upstream 250000000).KWSPI_CLKPRESCL_MASK) :=
  ⟨by decide,
    set_speed_defined (upstream 250000000) 50000000 (world_of (regs_of 2 0 0x40) false 0)
      (by decide)⟩

/-- C11 fails as stated: for `hz = 0` the expression `(CONFIG_SYS_TCLK / 2) / hz` divides by
zero, so the call has no defined result. -/
theorem set_speed_defined_counterexample :
    mvebu_spi_set_speed (upstream 250000000) 0 (world_of (regs_of 2 0 0x40) false 0) = none := by
  decide

/-! ## Bus lifecycle: claiming the bus -/

/-- The `ctrl` word `mvebu_spi_claim_bus` leaves, and its other effects. -/
theorem claim_bus_eq (K : Header) (hw : Hw) (cs : Nat) (w : World) :
    mvebu_spi_claim_bus K hw cs w =
      (0, { w with
              reg := { w.reg with
                ctrl := (w.reg.ctrl &&& not32 (K.KWSPI_CS_MASK <<< K.KWSPI_CS_SHIFT)) |||
                  (cs <<< K.KWSPI_CS_SHIFT) % 2 ^ 32 },
              trace := w.trace ++
                [Event.rd Reg.ctrl w.reg.ctrl,
                 Event.wr Reg.ctrl
                   ((w.reg.ctrl &&& not32 (K.KWSPI_CS_MASK <<< K.KWSPI_CS_SHIFT)) |||
                     (cs <<< K.KWSPI_CS_SHIFT) % 2 ^ 32)] }) := by
  simp [mvebu_spi_claim_bus, mvebu_board_spi_claim_bus, clrsetbits_le32, readl, writel,
    kwspi_registers.get, kwspi_registers.set]

theorem testBit_shl (x s j : Nat) :
    (x <<< s).testBit j = (decide (s ≤ j) && x.testBit (j - s)) := by
  rw [Nat.testBit_shiftLeft]

/-- C12 (amended): for every 32-bit prior `ctrl` and every chip-select index `cs` that fits the
chip-select field (`cs & KWSPI_CS_MASK == cs`), after `mvebu_spi_claim_bus` the field of `ctrl`
(bits `KWSPI_CS_MASK << KWSPI_CS_SHIFT`) holds `cs`, every `ctrl` bit outside the field, in
particular `KWSPI_CSN_ACT`, is unchanged, and with the default board hook the call returns 0. -/
theorem claim_bus_field (K : Header) (hw : Hw) (cs : Nat) (w : World) (hK : K.cs_field_ok)
    (hcs : cs &&& K.KWSPI_CS_MASK = cs) (hctrl : w.reg.ctrl < 2 ^ 32) :
    (mvebu_spi_claim_bus K hw cs w).2.reg.ctrl &&& (K.KWSPI_CS_MASK <<< K.KWSPI_CS_SHIFT)
      = cs <<< K.KWSPI_CS_SHIFT ∧
    ((mvebu_spi_claim_bus K hw cs w).2.reg.ctrl >>> K.KWSPI_CS_SHIFT) &&& K.KWSPI_CS_MASK = cs ∧
    (∀ i, (K.KWSPI_CS_MASK <<< K.KWSPI_CS_SHIFT).testBit i = false →
      (mvebu_spi_claim_bus K hw cs w).2.reg.ctrl.testBit i = w.reg.ctrl.testBit i) ∧
    (mvebu_spi_claim_bus K hw cs w).2.reg.ctrl &&& K.KWSPI_CSN_ACT
      = w.reg.ctrl &&& K.KWSPI_CSN_ACT ∧
    (mvebu_spi_claim_bus K hw cs w).1 = 0 := by
  obtain ⟨hM, hA⟩ := hK
  have hsub : ∀ j, cs.testBit j = true → K.KWSPI_CS_MASK.testBit j = true :=
    testBit_of_and_eq_left hcs
  have hM32 : ∀ j, (K.KWSPI_CS_MASK <<< K.KWSPI_CS_SHIFT).testBit j = true → j < 32 :=
    lt_of_testBit_u32 hM
  have hc32 := lt_of_testBit_u32 hctrl
  rw [claim_bus_eq]
  refine ⟨?_, ?_, ?_, ?_, rfl⟩
  · apply Nat.eq_of_testBit_eq
    intro j
    have h1 := hM32 j
    simp only [Nat.testBit_and, Nat.testBit_or, testBit_not32, Nat.testBit_mod_two_pow,
      testBit_shl] at h1 ⊢
    by_cases hj : K.KWSPI_CS_SHIFT ≤ j
    · cases hcj : cs.testBit (j - K.KWSPI_CS_SHIFT)
      · simp [hj]
      · have hm := hsub _ hcj
        simp [hj, hm] at h1
        simp [hj, hm, h1]
    · simp [hj]
  · apply Nat.eq_of_testBit_eq
    intro j
    have h1 := hM32 (K.KWSPI_CS_SHIFT + j)
    simp only [Nat.testBit_and, Nat.testBit_or, testBit_not32, Nat.testBit_mod_two_pow,
      testBit_shl, Nat.testBit_shiftRight, Nat.le_add_right, Nat.add_sub_cancel_left,
      decide_True, Bool.true_and] at h1 ⊢
    cases hcj : cs.testBit j
    · cases hmj : K.KWSPI_CS_MASK.testBit j <;> simp
    · have hm := hsub _ hcj
      simp [hm] at h1
      simp [hm, h1]
  · intro i hi
    have hci := hc32 i
    simp only [Nat.testBit_and, Nat.testBit_or, testBit_not32, Nat.testBit_mod_two_pow,
      testBit_shl] at hi ⊢
    by_cases hj : K.KWSPI_CS_SHIFT ≤ i
    · simp only [hj, decide_True, Bool.true_and] at hi ⊢
      cases hcj : cs.testBit (i - K.KWSPI_CS_SHIFT)
      · cases hc : w.reg.ctrl.testBit i
        · simp
        · simp [hi, hci hc]
      · have hm := hsub _ hcj
        rw [hm] at hi
        exact absurd hi (by decide)
    · cases hc : w.reg.ctrl.testBit i
      · simp [hj]
      · simp [hj, hci hc]
  · apply Nat.eq_of_testBit_eq
    intro i
    have hd := testBit_of_and_eq_zero hA i
    have hci := hc32 i
    simp only [Nat.testBit_and, Nat.testBit_or, testBit_not32, Nat.testBit_mod_two_pow,
      testBit_shl] at hd ⊢
    cases ha : K.KWSPI_CSN_ACT.testBit i
    · simp
    · have hd1 := hd ha
      by_cases hj : K.KWSPI_CS_SHIFT ≤ i
      · simp only [hj, decide_True, Bool.true_and] at hd1 ⊢
        cases hcj : cs.testBit (i - K.KWSPI_CS_SHIFT)
        · cases hc : w.reg.ctrl.testBit i
          · simp
          · simp [hd1, hci hc]
        · have hm := hsub _ hcj
          rw [hm] at hd1
          exact absurd hd1 (by decide)
      · cases hc : w.reg.ctrl.testBit i
        · simp [hj]
        · simp [hj, hci hc]

/-- Instance of the C12 theorem: upstream constants, chip-select 3, prior `ctrl = 0x17`
(chip-select 5 selected, controller ready, chip-select asserted). -/
theorem claim_bus_field_witness :
    (upstream 250000000).cs_field_ok ∧ 3 &&& (upstream 250000000).KWSPI_CS_MASK = 3 ∧
    (world_of (regs_of 0x17 0x212 0x40) false 0).reg.ctrl < 2 ^ 32 ∧
    ((mvebu_spi_claim_bus (upstream 250000000) hw_prompt 3
          (world_of (regs_of 0x17 0x212 0x40) false 0)).2.reg.ctrl &&&
        ((upstream 250000000).KWSPI_CS_MASK <<< (upstream 250000000).KWSPI_CS_SHIFT)
      = 3 <<< (upstream 250000000).KWSPI_CS_SHIFT ∧
    ((mvebu_spi_claim_bus (upstream 250000000) hw_prompt 3
          (world_of (regs_of 0x17 0x212 0x40) false 0)).2.reg.ctrl >>>
        (upstream 250000000).KWSPI_CS_SHIFT) &&& (upstream 250000000).KWSPI_CS_MASK = 3 ∧
    (∀ i, ((upstream 250000000).KWSPI_CS_MASK <<<
          (upstream 250000000).KWSPI_CS_SHIFT).testBit i = false →
      (mvebu_spi_claim_bus (upstream 250000000) hw_prompt 3
          (world_of (regs_of 0x17 0x212 0x40) false 0)).2.reg.ctrl.testBit i
        = (world_of (regs_of 0x17 0x212 0x40) false 0).reg.ctrl.testBit i) ∧
    (mvebu_spi_claim_bus (upstream 250000000) hw_prompt 3
          (world_of (regs_of 0x17 0x212 0x40) false 0)).2.reg.ctrl &&&
        (upstream 250000000).KWSPI_CSN_ACT
      = (world_of (regs_of 0x17 0x212 0x40) false 0).reg.ctrl &&&
        (upstream 250000000).KWSPI_CSN_ACT ∧
    (mvebu_spi_claim_bus (upstream 250000000) hw_prompt 3
        (world_of (regs_of 0x17 0x212 0x40) false 0)).1 = 0) :=
  ⟨by decide, by decide, by decide,
    claim_bus_field (upstream 250000000) hw_prompt 3
      (world_of (regs_of 0x17 0x212 0x40) false 0) (by decide) (by decide) (by decide)⟩

/-- C12 fails as stated: a device that reports chip-select 8 (one more than the field can hold)
with prior `ctrl = 2` leaves `ctrl = 0x22`: the field reads 0, not 8, and bit 5, which lies
outside the field, has changed. -/
theorem claim_bus_field_counterexample :
    (mvebu_spi_claim_bus (upstream 250000000) hw_prompt 8
        (world_of (regs_of 2 0x212 0x40) false 0)).2.reg.ctrl = 0x22 ∧
    ((mvebu_spi_claim_bus (upstream 250000000) hw_prompt 8
          (world_of (regs_of 2 0x212 0x40) false 0)).2.reg.ctrl >>>
        (upstream 250000000).KWSPI_CS_SHIFT) &&& (upstream 250000000).KWSPI_CS_MASK ≠ 8 ∧
    ((upstream 250000000).KWSPI_CS_MASK <<< (upstream 250000000).KWSPI_CS_SHIFT).testBit 5
      = false ∧
    (mvebu_spi_claim_bus (upstream 250000000) hw_prompt 8
        (world_of (regs_of 2 0x212 0x40) false 0)).2.reg.ctrl.testBit 5
      ≠ (world_of (regs_of 2 0x212 0x40) false 0).reg.ctrl.testBit 5 := by
  decide

/-! ## Bus lifecycle: probing, and the erratum routine on its own -/

theorem sample_field_frame (t m v : Nat) (hv : v &&& m = v) (ht : t < 2 ^ 32) (i : Nat)
    (hi : m.testBit i = false) : ((t &&& not32 m) ||| v).testBit i = t.testBit i := by
  have hlt := lt_of_testBit_u32 ht i
  have hvi : v.testBit i = false := by
    cases hvi : v.testBit i
    · rfl
    · rw [testBit_of_and_eq_left hv i hvi] at hi
      exact absurd hi (by decide)
  simp only [Nat.testBit_and, Nat.testBit_or, testBit_not32, hi, hvi]
  cases hc : t.testBit i
  · simp
  · simp [hlt hc]

/-- C14: for every 32-bit prior timing register and every mode word,
`mvebu_spi_50mhz_ac_timing_erratum` changes only the sample-point field: every bit of `timing1`
outside `KW_SPI_TMISO_SAMPLE_MASK` and every other register keep their value, the field
afterwards is exactly `KW_SPI_TMISO_SAMPLE_2` or exactly `KW_SPI_TMISO_SAMPLE_1`, and applying
the correction twice with the same mode leaves the same registers as applying it once. -/
theorem erratum_field_only (K : Header) (hw : Hw) (mode : Nat) (w : World)
    (hK : K.sample_field_ok) (ht : w.reg.timing1 < 2 ^ 32) :
    (∀ i, K.KW_SPI_TMISO_SAMPLE_MASK.testBit i = false →
      (mvebu_spi_50mhz_ac_timing_erratum K hw mode w).reg.timing1.testBit i
        = w.reg.timing1.testBit i) ∧
    ((mvebu_spi_50mhz_ac_timing_erratum K hw mode w).reg.timing1 &&& K.KW_SPI_TMISO_SAMPLE_MASK
        = K.KW_SPI_TMISO_SAMPLE_2 ∨
      (mvebu_spi_50mhz_ac_timing_erratum K hw mode w).reg.timing1 &&& K.KW_SPI_TMISO_SAMPLE_MASK
        = K.KW_SPI_TMISO_SAMPLE_1) ∧
    (mvebu_spi_50mhz_ac_timing_erratum K hw mode w).reg =
      { w.reg with timing1 := (mvebu_spi_50mhz_ac_timing_erratum K hw mode w).reg.timing1 } ∧
    (mvebu_spi_50mhz_ac_timing_erratum K hw mode
        (mvebu_spi_50mhz_ac_timing_erratum K hw mode w)).reg
      = (mvebu_spi_50mhz_ac_timing_erratum K hw mode w).reg := by
  obtain ⟨h1, h2, _⟩ := hK
  refine ⟨?_, ?_, ?_, ?_⟩
  · intro i hi
    rw [erratum_reg]
    by_cases hc : erratum_cond K mode
    · simp only [hc, if_true]; exact sample_field_frame _ _ _ h2 ht i hi
    · simp only [hc, if_false]; exact sample_field_frame _ _ _ h1 ht i hi
  · rw [erratum_reg]
    by_cases hc : erratum_cond K mode
    · left; simp only [hc, if_true]; exact sample_field_and _ _ _ h2
    · right; simp only [hc, if_false]; exact sample_field_and _ _ _ h1
  · rw [erratum_reg]
  · rw [erratum_reg, erratum_reg]
    simp only [xferlen_idem]

/-- Instance of the C14 theorem: upstream constants, 250 MHz core clock, mode
`SPI_CPHA | SPI_CPOL`, prior timing register `0x12345`. -/
theorem erratum_field_only_witness :
    (upstream 250000000).sample_field_ok ∧
    (world_of (regs_of 2 0x212 0x12345) false 0).reg.timing1 < 2 ^ 32 ∧
    ((∀ i, (upstream 250000000).KW_SPI_TMISO_SAMPLE_MASK.testBit i = false →
      (mvebu_spi_50mhz_ac_timing_erratum (upstream 250000000) hw_prompt 3
        (world_of (regs_of 2 0x212 0x12345) false 0)).reg.timing1.testBit i
        = (world_of (regs_of 2 0x212 0x12345) false 0).reg.timing1.testBit i) ∧
    ((mvebu_spi_50mhz_ac_timing_erratum (upstream 250000000) hw_prompt 3
        (world_of (regs_of 2 0x212 0x12345) false 0)).reg.timing1 &&&
          (upstream 250000000).KW_SPI_TMISO_SAMPLE_MASK = (upstream 250000000).KW_SPI_TMISO_SAMPLE_2 ∨
      (mvebu_spi_50mhz_ac_timing_erratum (upstream 250000000) hw_prompt 3
        (world_of (regs_of 2 0x212 0x12345) false 0)).reg.timing1 &&&
          (upstream 250000000).KW_SPI_TMISO_SAMPLE_MASK = (upstream 250000000).KW_SPI_TMISO_SAMPLE_1) ∧
    (mvebu_spi_50mhz_ac_timing_erratum (upstream 250000000) hw_prompt 3
        (world_of (regs_of 2 0x212 0x12345) false 0)).reg =
      { (world_of (regs_of 2 0x212 0x12345) false 0).reg with
          timing1 := (mvebu_spi_50mhz_ac_timing_erratum (upstream 250000000) hw_prompt 3
        (world_of (regs_of 2 0x212 0x12345) false 0)).reg.timing1 } ∧
    (mvebu_spi_50mhz_ac_timing_erratum (upstream 250000000) hw_prompt 3
        (mvebu_spi_50mhz_ac_timing_erratum (upstream 250000000) hw_prompt 3
        (world_of (regs_of 2 0x212 0x12345) false 0))).reg
      = (mvebu_spi_50mhz_ac_timing_erratum (upstream 250000000) hw_prompt 3
        (world_of (regs_of 2 0x212 0x12345) false 0)).reg) :=
  ⟨by decide, by decide,
    erratum_field_only (upstream 250000000) hw_prompt 3 (world_of (regs_of 2 0x212 0x12345) false 0) (by decide) (by decide)⟩

/-! ## Transfer engine: the poll budget of one attempt -/

theorem irq_reads_append (a b : List Event) : irq_reads (a ++ b) = irq_reads a + irq_reads b := by
  induction a with
  | nil => simp [irq_reads]
  | cons e a ih =>
    cases e with
    | rd r v =>
      cases r
      all_goals simp [irq_reads, ih]
      all_goals omega
    | wr r v => simp [irq_reads, ih]
    | store p v => simp [irq_reads, ih]
    | timeout => simp [irq_reads, ih]

theorem din_reads_append (a b : List Event) : din_reads (a ++ b) = din_reads a + din_reads b := by
  induction a with
  | nil => simp [din_reads]
  | cons e a ih =>
    cases e with
    | rd r v =>
      cases r
      all_goals simp [din_reads, ih]
      all_goals omega
    | wr r v => simp [din_reads, ih]
    | store p v => simp [din_reads, ih]
    | timeout => simp [din_reads, ih]

theorem irq_reads_replicate (n v : Nat) :
    irq_reads (List.replicate n (Event.rd Reg.irq_cause v)) = n := by
  induction n with
  | zero => rfl
  | succ n ih => simp [List.replicate_succ, irq_reads, ih]

theorem din_reads_replicate (n v : Nat) :
    din_reads (List.replicate n (Event.rd Reg.irq_cause v)) = 0 := by
  induction n with
  | zero => rfl
  | succ n ih => simp [List.replicate_succ, din_reads, ih]

theorem reads_store_events (din : Option Nat) (v : Nat) :
    irq_reads (store_events din v) = 0 ∧ din_reads (store_events din v) = 0 := by
  cases din <;> exact ⟨rfl, rfl⟩

theorem count_timeout_store_events (din : Option Nat) (v : Nat) :
    (store_events din v).count Event.timeout = 0 := by
  cases din <;> simp [store_events]

/-- The poll phase of an attempt that is answered on poll `k + 1`. -/
theorem xfer_iter_poll_answer (K : Header) (hw : Hw) (x : XferVars) (w : World) (k : Nat)
    (hK : K.KWSPI_SMEMRDIRQ ≠ 0)
    (hno : ∀ j, j < k → hw.ready (w.nxfer + 1) j = false)
    (hk : hw.ready (w.nxfer + 1) k = true) (hkT : k < K.KWSPI_TIMEOUT) :
    (xfer_iter K hw x w).2.polls = k + 1 ∧
    irq_reads (xfer_iter K hw x w).2.trace = irq_reads w.trace + 1 + (k + 1) ∧
    din_reads (xfer_iter K hw x w).2.trace = din_reads w.trace + 1 ∧
    (xfer_iter K hw x w).1.bitlen = (x.bitlen + 2 ^ 32 - 8) % 2 ^ 32 ∧
    (xfer_iter K hw x w).2.trace.count Event.timeout = w.trace.count Event.timeout := by
  rw [xfer_iter_answer K hw x w k hK hno hk hkT]
  refine ⟨rfl, ?_, ?_, rfl, ?_⟩
  · simp only [irq_reads_append, irq_reads_replicate, (reads_store_events _ _).1, irq_reads]
    omega
  · simp only [din_reads_append, din_reads_replicate, (reads_store_events _ _).2, din_reads]
  · simp [List.count_replicate, count_timeout_store_events]

/-- The poll phase of an attempt that is not answered. -/
theorem xfer_iter_poll_timeout (K : Header) (hw : Hw) (x : XferVars) (w : World)
    (hno : ∀ k, k < K.KWSPI_TIMEOUT → hw.ready (w.nxfer + 1) k = false) :
    (xfer_iter K hw x w).2.polls = K.KWSPI_TIMEOUT ∧
    irq_reads (xfer_iter K hw x w).2.trace = irq_reads w.trace + 1 + K.KWSPI_TIMEOUT ∧
    din_reads (xfer_iter K hw x w).2.trace = din_reads w.trace ∧
    (xfer_iter K hw x w).1.bitlen = x.bitlen ∧
    (xfer_iter K hw x w).2.trace.count Event.timeout = w.trace.count Event.timeout + 1 := by
  rw [xfer_iter_timeout K hw x w hno]
  refine ⟨rfl, ?_, ?_, rfl, ?_⟩
  · simp only [irq_reads_append, irq_reads_replicate, irq_reads]
    omega
  · simp only [din_reads_append, din_reads_replicate, din_reads]
    omega
  · simp [List.count_replicate]

/-- C15: for each byte attempt (one iteration of the loop of `_spi_xfer`) `irq_cause` is polled
at most `KWSPI_TIMEOUT` times; a time-out is reported for the attempt if and only if none of the
`KWSPI_TIMEOUT` polls shows the read-ready bit; and when read-ready is first seen on poll `k`
(`1 ≤ k ≤ KWSPI_TIMEOUT`, the last one included) polling stops after `k` reads, `din` is read
exactly once, the remaining bit count drops by 8 (as an unsigned 32-bit value) and no time-out
is reported. -/
theorem poll_budget (K : Header) (hw : Hw) (x : XferVars) (w : World)
    (hK : K.KWSPI_SMEMRDIRQ ≠ 0) :
    (xfer_iter K hw x w).2.polls ≤ K.KWSPI_TIMEOUT ∧
    irq_reads (xfer_iter K hw x w).2.trace
      = irq_reads w.trace + 1 + (xfer_iter K hw x w).2.polls ∧
    ((xfer_iter K hw x w).2.trace.count Event.timeout = w.trace.count Event.timeout + 1 ↔
      ∀ k, k < K.KWSPI_TIMEOUT → hw.ready (w.nxfer + 1) k = false) ∧
    ((xfer_iter K hw x w).2.trace.count Event.timeout = w.trace.count Event.timeout ↔
      ∃ k, k < K.KWSPI_TIMEOUT ∧ hw.ready (w.nxfer + 1) k = true) ∧
    (∀ k, 1 ≤ k → k ≤ K.KWSPI_TIMEOUT →
      (∀ j, j + 1 < k → hw.ready (w.nxfer + 1) j = false) →
      hw.ready (w.nxfer + 1) (k - 1) = true →
      (xfer_iter K hw x w).2.polls = k ∧
      din_reads (xfer_iter K hw x w).2.trace = din_reads w.trace + 1 ∧
      (xfer_iter K hw x w).1.bitlen = (x.bitlen + 2 ^ 32 - 8) % 2 ^ 32 ∧
      (8 ≤ x.bitlen → x.bitlen < 2 ^ 32 → (xfer_iter K hw x w).1.bitlen = x.bitlen - 8) ∧
      (xfer_iter K hw x w).2.trace.count Event.timeout = w.trace.count Event.timeout) := by
  by_cases ha : answered K hw (w.nxfer + 1)
  · obtain ⟨k, hkT, hk, hno⟩ := answered_first K hw _ ha
    obtain ⟨a1, a2, a3, a4, a5⟩ := xfer_iter_poll_answer K hw x w k hK hno hk hkT
    have hnot : ¬ ∀ k, k < K.KWSPI_TIMEOUT → hw.ready (w.nxfer + 1) k = false :=
      fun h => (not_answered_iff K hw _).2 h ha
    refine ⟨by omega, by omega, ?_, ?_, ?_⟩
    · constructor
      · intro h; omega
      · intro h; exact absurd h hnot
    · exact ⟨fun _ => ha, fun _ => a5⟩
    · intro k1 h1 h2 hno1 hk1
      obtain ⟨b1, _, b3, b4, b5⟩ := xfer_iter_poll_answer K hw x w (k1 - 1) hK
        (fun j hj => hno1 j (by omega)) hk1 (by omega)
      refine ⟨by omega, b3, b4, ?_, b5⟩
      intro h8 hlt
      rw [b4]; omega
  · have hno := (not_answered_iff K hw _).1 ha
    obtain ⟨a1, a2, a3, a4, a5⟩ := xfer_iter_poll_timeout K hw x w hno
    refine ⟨by omega, by omega, ?_, ?_, ?_⟩
    · exact ⟨fun _ => hno, fun _ => a5⟩
    · constructor
      · intro h; omega
      · intro h; exact absurd h ha
    · intro k1 h1 h2 _ hk1
      rw [hno (k1 - 1) (by omega)] at hk1
      exact absurd hk1 (by decide)

/-- Instance of the C15 theorem: upstream constants, a one-byte attempt on hardware that
answers on the last poll of the budget. -/
theorem poll_budget_witness :
    (upstream 250000000).KWSPI_SMEMRDIRQ ≠ 0 ∧
    ((xfer_iter (upstream 250000000) hw_last one_byte_vars idle_world).2.polls
      ≤ (upstream 250000000).KWSPI_TIMEOUT ∧
    irq_reads (xfer_iter (upstream 250000000) hw_last one_byte_vars idle_world).2.trace
      = irq_reads idle_world.trace + 1 +
        (xfer_iter (upstream 250000000) hw_last one_byte_vars idle_world).2.polls ∧
    ((xfer_iter (upstream 250000000) hw_last one_byte_vars idle_world).2.trace.count
        Event.timeout = idle_world.trace.count Event.timeout + 1 ↔
      ∀ k, k < (upstream 250000000).KWSPI_TIMEOUT → hw_last.ready (idle_world.nxfer + 1) k = false) ∧
    ((xfer_iter (upstream 250000000) hw_last one_byte_vars idle_world).2.trace.count
        Event.timeout = idle_world.trace.count Event.timeout ↔
      ∃ k, k < (upstream 250000000).KWSPI_TIMEOUT ∧ hw_last.ready (idle_world.nxfer + 1) k = true) ∧
    (∀ k, 1 ≤ k → k ≤ (upstream 250000000).KWSPI_TIMEOUT →
      (∀ j, j + 1 < k → hw_last.ready (idle_world.nxfer + 1) j = false) →
      hw_last.ready (idle_world.nxfer + 1) (k - 1) = true →
      (xfer_iter (upstream 250000000) hw_last one_byte_vars idle_world).2.polls = k ∧
      din_reads (xfer_iter (upstream 250000000) hw_last one_byte_vars idle_world).2.trace
        = din_reads idle_world.trace + 1 ∧
      (xfer_iter (upstream 250000000) hw_last one_byte_vars idle_world).1.bitlen
        = (one_byte_vars.bitlen + 2 ^ 32 - 8) % 2 ^ 32 ∧
      (8 ≤ one_byte_vars.bitlen → one_byte_vars.bitlen < 2 ^ 32 →
        (xfer_iter (upstream 250000000) hw_last one_byte_vars idle_world).1.bitlen
          = one_byte_vars.bitlen - 8) ∧
      (xfer_iter (upstream 250000000) hw_last one_byte_vars idle_world).2.trace.count
          Event.timeout = idle_world.trace.count Event.timeout)) :=
  ⟨by decide, poll_budget (upstream 250000000) hw_last one_byte_vars idle_world (by decide)⟩

/-- An attempt answered exactly on the last poll of the budget: `KWSPI_TIMEOUT` polls, one read
of `din`, the bit count down from 8 to 0, no time-out reported. -/
theorem poll_last_run :
    (xfer_iter (upstream 250000000) hw_last one_byte_vars idle_world).2.polls = 10000 ∧
    din_reads (xfer_iter (upstream 250000000) hw_last one_byte_vars idle_world).2.trace = 1 ∧
    (xfer_iter (upstream 250000000) hw_last one_byte_vars idle_world).1.bitlen = 0 ∧
    (xfer_iter (upstream 250000000) hw_last one_byte_vars idle_world).2.trace.count
      Event.timeout = 0 := by
  have hT : 9999 < (upstream 250000000).KWSPI_TIMEOUT := by
    show 9999 < 10000
    omega
  have hn : idle_world.nxfer + 1 = 1 := rfl
  obtain ⟨h1, _, h3, h4, h5⟩ := xfer_iter_poll_answer (upstream 250000000) hw_last
    one_byte_vars idle_world 9999 (by decide)
    (fun j hj => by simp [hw_last]; omega) (by simp [hw_last]) hT
  exact ⟨h1, h3, h4, h5⟩

/-! ## Configuration logic: the order of speed and mode -/

theorem set_speed_some (K : Header) (hz : Nat) (w : World) (hhz : 0 < hz) :
    mvebu_spi_set_speed K hz w =
      some (0, writel (K.KWSPI_ADRLEN_3BYTE ||| set_speed_prescaler K hz) Reg.cfg w) := by
  simp [mvebu_spi_set_speed, Nat.pos_iff_ne_zero.mp hhz]

theorem set_speed_prescaler_le (K : Header) (hz : Nat)
    (hK : K.KWSPI_CLKPRESCL_MIN ≤ K.KWSPI_CLKPRESCL_MASK) :
    set_speed_prescaler K hz ≤ K.KWSPI_CLKPRESCL_MASK := by
  simp only [set_speed_prescaler]
  split_ifs <;> omega

theorem and_eq_zero_of_or_left {a b m : Nat} (h : a &&& (b ||| m) = 0) : a &&& b = 0 := by
  apply Nat.eq_of_testBit_eq
  intro i
  have hi := congrArg (fun n => Nat.testBit n i) h
  simp only [Nat.testBit_and, Nat.testBit_or, Nat.zero_testBit] at hi ⊢
  cases ha : a.testBit i <;> cases hb : b.testBit i <;> simp_all

theorem and_eq_zero_of_or_right {a b m : Nat} (h : a &&& (b ||| m) = 0) : a &&& m = 0 := by
  apply Nat.eq_of_testBit_eq
  intro i
  have hi := congrArg (fun n => Nat.testBit n i) h
  simp only [Nat.testBit_and, Nat.testBit_or, Nat.zero_testBit] at hi ⊢
  cases ha : a.testBit i <;> cases hb : m.testBit i <;> simp_all

theorem and_not32_of_disjoint (a m : Nat) (ha : a < 2 ^ 32) (h : a &&& m = 0) :
    a &&& not32 m = a := by
  apply Nat.eq_of_testBit_eq
  intro i
  have hlt := lt_of_testBit_u32 ha i
  have hd := testBit_of_and_eq_zero h i
  simp only [Nat.testBit_and, testBit_not32]
  cases hai : a.testBit i
  · simp
  · simp [hlt hai, hd hai]

/-- The speed word (address-length flag and prescaler) does not touch a mode mask. -/
theorem speed_word_disjoint (K : Header) (hz : Nat)
    (hK : K.KWSPI_CLKPRESCL_MIN ≤ K.KWSPI_CLKPRESCL_MASK) (hD : K.speed_mode_disjoint) :
    (K.KWSPI_ADRLEN_3BYTE ||| set_speed_prescaler K hz) &&& K.mode_mask = 0 := by
  obtain ⟨h1, h2⟩ := hD
  have hp := h2 (set_speed_prescaler K hz)
    (Nat.lt_succ_of_le (set_speed_prescaler_le K hz hK))
  rw [or_and_distrib, h1, hp]
  rfl

/-- C16: `mvebu_spi_set_speed` and `mvebu_spi_set_mode` do not commute on the configuration
register. For every `hz > 0` and mode word, `set_speed(hz)` followed by `set_mode(mode)` leaves
`cfg` holding `KWSPI_ADRLEN_3BYTE`, the clamped prescaler and exactly the requested mode bits,
whereas `set_mode(mode)` followed by `set_speed(hz)` leaves `cfg` equal to
`KWSPI_ADRLEN_3BYTE | prescaler` with `KWSPI_CPHA`, `KWSPI_CPOL`, `KWSPI_RXLSBF` and
`KWSPI_TXLSBF` all clear, whatever mode was requested. -/
theorem speed_mode_order (K : Header) (hw : Hw) (hz mode : Nat) (w : World) (hhz : 0 < hz)
    (hM : K.mode_bits_ok) (hD : K.speed_mode_disjoint)
    (hK : K.KWSPI_CLKPRESCL_MIN ≤ K.KWSPI_CLKPRESCL_MASK)
    (hA : K.KWSPI_ADRLEN_3BYTE < 2 ^ 32) (hP : K.KWSPI_CLKPRESCL_MASK < 2 ^ 32) :
    (∃ w1, mvebu_spi_set_speed K hz w = some (0, w1) ∧
      (mvebu_spi_set_mode K hw mode w1).2.reg.cfg =
        (((K.KWSPI_ADRLEN_3BYTE ||| set_speed_prescaler K hz)
          ||| (if mode &&& K.SPI_CPHA ≠ 0 then K.KWSPI_CPHA else 0))
          ||| (if mode &&& K.SPI_CPOL ≠ 0 then K.KWSPI_CPOL else 0))
          ||| (if mode &&& K.SPI_LSB_FIRST ≠ 0 then K.KWSPI_RXLSBF ||| K.KWSPI_TXLSBF else 0) ∧
      (mvebu_spi_set_mode K hw mode w1).2.reg.cfg &&& K.KWSPI_CPHA =
        (if mode &&& K.SPI_CPHA ≠ 0 then K.KWSPI_CPHA else 0) ∧
      (mvebu_spi_set_mode K hw mode w1).2.reg.cfg &&& K.KWSPI_CPOL =
        (if mode &&& K.SPI_CPOL ≠ 0 then K.KWSPI_CPOL else 0) ∧
      (mvebu_spi_set_mode K hw mode w1).2.reg.cfg &&& K.KWSPI_RXLSBF =
        (if mode &&& K.SPI_LSB_FIRST ≠ 0 then K.KWSPI_RXLSBF else 0) ∧
      (mvebu_spi_set_mode K hw mode w1).2.reg.cfg &&& K.KWSPI_TXLSBF =
        (if mode &&& K.SPI_LSB_FIRST ≠ 0 then K.KWSPI_TXLSBF else 0)) ∧
    (∃ w3, mvebu_spi_set_speed K hz (mvebu_spi_set_mode K hw mode w).2 = some (0, w3) ∧
      w3.reg.cfg = K.KWSPI_ADRLEN_3BYTE ||| set_speed_prescaler K hz ∧
      w3.reg.cfg &&& K.KWSPI_CPHA = 0 ∧ w3.reg.cfg &&& K.KWSPI_CPOL = 0 ∧
      w3.reg.cfg &&& K.KWSPI_RXLSBF = 0 ∧ w3.reg.cfg &&& K.KWSPI_TXLSBF = 0) := by
  have hs := speed_word_disjoint K hz hK hD
  have hp := set_speed_prescaler_le K hz hK
  have hs32 : K.KWSPI_ADRLEN_3BYTE ||| set_speed_prescaler K hz < 2 ^ 32 :=
    Nat.or_lt_two_pow hA (lt_of_le_of_lt hp hP)
  have hcfg : ∀ v : World,
      (writel (K.KWSPI_ADRLEN_3BYTE ||| set_speed_prescaler K hz) Reg.cfg v).reg.cfg
        = K.KWSPI_ADRLEN_3BYTE ||| set_speed_prescaler K hz := fun v => rfl
  have h123 := and_eq_zero_of_or_left hs
  have h12 := and_eq_zero_of_or_left h123
  constructor
  · refine ⟨_, set_speed_some K hz w hhz, ?_, set_mode_and_cpha K hw mode _ hM,
      set_mode_and_cpol K hw mode _ hM, (set_mode_and_lsbf K hw mode _ hM).1,
      (set_mode_and_lsbf K hw mode _ hM).2⟩
    rw [set_mode_cfg_eq, hcfg]
    have hmm : K.KWSPI_CPHA ||| K.KWSPI_CPOL ||| K.KWSPI_RXLSBF ||| K.KWSPI_TXLSBF
        = K.mode_mask := rfl
    rw [hmm, and_not32_of_disjoint _ _ hs32 hs]
  · refine ⟨_, set_speed_some K hz _ hhz, hcfg _, ?_, ?_, ?_, ?_⟩
    · rw [hcfg]; exact and_eq_zero_of_or_left h12
    · rw [hcfg]; exact and_eq_zero_of_or_right h12
    · rw [hcfg]; exact and_eq_zero_of_or_right h123
    · rw [hcfg]; exact and_eq_zero_of_or_right hs

/-- Instance of the C16 theorem: upstream constants, 250 MHz core clock, a 50 MHz target and mode
`SPI_CPHA | SPI_CPOL`. -/
theorem speed_mode_order_witness :
    0 < 50000000 ∧
    (upstream 250000000).mode_bits_ok ∧
    (upstream 250000000).speed_mode_disjoint ∧
    (upstream 250000000).KWSPI_CLKPRESCL_MIN ≤ (upstream 250000000).KWSPI_CLKPRESCL_MASK ∧
    (upstream 250000000).KWSPI_ADRLEN_3BYTE < 2 ^ 32 ∧
    (upstream 250000000).KWSPI_CLKPRESCL_MASK < 2 ^ 32 ∧
    ((∃ w1, mvebu_spi_set_speed (upstream 250000000) 50000000 idle_world = some (0, w1) ∧
      (mvebu_spi_set_mode (upstream 250000000) hw_prompt 3 w1).2.reg.cfg =
        ((((upstream 250000000).KWSPI_ADRLEN_3BYTE ||| set_speed_prescaler (upstream 250000000)
            50000000)
          ||| (if 3 &&& (upstream 250000000).SPI_CPHA ≠ 0 then (upstream 250000000).KWSPI_CPHA
              else 0))
          ||| (if 3 &&& (upstream 250000000).SPI_CPOL ≠ 0 then (upstream 250000000).KWSPI_CPOL
              else 0))
          ||| (if 3 &&& (upstream 250000000).SPI_LSB_FIRST ≠ 0 then (upstream
              250000000).KWSPI_RXLSBF ||| (upstream 250000000).KWSPI_TXLSBF else 0) ∧
      (mvebu_spi_set_mode (upstream 250000000) hw_prompt 3 w1).2.reg.cfg &&& (upstream
          250000000).KWSPI_CPHA =
        (if 3 &&& (upstream 250000000).SPI_CPHA ≠ 0 then (upstream 250000000).KWSPI_CPHA else 0) ∧
      (mvebu_spi_set_mode (upstream 250000000) hw_prompt 3 w1).2.reg.cfg &&& (upstream
          250000000).KWSPI_CPOL =
        (if 3 &&& (upstream 250000000).SPI_CPOL ≠ 0 then (upstream 250000000).KWSPI_CPOL else 0) ∧
      (mvebu_spi_set_mode (upstream 250000000) hw_prompt 3 w1).2.reg.cfg &&& (upstream
          250000000).KWSPI_RXLSBF =
        (if 3 &&& (upstream 250000000).SPI_LSB_FIRST ≠ 0 then (upstream 250000000).KWSPI_RXLSBF
            else 0) ∧
      (mvebu_spi_set_mode (upstream 250000000) hw_prompt 3 w1).2.reg.cfg &&& (upstream
          250000000).KWSPI_TXLSBF =
        (if 3 &&& (upstream 250000000).SPI_LSB_FIRST ≠ 0 then (upstream 250000000).KWSPI_TXLSBF
            else 0)) ∧
    (∃ w3, mvebu_spi_set_speed (upstream 250000000) 50000000 (mvebu_spi_set_mode (upstream
        250000000) hw_prompt 3 idle_world).2 = some (0, w3) ∧
      w3.reg.cfg = (upstream 250000000).KWSPI_ADRLEN_3BYTE ||| set_speed_prescaler (upstream
          250000000) 50000000 ∧
      w3.reg.cfg &&& (upstream 250000000).KWSPI_CPHA = 0 ∧ w3.reg.cfg &&& (upstream
          250000000).KWSPI_CPOL = 0 ∧
      w3.reg.cfg &&& (upstream 250000000).KWSPI_RXLSBF = 0 ∧ w3.reg.cfg &&& (upstream
          250000000).KWSPI_TXLSBF = 0)) :=
  ⟨by decide, by decide, by decide, by decide, by decide, by decide,
    speed_mode_order (upstream 250000000) hw_prompt 50000000 3 idle_world (by decide) (by decide) (by decide) (by decide) (by decide) (by decide)⟩

/-- The two orders evaluated with the upstream constants, a 250 MHz core clock, a 50 MHz target
and mode `SPI_CPHA | SPI_CPOL`: speed first leaves `cfg = 0x1a12`, mode first leaves
`cfg = 0x212`. -/
theorem speed_mode_order_run :
    (mvebu_spi_set_speed (upstream 250000000) 50000000 idle_world).map
        (fun r => (mvebu_spi_set_mode (upstream 250000000) hw_prompt 3 r.2).2.reg.cfg)
      = some 0x1a12 ∧
    (mvebu_spi_set_speed (upstream 250000000) 50000000
        (mvebu_spi_set_mode (upstream 250000000) hw_prompt 3 idle_world).2).map
        (fun r => r.2.reg.cfg)
      = some 0x212 := by
  decide

/-! ## Transfer engine: what a request leaves of the configuration -/

theorem config_kept_refl (w : World) : config_kept w w :=
  ⟨rfl, rfl, rfl, rfl, rfl⟩

theorem config_kept_trans {a b c : World} (h1 : config_kept a b) (h2 : config_kept b c) :
    config_kept a c := by
  obtain ⟨p1, p2, p3, p4, p5⟩ := h1
  obtain ⟨q1, q2, q3, q4, q5⟩ := h2
  exact ⟨q1.trans p1, q2.trans p2, q3.trans p3, q4.trans p4, q5.trans p5⟩

/-- Whatever the hardware does, the poll loop leaves the configuration alone. -/
theorem poll_loop_kept (K : Header) (hw : Hw) (n : Nat) :
    ∀ (tm : Nat) (x : XferVars) (w : World), config_kept w (poll_loop K hw n tm x w).2.2 := by
  induction n with
  | zero => intro tm x w; exact config_kept_refl w
  | succ n ih =>
    intro tm x w
    simp only [poll_loop]
    split
    · cases x.din <;> exact ⟨rfl, rfl, rfl, rfl, rfl⟩
    · exact config_kept_trans ⟨rfl, rfl, rfl, rfl, rfl⟩ (ih _ _ _)

/-- Whatever the hardware does, one loop iteration leaves the configuration alone. -/
theorem xfer_iter_kept (K : Header) (hw : Hw) (x : XferVars) (w : World) :
    config_kept w (xfer_iter K hw x w).2 := by
  have h1 : config_kept w (xfer_start K hw (out_byte x.dout) w) := by
    rw [xfer_start_eq]; exact ⟨rfl, rfl, rfl, rfl, rfl⟩
  have h2 := poll_loop_kept K hw K.KWSPI_TIMEOUT 0 x (xfer_start K hw (out_byte x.dout) w)
  simp only [xfer_iter]
  split
  · exact config_kept_trans (config_kept_trans h1 h2) ⟨rfl, rfl, rfl, rfl, rfl⟩
  · exact config_kept_trans h1 h2

/-- Whatever the hardware does, the `while` loop leaves the configuration alone when it
returns. -/
theorem xfer_while_kept (K : Header) (hw : Hw) (fuel : Nat) :
    ∀ (x : XferVars) (w : World) (r : XferVars × World),
      xfer_while K hw fuel x w = some r → config_kept w r.2 := by
  induction fuel with
  | zero =>
    intro x w r h
    simp only [xfer_while] at h
    split at h
    · exact absurd h (by simp)
    · rw [← Option.some.inj h]; exact config_kept_refl w
  | succ fuel ih =>
    intro x w r h
    simp only [xfer_while] at h
    split at h
    · exact config_kept_trans (xfer_iter_kept K hw x w) (ih _ _ r h)
    · rw [← Option.some.inj h]; exact config_kept_refl w

/-- The configuration `_spi_xfer` leaves when it returns, whatever the hardware does. -/
theorem spi_xfer_kept (K : Header) (hw : Hw) (fuel bitlen : Nat) (dout : Option (List Nat))
    (din : Option Nat) (flags : Nat) (w : World) (r : Int) (w1 : World)
    (h : _spi_xfer K hw fuel bitlen dout din flags w = some (r, w1)) :
    w1.plat = w.plat ∧
    w1.reg.ctrl =
      (if flags &&& K.SPI_XFER_END ≠ 0 then
        (if flags &&& K.SPI_XFER_BEGIN ≠ 0 then w.reg.ctrl ||| K.KWSPI_CSN_ACT
          else w.reg.ctrl) &&& not32 K.KWSPI_CSN_ACT
       else if flags &&& K.SPI_XFER_BEGIN ≠ 0 then w.reg.ctrl ||| K.KWSPI_CSN_ACT
          else w.reg.ctrl) ∧
    w1.reg.cfg = (w.reg.cfg &&& not32 K.KWSPI_XFERLEN_MASK) ||| K.KWSPI_XFERLEN_1BYTE ∧
    w1.reg.timing1 = w.reg.timing1 ∧ w1.reg.irq_mask = w.reg.irq_mask := by
  rw [spi_xfer_unfold] at h
  generalize hW1 : (if flags &&& K.SPI_XFER_BEGIN ≠ 0 then _spi_cs_activate K hw w else w) = W1
    at h
  have a : W1.plat = w.plat ∧ W1.reg.ctrl = (if flags &&& K.SPI_XFER_BEGIN ≠ 0 then
      w.reg.ctrl ||| K.KWSPI_CSN_ACT else w.reg.ctrl) ∧ W1.reg.cfg = w.reg.cfg ∧
      W1.reg.timing1 = w.reg.timing1 ∧ W1.reg.irq_mask = w.reg.irq_mask := by
    rw [← hW1]; split <;> simp [cs_activate_eq]
  obtain ⟨a1, a2, a3, a4, a5⟩ := a
  cases hx : xfer_while K hw fuel { bitlen := bitlen, dout := dout, din := din }
      (clrsetbits_le32 K hw Reg.cfg K.KWSPI_XFERLEN_MASK K.KWSPI_XFERLEN_1BYTE W1) with
  | none => rw [hx] at h; exact absurd h (by simp)
  | some R =>
    obtain ⟨k1, k2, k3, k4, k5⟩ := xfer_while_kept K hw fuel _ _ R hx
    rw [clrsetbits_cfg_eq] at k1 k2 k3 k4 k5
    rw [hx] at h
    simp only [Option.map_some', Option.some.injEq, Prod.mk.injEq] at h
    obtain ⟨_, h2⟩ := h
    rw [← h2]
    by_cases hE : flags &&& K.SPI_XFER_END ≠ 0
    · rw [if_pos hE, if_pos hE, cs_deactivate_eq]
      exact ⟨k1.trans a1, by show R.2.reg.ctrl &&& _ = _; rw [k2, a2],
        by show R.2.reg.cfg = _; rw [k3, a3], k4.trans a4, k5.trans a5⟩
    · rw [if_neg hE, if_neg hE]
      exact ⟨k1.trans a1, by rw [k2, a2], by rw [k3, a3], k4.trans a4, k5.trans a5⟩

theorem or_and_outside (c a q : Nat) (hq : q &&& a = 0) : (c ||| a) &&& q = c &&& q := by
  apply Nat.eq_of_testBit_eq
  intro i
  have hd := testBit_of_and_eq_zero hq i
  simp only [Nat.testBit_and, Nat.testBit_or]
  cases hqi : q.testBit i
  · simp
  · simp [hd hqi]

theorem clear_and_outside (c a q : Nat) (hc : c < 2 ^ 32) (hq : q &&& a = 0) :
    (c &&& not32 a) &&& q = c &&& q := by
  apply Nat.eq_of_testBit_eq
  intro i
  have hd := testBit_of_and_eq_zero hq i
  have hlt := lt_of_testBit_u32 hc i
  simp only [Nat.testBit_and, testBit_not32]
  cases hqi : q.testBit i
  · simp
  · cases hci : c.testBit i
    · simp
    · simp [hd hqi, hlt hci]

theorem subset_disjoint {s m q : Nat} (hs : s &&& m = s) (hq : q &&& m = 0) : q &&& s = 0 := by
  apply Nat.eq_of_testBit_eq
  intro i
  have hd := testBit_of_and_eq_zero hq i
  have hsub := testBit_of_and_eq_left hs i
  simp only [Nat.testBit_and, Nat.zero_testBit]
  cases hqi : q.testBit i
  · simp
  · cases hsi : s.testBit i
    · simp
    · have := hd hqi
      rw [hsub hsi] at this
      exact absurd this (by decide)

/-- C17: for every request and every hardware behaviour on which `_spi_xfer` returns, the
configuration register afterwards is the prior one with only the `KWSPI_XFERLEN_MASK` field
replaced by `KWSPI_XFERLEN_1BYTE` (every field disjoint from that mask, such as prescaler,
address length and mode bits, is unchanged), `ctrl` differs from its prior value at most in the
`KWSPI_CSN_ACT` bit (every field disjoint from it, such as the chip-select index, is unchanged),
`timing1`, `irq_mask` and the platform data are unchanged, and without `SPI_XFER_BEGIN` and
without `SPI_XFER_END` `ctrl` is unchanged altogether. -/
theorem spi_xfer_config (K : Header) (hw : Hw) (fuel bitlen : Nat) (dout : Option (List Nat))
    (din : Option Nat) (flags : Nat) (w : World) (r : Int) (w1 : World)
    (h : _spi_xfer K hw fuel bitlen dout din flags w = some (r, w1))
    (hX : K.KWSPI_XFERLEN_1BYTE &&& K.KWSPI_XFERLEN_MASK = K.KWSPI_XFERLEN_1BYTE)
    (hcfg : w.reg.cfg < 2 ^ 32) (hctrl : w.reg.ctrl < 2 ^ 32) :
    w1.reg.cfg = (w.reg.cfg &&& not32 K.KWSPI_XFERLEN_MASK) ||| K.KWSPI_XFERLEN_1BYTE ∧
    w1.reg.cfg &&& K.KWSPI_XFERLEN_MASK = K.KWSPI_XFERLEN_1BYTE ∧
    (∀ q, q &&& K.KWSPI_XFERLEN_MASK = 0 → w1.reg.cfg &&& q = w.reg.cfg &&& q) ∧
    (∀ q, q &&& K.KWSPI_CSN_ACT = 0 → w1.reg.ctrl &&& q = w.reg.ctrl &&& q) ∧
    w1.reg.timing1 = w.reg.timing1 ∧ w1.reg.irq_mask = w.reg.irq_mask ∧ w1.plat = w.plat ∧
    (flags &&& K.SPI_XFER_BEGIN = 0 → flags &&& K.SPI_XFER_END = 0 →
      w1.reg.ctrl = w.reg.ctrl) := by
  obtain ⟨k1, k2, k3, k4, k5⟩ := spi_xfer_kept K hw fuel bitlen dout din flags w r w1 h
  refine ⟨k3, ?_, ?_, ?_, k4, k5, k1, ?_⟩
  · rw [k3]; exact sample_field_and _ _ _ hX
  · intro q hq
    rw [k3, or_and_outside _ _ _ (subset_disjoint hX hq), clear_and_outside _ _ _ hcfg hq]
  · intro q hq
    rw [k2]
    by_cases hB : flags &&& K.SPI_XFER_BEGIN ≠ 0 <;> by_cases hE : flags &&& K.SPI_XFER_END ≠ 0
    · rw [if_pos hE, if_pos hB]
      apply Nat.eq_of_testBit_eq
      intro i
      have hd := testBit_of_and_eq_zero hq i
      have hlt := lt_of_testBit_u32 hctrl i
      simp only [Nat.testBit_and, Nat.testBit_or, testBit_not32]
      cases hqi : q.testBit i
      · simp
      · cases hci : w.reg.ctrl.testBit i
        · simp [hd hqi]
        · simp [hd hqi, hlt hci]
    · rw [if_neg hE, if_pos hB]
      exact or_and_outside _ _ _ hq
    · rw [if_pos hE, if_neg hB]
      exact clear_and_outside _ _ _ hctrl hq
    · rw [if_neg hE, if_neg hB]
  · intro hB hE
    rw [k2]
    simp [hB, hE]

/-- Instance of the C17 theorem: upstream constants, the one-byte request with both flags whose
first attempt times out, from the idle world `ctrl = 2`, `cfg = 0x212`, `timing1 = 0x40`. -/
theorem spi_xfer_config_witness :
    _spi_xfer (upstream 250000000) hw_late 2 8 (some [0xA5]) (some 0) 3 idle_world
      = some (0, late_run) ∧
    (upstream 250000000).KWSPI_XFERLEN_1BYTE &&& (upstream 250000000).KWSPI_XFERLEN_MASK
      = (upstream 250000000).KWSPI_XFERLEN_1BYTE ∧
    idle_world.reg.cfg < 2 ^ 32 ∧
    idle_world.reg.ctrl < 2 ^ 32 ∧
    (late_run.reg.cfg = (idle_world.reg.cfg &&& not32 (upstream 250000000).KWSPI_XFERLEN_MASK)
        ||| (upstream 250000000).KWSPI_XFERLEN_1BYTE ∧
    late_run.reg.cfg &&& (upstream 250000000).KWSPI_XFERLEN_MASK
      = (upstream 250000000).KWSPI_XFERLEN_1BYTE ∧
    (∀ q, q &&& (upstream 250000000).KWSPI_XFERLEN_MASK = 0 → late_run.reg.cfg &&& q =
        idle_world.reg.cfg &&& q) ∧
    (∀ q, q &&& (upstream 250000000).KWSPI_CSN_ACT = 0 → late_run.reg.ctrl &&& q =
        idle_world.reg.ctrl &&& q) ∧
    late_run.reg.timing1 = idle_world.reg.timing1 ∧ late_run.reg.irq_mask =
        idle_world.reg.irq_mask ∧ late_run.plat = idle_world.plat ∧
    (3 &&& (upstream 250000000).SPI_XFER_BEGIN = 0 → 3 &&& (upstream 250000000).SPI_XFER_END = 0 →
      late_run.reg.ctrl = idle_world.reg.ctrl)) :=
  ⟨spi_xfer_late_run, by decide, by decide, by decide,
    spi_xfer_config (upstream 250000000) hw_late 2 8 (some [0xA5]) (some 0) 3 idle_world 0
      late_run spi_xfer_late_run (by decide) (by decide) (by decide)⟩

/-! ## Configuration logic: the prescaler as a function of the frequency -/

/-- The two clamping assignments of `mvebu_spi_set_speed` keep the order of their input. -/
theorem clamp_steps_mono (lo hi a b : Nat) (h : a ≤ b) :
    (if (if a < lo then lo else a) > hi then hi else (if a < lo then lo else a)) ≤
      (if (if b < lo then lo else b) > hi then hi else (if b < lo then lo else b)) := by
  split_ifs <;> omega

theorem half_tclk_div_le (T hz : Nat) (h : T / 4 < hz) : T / 2 / hz ≤ 1 := by
  have hpos : 0 < hz := by omega
  have h2 : T / 2 < 2 * hz := by omega
  have h3 : T / 2 / hz < 2 := by
    rw [Nat.div_lt_iff_lt_mul hpos]
    omega
  omega

/-- C18: the prescaler that `mvebu_spi_set_speed` programs does not grow with the target
frequency: for `0 < hz1 ≤ hz2` both calls return, write `KWSPI_ADRLEN_3BYTE | data` to `cfg`, and
the clamped `data` for `hz2` is at most the one for `hz1`; and with a minimum of at least `0x12`
(the offset `0x10` plus 2) that is not above the mask, every `hz > CONFIG_SYS_TCLK / 4` gets
exactly `KWSPI_CLKPRESCL_MIN`. `CONFIG_SYS_TCLK` is a 32-bit value. -/
theorem set_speed_antitone (K : Header) (hT : K.CONFIG_SYS_TCLK < 2 ^ 32) :
    (∀ hz1 hz2 : Nat, 0 < hz1 → hz1 ≤ hz2 →
      (∀ w : World,
        mvebu_spi_set_speed K hz1 w =
          some (0, writel (K.KWSPI_ADRLEN_3BYTE ||| set_speed_prescaler K hz1) Reg.cfg w) ∧
        mvebu_spi_set_speed K hz2 w =
          some (0, writel (K.KWSPI_ADRLEN_3BYTE ||| set_speed_prescaler K hz2) Reg.cfg w)) ∧
      set_speed_prescaler K hz2 ≤ set_speed_prescaler K hz1) ∧
    (0x12 ≤ K.KWSPI_CLKPRESCL_MIN → K.KWSPI_CLKPRESCL_MIN ≤ K.KWSPI_CLKPRESCL_MASK →
      ∀ hz : Nat, K.CONFIG_SYS_TCLK / 4 < hz →
        set_speed_prescaler K hz = K.KWSPI_CLKPRESCL_MIN) := by
  constructor
  · intro hz1 hz2 h1 h12
    refine ⟨fun w => ⟨set_speed_some K hz1 w h1, set_speed_some K hz2 w (by omega)⟩, ?_⟩
    have hq : K.CONFIG_SYS_TCLK / 2 / hz2 ≤ K.CONFIG_SYS_TCLK / 2 / hz1 :=
      Nat.div_le_div_left h12 h1
    have hb : K.CONFIG_SYS_TCLK / 2 / hz1 ≤ K.CONFIG_SYS_TCLK / 2 := Nat.div_le_self _ _
    have hm1 : (K.CONFIG_SYS_TCLK / 2 / hz1 + 0x10) % 2 ^ 32 = K.CONFIG_SYS_TCLK / 2 / hz1 + 0x10 :=
      Nat.mod_eq_of_lt (by omega)
    have hm2 : (K.CONFIG_SYS_TCLK / 2 / hz2 + 0x10) % 2 ^ 32 = K.CONFIG_SYS_TCLK / 2 / hz2 + 0x10 :=
      Nat.mod_eq_of_lt (by omega)
    simp only [set_speed_prescaler, hm1, hm2]
    exact clamp_steps_mono _ _ _ _ (by omega)
  · intro hmin hK hz hhz
    have hq := half_tclk_div_le K.CONFIG_SYS_TCLK hz hhz
    have hm : (K.CONFIG_SYS_TCLK / 2 / hz + 0x10) % 2 ^ 32 = K.CONFIG_SYS_TCLK / 2 / hz + 0x10 :=
      Nat.mod_eq_of_lt (by omega)
    simp only [set_speed_prescaler, hm]
    split_ifs <;> omega

/-- Instance of the C18 theorem: the upstream constants with a core clock of 250 MHz. -/
theorem set_speed_antitone_witness :
    (upstream 250000000).CONFIG_SYS_TCLK < 2 ^ 32 ∧
    ((∀ hz1 hz2 : Nat, 0 < hz1 → hz1 ≤ hz2 →
      (∀ w : World,
        mvebu_spi_set_speed (upstream 250000000) hz1 w =
          some (0, writel ((upstream 250000000).KWSPI_ADRLEN_3BYTE |||
            set_speed_prescaler (upstream 250000000) hz1) Reg.cfg w) ∧
        mvebu_spi_set_speed (upstream 250000000) hz2 w =
          some (0, writel ((upstream 250000000).KWSPI_ADRLEN_3BYTE |||
            set_speed_prescaler (upstream 250000000) hz2) Reg.cfg w)) ∧
      set_speed_prescaler (upstream 250000000) hz2 ≤
        set_speed_prescaler (upstream 250000000) hz1) ∧
    (0x12 ≤ (upstream 250000000).KWSPI_CLKPRESCL_MIN →
      (upstream 250000000).KWSPI_CLKPRESCL_MIN ≤ (upstream 250000000).KWSPI_CLKPRESCL_MASK →
      ∀ hz : Nat, (upstream 250000000).CONFIG_SYS_TCLK / 4 < hz →
        set_speed_prescaler (upstream 250000000) hz =
          (upstream 250000000).KWSPI_CLKPRESCL_MIN)) :=
  ⟨by decide, set_speed_antitone (upstream 250000000) (by decide)⟩

/-- Prescalers of the 250 MHz controller from 1 MHz to 200 MHz: `0x1f` (clamped from above),
`0x1c`, `0x15`, `0x12` at 62.5 MHz (a quarter of the core clock), and `0x12` beyond. -/
theorem set_speed_prescaler_run :
    [1000000, 10000000, 25000000, 62500000, 62500001, 200000000].map
      (set_speed_prescaler (upstream 250000000)) = [0x1f, 0x1c, 0x15, 0x12, 0x12, 0x12] := by
  decide

/-! ## Bus lifecycle: the platform data -/

theorem xfer_iters_kept (K : Header) (hw : Hw) (n : Nat) :
    ∀ (x : XferVars) (w : World), config_kept w (xfer_iters K hw n x w).2 := by
  induction n with
  | zero => intro x w; exact config_kept_refl w
  | succ n ih =>
    intro x w
    simp only [xfer_iters]
    exact config_kept_trans (xfer_iter_kept K hw x w) (ih _ _)

theorem driver_data_flag (compat : String) (d : mvebu_spi_dev)
    (h : dev_get_driver_data compat = some d) :
    d.is_errata_50mhz_ac = true ↔ compat = "marvell,armada-380-spi" := by
  simp only [dev_get_driver_data, mvebu_spi_ids, List.find?] at h
  split at h
  · rename_i h1
    simp at h1 h
    subst h1; subst h
    decide
  · split at h
    · rename_i h1
      simp at h1 h
      subst h1; subst h
      decide
    · split at h
      · rename_i h1
        simp at h1 h
        subst h1; subst h
        decide
      · split at h
        · rename_i h1
          simp at h1 h
          subst h1; subst h
          decide
        · simp at h

/-- C19: the erratum flag and the register handle of the bus are untouched by `mvebu_spi_probe`,
`mvebu_spi_claim_bus`, `mvebu_spi_release_bus`, `mvebu_spi_set_speed`, `mvebu_spi_set_mode` and
`mvebu_spi_xfer` (for the transfer also after any number of loop iterations, whether or not the
call returns); `mvebu_spi_of_to_plat` stores the address it is given and the flag of the matched
variant and leaves the registers alone; the match table lists orion, armada-375, armada-380 and
armada-xp, and the flag is set for armada-380 only. -/
theorem plat_fixed :
    (∀ (K : Header) (w : World), (mvebu_spi_probe K w).2.plat = w.plat) ∧
    (∀ (K : Header) (hw : Hw) (cs : Nat) (w : World),
      (mvebu_spi_claim_bus K hw cs w).2.plat = w.plat) ∧
    (∀ w : World, (mvebu_spi_release_bus w).2 = w) ∧
    (∀ (K : Header) (hz : Nat) (w : World),
      (0 < hz → ∃ w1, mvebu_spi_set_speed K hz w = some (0, w1)) ∧
      ∀ (r : Int) (w1 : World), mvebu_spi_set_speed K hz w = some (r, w1) → w1.plat = w.plat) ∧
    (∀ (K : Header) (hw : Hw) (mode : Nat) (w : World),
      (mvebu_spi_set_mode K hw mode w).2.plat = w.plat) ∧
    (∀ (K : Header) (hw : Hw) (fuel bitlen : Nat) (dout : Option (List Nat)) (din : Option Nat)
        (flags : Nat) (w : World) (r : Int) (w1 : World),
      mvebu_spi_xfer K hw fuel bitlen dout din flags w = some (r, w1) → w1.plat = w.plat) ∧
    (∀ (K : Header) (hw : Hw) (n : Nat) (x : XferVars) (w : World),
      (xfer_iters K hw n x w).2.plat = w.plat) ∧
    (∀ (addr : Nat) (drvdata : mvebu_spi_dev) (w : World),
      (mvebu_spi_of_to_plat addr drvdata w).1 = 0 ∧
      (mvebu_spi_of_to_plat addr drvdata w).2.plat =
        { spireg := addr, is_errata_50mhz_ac := drvdata.is_errata_50mhz_ac } ∧
      (mvebu_spi_of_to_plat addr drvdata w).2.reg = w.reg ∧
      (mvebu_spi_of_to_plat addr drvdata w).2.trace = w.trace) ∧
    mvebu_spi_ids.map (fun e => e.compatible) =
      ["marvell,orion-spi", "marvell,armada-375-spi", "marvell,armada-380-spi",
        "marvell,armada-xp-spi"] ∧
    (mvebu_spi_ids.filter (fun e => e.data.is_errata_50mhz_ac)).map (fun e => e.compatible) =
      ["marvell,armada-380-spi"] ∧
    (∀ (compat : String) (d : mvebu_spi_dev), dev_get_driver_data compat = some d →
      ∀ (addr : Nat) (w : World),
        ((mvebu_spi_of_to_plat addr d w).2.plat.is_errata_50mhz_ac = true ↔
          compat = "marvell,armada-380-spi")) ∧
    (∀ compat : String, compat ∈ mvebu_spi_ids.map (fun e => e.compatible) →
      ∃ d, dev_get_driver_data compat = some d) := by
  refine ⟨fun K w => rfl, fun K hw cs w => ?_, fun w => rfl, fun K hz w => ⟨fun h => ?_, ?_⟩,
    fun K hw mode w => ?_, ?_, fun K hw n x w => (xfer_iters_kept K hw n x w).1,
    fun addr d w => ⟨rfl, rfl, rfl, rfl⟩, by decide, by decide, ?_, ?_⟩
  · simp [mvebu_spi_claim_bus, mvebu_board_spi_claim_bus, clrsetbits_le32, readl, writel]
  · exact ⟨_, set_speed_some K hz w h⟩
  · intro r w1 h
    simp only [mvebu_spi_set_speed] at h
    split at h
    · exact absurd h (by simp)
    · simp only [Option.some.injEq, Prod.mk.injEq] at h
      rw [← h.2]
      rfl
  · simp only [mvebu_spi_set_mode, readl, writel]
    split <;> simp [mvebu_spi_50mhz_ac_timing_erratum, readl, writel]
  · intro K hw fuel bitlen dout din flags w r w1 h
    exact (spi_xfer_kept K hw fuel bitlen dout din flags w r w1 h).1
  · intro compat d h addr w
    exact driver_data_flag compat d h
  · intro compat h
    simp only [mvebu_spi_ids, List.map, List.mem_cons, List.mem_singleton, List.not_mem_nil,
      or_false] at h
    rcases h with h | h | h | h <;> subst h <;> exact ⟨_, rfl⟩

end KirkwoodSpi
